import Mathlib

/-!
PISM enthalpy column solver: a shallow embedding.

The development embeds the per-column enthalpy code of PISM
(`src/base/iMenthalpy.cc`, `src/base/energy/enthSystem.cc`) and the basal water code
(`src/base/iMhydrology.cc`) in Lean.

Conventions of the embedding:

* `PetscScalar` / `PetscReal` values are exact rationals (`ℚ`); rounding, infinities and
  NaN of IEEE doubles are outside the model.  Division is the total division of `ℚ`;
  statements whose meaning depends on a non-zero denominator carry that hypothesis.
  The class `DrainageCalculator` is embedded over an arbitrary ordered field, so that its
  rate function can be evaluated over `ℚ` and studied over `ℝ`.
* `PetscInt` values are `Int`; a C array `PetscScalar *a` is a total function `Int → ℚ`,
  and a store `a[k] = v` is `setAt a k v`.
* a counted loop `for (k = lo; k < hi; k++)` is `forLoop lo body (hi - lo).toNat`.
* collaborators whose code is not part of the embedded files (the enthalpy converter, the
  grid, the neighbour enthalpies) are parameters.
-/

namespace PISM

/-! ## Basic machinery -/

/-- The loop `for (k = lo; k < lo + n; k++) s = body k s`, by recursion on the
number `n` of iterations. -/
def forLoop {σ : Type} (lo : Int) (body : Int → σ → σ) : Nat → σ → σ
  | 0, s => s
  | n + 1, s => body (lo + (n : Int)) (forLoop lo body n s)

/-- The array store `a[k] = v`. -/
def setAt (a : Int → ℚ) (k : Int) (v : ℚ) : Int → ℚ :=
  fun m => if m = k then v else a m

/-- The macro `PetscMin(a,b)`, that is `((a)<(b)) ? (a) : (b)`. -/
def PetscMin (a b : ℚ) : ℚ := if a < b then a else b

/-- The macro `PetscMax(a,b)`, that is `((a)<(b)) ? (b) : (a)`. -/
def PetscMax (a b : ℚ) : ℚ := if a < b then b else a

/-- The macro `PetscAbs(a)`, that is `((a) >= 0) ? (a) : -(a)`. -/
def PetscAbs (a : ℚ) : ℚ := if 0 ≤ a then a else -a

/-- The macro `PetscSqr(a)`. -/
def PetscSqr (a : ℚ) : ℚ := a * a

/-- The constant `secpera = 3.15569259747e7` of `pism_const.hh`. -/
def secpera : ℚ := 315569259747 / 10000

/-- The material constants read through `ice->rho`, `ice->c_p`, `ice->k`. -/
structure IceFlowLaw where
  rho : ℚ
  c_p : ℚ
  k : ℚ

/-- The part of `IceGrid` used by the enthalpy code: the fine vertical grid. -/
structure IceGrid where
  dx : ℚ
  dy : ℚ
  Mz_fine : Int
  dz_fine : ℚ
  zlevels_fine : Int → ℚ

/-- The enthalpy converter `EC` (class `EnthalpyConverter`, declared outside the embedded
files): its methods are parameters of the embedding. -/
structure EnthalpyConverter where
  getPressureFromDepth : ℚ → ℚ
  getEnthalpyCTS : ℚ → ℚ
  getMeltingTemp : ℚ → ℚ
  isTemperate : ℚ → ℚ → Bool
  getEnthPermissive : ℚ → ℚ → ℚ → ℚ
  getWaterFraction : ℚ → ℚ → ℚ

/-! ## `IceModel::getEnthalpyCTSColumn` -/

/-- The two results of `getEnthalpyCTSColumn`: `*lambda` and the array `*Enth_s`. -/
structure CTSColumn where
  lambda : ℚ
  Enth_s : Int → ℚ

/-- Body of the first loop of `getEnthalpyCTSColumn` (levels `0..ks`). -/
def ctsIceBody (EC : EnthalpyConverter) (grid : IceGrid) (ice : IceFlowLaw) (thk : ℚ)
    (Enth w : Int → ℚ) (k : Int) (s : CTSColumn) : CTSColumn :=
  let Enth_s := setAt s.Enth_s k
    (EC.getEnthalpyCTS (EC.getPressureFromDepth (thk - grid.zlevels_fine k)))
  if Enth k > Enth_s k then
    { lambda := 0, Enth_s := Enth_s }
  else
    let denom := (PetscAbs (w k) + 0.000001 / secpera) * (ice.rho * ice.c_p) * grid.dz_fine
    { lambda := PetscMin s.lambda (2 * ice.k / denom), Enth_s := Enth_s }

/-- Body of the second loop of `getEnthalpyCTSColumn` (air levels above `ks`). -/
def ctsAirBody (EC : EnthalpyConverter) (p_air : ℚ) (k : Int) (s : CTSColumn) : CTSColumn :=
  { s with Enth_s := setAt s.Enth_s k (EC.getEnthalpyCTS p_air) }

/-- `IceModel::getEnthalpyCTSColumn`; `Enth_s0` is the content of the output buffer on
entry. -/
def getEnthalpyCTSColumn (EC : EnthalpyConverter) (grid : IceGrid) (ice : IceFlowLaw)
    (p_air thk : ℚ) (ks : Int) (Enth w : Int → ℚ) (Enth_s0 : Int → ℚ) : CTSColumn :=
  let s0 : CTSColumn := { lambda := 1, Enth_s := Enth_s0 }
  let s1 := forLoop 0 (ctsIceBody EC grid ice thk Enth w) (ks + 1).toNat s0
  forLoop (ks + 1) (ctsAirBody EC p_air) (grid.Mz_fine - (ks + 1)).toNat s1

/-! ## `enthSystemCtx` (`enthSystem.cc`) -/

/-- The template `planeStar<T>`: a value at a grid point and at its four neighbours. -/
structure planeStar (α : Type) where
  ij : α
  e : α
  w : α
  n : α
  s : α

/-- The class `Mask` (declared outside the embedded files): only `ice_free` is used. -/
structure Mask where
  ice_free : Int → Bool

/-- The state of an `enthSystemCtx` object, with the arrays `L`, `D`, `U`, `rhs` of its
base class `columnSystemCtx`.  The sentinel `GSL_NAN` of `a0`, `a1`, `b` is `none`.
`getPlaneStar_fine i j k` is the result `ss` of `Enth3->getPlaneStar_fine(i,j,k,&ss)`. -/
structure enthSystemCtx where
  L : Int → ℚ
  D : Int → ℚ
  U : Int → ℚ
  rhs : Int → ℚ
  Mz : Int
  ice_rho : ℚ
  ice_c : ℚ
  ice_k : ℚ
  ice_K : ℚ
  ice_K0 : ℚ
  dx : ℚ
  dy : ℚ
  dtTemp : ℚ
  dzEQ : ℚ
  nuEQ : ℚ
  iceRcold : ℚ
  iceRtemp : ℚ
  i : Int
  j : Int
  ks : Int
  ismarginal : Bool
  Msk : planeStar Int
  lambda : ℚ
  Enth_ks : ℚ
  a0 : Option ℚ
  a1 : Option ℚ
  b : Option ℚ
  UpEnthu : ℚ
  UpEnthv : ℚ
  u : Int → ℚ
  v : Int → ℚ
  w : Int → ℚ
  Sigma : Int → ℚ
  Enth : Int → ℚ
  Enth_s : Int → ℚ
  R : Int → ℚ
  getPlaneStar_fine : Int → Int → Int → planeStar ℚ

/-- `enthSystemCtx::initAllColumns`. -/
def initAllColumns (c : enthSystemCtx) (my_dx my_dy my_dtTemp my_dzEQ : ℚ) : enthSystemCtx :=
  { c with
    dx := my_dx
    dy := my_dy
    dtTemp := my_dtTemp
    dzEQ := my_dzEQ
    nuEQ := my_dtTemp / my_dzEQ
    iceRcold := (c.ice_K / c.ice_rho) * my_dtTemp / PetscSqr my_dzEQ
    iceRtemp := (c.ice_K0 / c.ice_rho) * my_dtTemp / PetscSqr my_dzEQ }

/-- `enthSystemCtx::assemble_R` (release build: entries above `ks` are left alone). -/
def assemble_R (c : enthSystemCtx) : enthSystemCtx :=
  { c with
    R := forLoop 0
      (fun k R => setAt R k (if c.Enth k < c.Enth_s k then c.iceRcold else c.iceRtemp))
      (c.ks + 1).toNat c.R }

/-- `enthSystemCtx::initThisColumn`. -/
def initThisColumn (c : enthSystemCtx) (my_ismarginal : Bool) (my_Msk : planeStar Int)
    (my_lambda : ℚ) : enthSystemCtx :=
  assemble_R { c with ismarginal := my_ismarginal, lambda := my_lambda, Msk := my_Msk }

/-- `enthSystemCtx::setBoundaryValuesThisColumn`. -/
def setBoundaryValuesThisColumn (c : enthSystemCtx) (my_Enth_surface : ℚ) : enthSystemCtx :=
  { c with Enth_ks := my_Enth_surface }

/-- `enthSystemCtx::checkReadyToSolve`: the error code returned (0 for success). -/
def checkReadyToSolve (c : enthSystemCtx) : Int :=
  if c.nuEQ < 0 ∨ c.iceRcold < 0 ∨ c.iceRtemp < 0 then 2
  else if c.lambda < 0 then 3
  else 0

/-- `enthSystemCtx::setDirichletBasal`. -/
def setDirichletBasal (c : enthSystemCtx) (Y : ℚ) : enthSystemCtx :=
  { c with a0 := some 1, a1 := some 0, b := some Y }

/-- `enthSystemCtx::getMarginalEnth`: the pair `(UpEnthu, UpEnthv)`. -/
def getMarginalEnth (m : Mask) (dx : ℚ) (ss : planeStar ℚ) (u0 v0 : ℚ) (M : planeStar Int) :
    ℚ × ℚ :=
  let UpEnthu :=
    if u0 < 0 ∧ ¬ m.ice_free M.e = true then u0 * (ss.e - ss.ij) / dx
    else if u0 > 0 ∧ ¬ m.ice_free M.w = true then u0 * (ss.ij - ss.w) / dx
    else 0
  let UpEnthv :=
    if v0 < 0 ∧ ¬ m.ice_free M.n = true then v0 * (ss.n - ss.ij) / dx
    else if v0 > 0 ∧ ¬ m.ice_free M.s = true then v0 * (ss.ij - ss.s) / dx
    else 0
  (UpEnthu, UpEnthv)

/-- The horizontal upwind terms `(UpEnthu, UpEnthv)` at level `k`, as computed (identically)
in `setBasalHeatFlux` and in the loop of `solveThisColumn`; both read the plane star at
level `0`. -/
def upwindTerms (m : Mask) (c : enthSystemCtx) (k : Int) : ℚ × ℚ :=
  let ss := c.getPlaneStar_fine c.i c.j 0
  if ¬ c.ismarginal = true then
    (if c.u k < 0 then c.u k * (ss.e - ss.ij) / c.dx else c.u k * (ss.ij - ss.w) / c.dx,
     if c.v k < 0 then c.v k * (ss.n - ss.ij) / c.dy else c.v k * (ss.ij - ss.s) / c.dy)
  else
    getMarginalEnth m c.dx ss (c.u k) (c.v k) c.Msk

/-- The ghost-point elimination of `setBasalHeatFlux` from the line that defines `Rc` on,
for a given gradient `Y` (`∂E/∂z = Y` at the base). -/
def neumannRow (m : Mask) (c : enthSystemCtx) (Y : ℚ) : enthSystemCtx :=
  let Rc := c.R 0
  let Rr := c.R 1
  let Rminus := Rc
  let Rplus := 0.5 * (Rc + Rr)
  let a0 := 1 + Rminus + Rplus
  let a1 := - Rminus - Rplus
  let X := - 2 * c.dzEQ * Y
  let b := c.Enth 0 + Rminus * X
  let up := upwindTerms m c 0
  { c with
    a0 := some a0
    a1 := some a1
    UpEnthu := up.1
    UpEnthv := up.2
    b := some (b + c.dtTemp * ((c.Sigma 0 / c.ice_rho) - up.1 - up.2)) }

/-- `enthSystemCtx::setBasalHeatFlux`. -/
def setBasalHeatFlux (m : Mask) (c : enthSystemCtx) (hf : ℚ) : enthSystemCtx :=
  let K := (c.ice_rho * PetscSqr c.dzEQ * c.R 0) / c.dtTemp
  let Y := - hf / K
  neumannRow m c Y

/-- Modelled from the spec: `enthSystemCtx::setNeumannBasal(Y)` is called by the driver but
defined outside the embedded files; following the spec (a Neumann condition eliminates a
ghost level below the base by a second-order one-sided difference) it is the ghost-point
elimination of `setBasalHeatFlux` applied to the gradient `Y` itself. -/
def setNeumannBasal (m : Mask) (c : enthSystemCtx) (Y : ℚ) : enthSystemCtx :=
  neumannRow m c Y

/-- The value of `L[k]` at the end of the loop body of `solveThisColumn`: `L[k] = -Rminus`
followed by the `-=` of the branch taken. -/
def interiorL (c : enthSystemCtx) (k : Int) : ℚ :=
  let Rminus := 0.5 * (c.R (k - 1) + c.R k)
  let AA := c.nuEQ * c.w k
  if c.w k ≥ 0 then - Rminus - AA * (1 - c.lambda / 2) else - Rminus - AA * (c.lambda / 2)

/-- The value of `D[k]` at the end of the loop body of `solveThisColumn`. -/
def interiorD (c : enthSystemCtx) (k : Int) : ℚ :=
  let Rminus := 0.5 * (c.R (k - 1) + c.R k)
  let Rplus := 0.5 * (c.R k + c.R (k + 1))
  let AA := c.nuEQ * c.w k
  if c.w k ≥ 0 then 1 + Rminus + Rplus + AA * (1 - c.lambda)
  else 1 + Rminus + Rplus - AA * (1 - c.lambda)

/-- The value of `U[k]` at the end of the loop body of `solveThisColumn`. -/
def interiorU (c : enthSystemCtx) (k : Int) : ℚ :=
  let Rplus := 0.5 * (c.R k + c.R (k + 1))
  let AA := c.nuEQ * c.w k
  if c.w k ≥ 0 then - Rplus + AA * (c.lambda / 2) else - Rplus + AA * (1 - c.lambda / 2)

/-- The value of `rhs[k]` at the end of the loop body of `solveThisColumn`. -/
def interiorRhs (m : Mask) (c : enthSystemCtx) (k : Int) : ℚ :=
  let up := upwindTerms m c k
  c.Enth k + c.dtTemp * ((c.Sigma k / c.ice_rho) - up.1 - up.2)

/-- Body of the loop over the interior levels `1 ≤ k < ks` in `solveThisColumn`. -/
def interiorRow (m : Mask) (k : Int) (c : enthSystemCtx) : enthSystemCtx :=
  { c with
    L := setAt c.L k (interiorL c k)
    D := setAt c.D k (interiorD c k)
    U := setAt c.U k (interiorU c k)
    UpEnthu := (upwindTerms m c k).1
    UpEnthv := (upwindTerms m c k).2
    rhs := setAt c.rhs k (interiorRhs m c k) }

/-- The Dirichlet condition at the top of the ice in `solveThisColumn`. -/
def topRow (c : enthSystemCtx) : enthSystemCtx :=
  { c with
    L := if c.ks > 0 then setAt c.L c.ks 0 else c.L
    D := setAt c.D c.ks 1
    U := if c.ks < c.Mz - 1 then setAt c.U c.ks 0 else c.U
    rhs := setAt c.rhs c.ks c.Enth_ks }

/-- The assembly part of `solveThisColumn` (everything before the call of
`solveTridiagonalSystem`).  The result is `none` when a basal coefficient still holds the
sentinel `GSL_NAN`: such rows are not a system over the rationals. -/
def assembleRows (m : Mask) (c : enthSystemCtx) : Option enthSystemCtx :=
  match c.a0, c.a1, c.b with
  | some a0, some a1, some b =>
    let c0 := { c with D := setAt c.D 0 a0, U := setAt c.U 0 a1, rhs := setAt c.rhs 0 b }
    some (topRow (forLoop 1 (interiorRow m) (c.ks - 1).toNat c0))
  | _, _, _ => none

/-- The method `columnSystemCtx::solveTridiagonalSystem(n, &x)` (defined outside the
embedded files), as a parameter: from `L`, `D`, `U`, `rhs`, the size `n` and the buffer
`x` it yields the pivot error index and the new content of `x`. -/
structure TridiagonalSolver where
  solve : (Int → ℚ) → (Int → ℚ) → (Int → ℚ) → (Int → ℚ) → Int → (Int → ℚ) → Int × (Int → ℚ)

/-- `enthSystemCtx::solveThisColumn` (release build): the context after the call, the new
content of `*x` and `pivoterrorindex`. -/
def solveThisColumn (m : Mask) (solver : TridiagonalSolver) (c : enthSystemCtx)
    (x : Int → ℚ) : Option (enthSystemCtx × (Int → ℚ) × Int) :=
  match assembleRows m c with
  | none => none
  | some c1 =>
    let r := solver.solve c1.L c1.D c1.U c1.rhs (c1.ks + 1) x
    let x1 := forLoop (c1.ks + 1) (fun k y => setAt y k c1.Enth_ks) (c1.Mz - (c1.ks + 1)).toNat r.2
    some (c1, x1, r.1)

/-- Row `k` of the tridiagonal system of size `ks + 1` held in `L`, `D`, `U`, `rhs`
(`L[0]` and `U[ks]` are not part of the matrix). -/
def rowHolds (c : enthSystemCtx) (x : Int → ℚ) (k : Int) : Prop :=
  (if k = 0 then 0 else c.L k * x (k - 1)) + c.D k * x k
    + (if k = c.ks then 0 else c.U k * x (k + 1)) = c.rhs k

/-- The column `x` solves the rows `0..ks` of the system held in the context. -/
def IsSolution (c : enthSystemCtx) (x : Int → ℚ) : Prop :=
  ∀ k : Int, 0 ≤ k → k ≤ c.ks → rowHolds c x k

/-- The constructor `enthSystemCtx::enthSystemCtx` applied to the configuration values
`ice_density`, `ice_specific_heat_capacity`, `ice_thermal_conductivity`,
`enthalpy_temperate_conductivity_ratio`; the members it leaves uninitialised hold `junk`
(scalars: `junk 0`). -/
def newEnthSystemCtx (ice_density ice_specific_heat_capacity ice_thermal_conductivity
    enthalpy_temperate_conductivity_ratio : ℚ) (Enth3 : Int → Int → Int → planeStar ℚ)
    (my_Mz : Int) (junk : Int → ℚ) : enthSystemCtx where
  L := junk
  D := junk
  U := junk
  rhs := junk
  Mz := my_Mz
  ice_rho := ice_density
  ice_c := ice_specific_heat_capacity
  ice_k := ice_thermal_conductivity
  ice_K := ice_thermal_conductivity / ice_specific_heat_capacity
  ice_K0 := (ice_thermal_conductivity / ice_specific_heat_capacity)
    * enthalpy_temperate_conductivity_ratio
  dx := junk 0
  dy := junk 0
  dtTemp := junk 0
  dzEQ := junk 0
  nuEQ := -1
  iceRcold := -1
  iceRtemp := -1
  i := 0
  j := 0
  ks := 0
  ismarginal := false
  Msk := { ij := 0, e := 0, w := 0, n := 0, s := 0 }
  lambda := -1
  Enth_ks := junk 0
  a0 := none
  a1 := none
  b := none
  UpEnthu := junk 0
  UpEnthv := junk 0
  u := junk
  v := junk
  w := junk
  Sigma := junk
  Enth := junk
  Enth_s := junk
  R := junk
  getPlaneStar_fine := Enth3

/-! ## The column driver `IceModel::enthalpyAndDrainageStep` (`iMenthalpy.cc`) -/

/-- The configuration values read at the start of `enthalpyAndDrainageStep`, with the time
step `dt_secs`. -/
structure EnthConfig where
  p_air : ℚ
  ice_k : ℚ
  ice_c : ℚ
  L : ℚ
  bulgeEnthMax : ℚ
  hmelt_decay_rate : ℚ
  hmelt_max : ℚ
  dt_secs : ℚ

/-- The map-plane and column data the driver reads at one grid point `(i,j)`: thickness
`vH(i,j)`, the answers of `MaskQuery`, the result of `checkThinNeigh`, the mask star, the
coupler fields, the stored water layer, and the columns delivered by `getValColumn`. -/
structure ColumnInput where
  i : Int
  j : Int
  vH : ℚ
  ocean : Bool
  floating_ice : Bool
  grounded : Bool
  isMarginal : Bool
  Msk : planeStar Int
  artm : ℚ
  liqfrac_surface : ℚ
  shelfbmassflux : ℚ
  shelfbtemp : ℚ
  G0 : ℚ
  Rb : ℚ
  vHmelt : ℚ
  Enth3 : Int → ℚ
  u3 : Int → ℚ
  v3 : Int → ℚ
  w3 : Int → ℚ
  Sigma3 : Int → ℚ

/-- The surface index `ks = static_cast<PetscInt>(floor(vH(i,j)/fdz))`. -/
def columnKs (grid : IceGrid) (inp : ColumnInput) : Int :=
  Int.floor (inp.vH / grid.dz_fine)

/-- The surface enthalpy `Enth_ks` of the column. -/
def columnEnth_ks (EC : EnthalpyConverter) (grid : IceGrid) (inp : ColumnInput) : ℚ :=
  let ks := columnKs grid inp
  let p_ks := EC.getPressureFromDepth (inp.vH - grid.zlevels_fine ks)
  EC.getEnthPermissive inp.artm inp.liqfrac_surface p_ks

/-- The driver state after the lines that gather `Enth` and `w`, compute `lambda` and
`Enth_s`, lift a cold base to pressure melting over subglacial water, and classify the base
and level 1. -/
structure ColumnPrep where
  esys : enthSystemCtx
  lambda : ℚ
  base_is_cold : Bool
  k1_istemperate : Bool

/-- The driver from `getValColumn(i,j,ks,esys.Enth)` to the definition of
`k1_istemperate`. -/
def columnPrepare (EC : EnthalpyConverter) (grid : IceGrid) (ice : IceFlowLaw)
    (cfg : EnthConfig) (inp : ColumnInput) (esys : enthSystemCtx) : ColumnPrep :=
  let ks := columnKs grid inp
  let cts := getEnthalpyCTSColumn EC grid ice cfg.p_air inp.vH ks inp.Enth3 inp.w3 esys.Enth_s
  let Enth :=
    if inp.vHmelt > 0 ∧ inp.Enth3 0 < cts.Enth_s 0 then setAt inp.Enth3 0 (cts.Enth_s 0)
    else inp.Enth3
  let p1 := EC.getPressureFromDepth (inp.vH - grid.dz_fine)
  { esys := { esys with Enth := Enth, w := inp.w3, Enth_s := cts.Enth_s }
    lambda := cts.lambda
    base_is_cold := decide (Enth 0 < cts.Enth_s 0)
    k1_istemperate := EC.isTemperate (Enth 1) p1 }

/-- A call that sets the basal boundary condition of the column system. -/
inductive BasalCall where
  | setDirichletBasal (Y : ℚ)
  | setNeumannBasal (Y : ℚ)
  deriving DecidableEq

/-- The decision chart "determine lowest-level equation at bottom of ice": the calls made,
in order, by the `if (is_floating) ... else if (base_is_cold) ... else ...` statement. -/
def basalCalls (EC : EnthalpyConverter) (cfg : EnthConfig) (inp : ColumnInput)
    (pr : ColumnPrep) : List BasalCall :=
  let ice_K := cfg.ice_k / cfg.ice_c
  if inp.ocean = true then
    let Enth0 := EC.getEnthPermissive inp.shelfbtemp 0 (EC.getPressureFromDepth inp.vH)
    [BasalCall.setDirichletBasal Enth0]
  else if pr.base_is_cold = true then
    [BasalCall.setNeumannBasal (- (inp.G0 + inp.Rb) / ice_K)]
  else
    if pr.k1_istemperate = true then
      [BasalCall.setNeumannBasal 0]
    else
      [BasalCall.setDirichletBasal (pr.esys.Enth_s 0)]

/-- The effect of one basal call on the column system. -/
def applyBasalCall (m : Mask) (c : enthSystemCtx) : BasalCall → enthSystemCtx
  | BasalCall.setDirichletBasal Y => setDirichletBasal c Y
  | BasalCall.setNeumannBasal Y => setNeumannBasal m c Y

/-- Modelled from the spec: `setIndicesAndClearThisColumn(i,j,ks)` and
`setSchemeParamsThisColumn(isMarginal, lambda)` are called by the driver but defined outside
the embedded files.  Following the spec (the driver determines `ks`, gathers the arrays and
runs the phase classifier before the basal condition is chosen) the first records the indices
of the column, and the second is `initThisColumn` with the mask star of the column.  The function is the driver from
`setIndicesAndClearThisColumn` to `setBoundaryValuesThisColumn`. -/
def columnInit (EC : EnthalpyConverter) (grid : IceGrid) (inp : ColumnInput)
    (pr : ColumnPrep) : enthSystemCtx :=
  let c1 := { pr.esys with i := inp.i, j := inp.j, ks := columnKs grid inp }
  let c2 := { c1 with u := inp.u3, v := inp.v3, Sigma := inp.Sigma3 }
  let c3 := initThisColumn c2 inp.isMarginal inp.Msk pr.lambda
  setBoundaryValuesThisColumn c3 (columnEnth_ks EC grid inp)

/-- The basal calls the driver makes for one column: none for an ice-free column
(`ks == 0`, `goto donewithcolumn`), otherwise those of the decision chart. -/
def columnBasalCalls (EC : EnthalpyConverter) (grid : IceGrid) (ice : IceFlowLaw)
    (cfg : EnthConfig) (inp : ColumnInput) (esys : enthSystemCtx) : List BasalCall :=
  if columnKs grid inp = 0 then []
  else basalCalls EC cfg inp (columnPrepare EC grid ice cfg inp esys)

/-- The column system as the driver hands it to the tridiagonal solver: preparation,
initialisation, the basal calls, and the row assembly of `solveThisColumn`.  An ice-free
column (`ks == 0`) is short-circuited and has no system. -/
def columnSystem (EC : EnthalpyConverter) (m : Mask) (grid : IceGrid) (ice : IceFlowLaw)
    (cfg : EnthConfig) (inp : ColumnInput) (esys : enthSystemCtx) : Option enthSystemCtx :=
  if columnKs grid inp = 0 then none
  else
    let pr := columnPrepare EC grid ice cfg inp esys
    let c := columnInit EC grid inp pr
    assembleRows m ((basalCalls EC cfg inp pr).foldl (applyBasalCall m) c)

/-! ## `DrainageCalculator` and the drainage loop (`iMenthalpy.cc`) -/

/-- The members of the class `DrainageCalculator`.  The scalar type `K` is any ordered
field: `ℚ` where the code is evaluated, `ℝ` for statements of analysis. -/
structure DrainageCalculator (K : Type) where
  OM1 : K
  OM2 : K
  OM3 : K
  DR2 : K
  DR3 : K

/-- The constructor `DrainageCalculator::DrainageCalculator`, applied to the configuration
values `drainage_target_water_frac` and `drainage_max_rate`. -/
def newDrainageCalculator {K : Type} [LinearOrderedField K]
    (drainage_target_water_frac drainage_max_rate : K) : DrainageCalculator K where
  OM1 := drainage_target_water_frac
  OM2 := 2 * drainage_target_water_frac
  OM3 := 3 * drainage_target_water_frac
  DR3 := drainage_max_rate
  DR2 := 0.1 * drainage_max_rate

/-- `DrainageCalculator::get_drainage_rate`. -/
def DrainageCalculator.get_drainage_rate {K : Type} [LinearOrderedField K]
    (dc : DrainageCalculator K) (omega : K) : K :=
  if omega > dc.OM1 then
    if omega > dc.OM2 then
      if omega > dc.OM3 then
        dc.DR3
      else
        dc.DR2 + (dc.DR3 - dc.DR2) * (omega - dc.OM2) / dc.OM1
    else
      dc.DR2 * (omega - dc.OM1) / dc.OM1
  else
    0

/-- The variables updated by the drainage loop of `enthalpyAndDrainageStep`. -/
structure DrainState where
  Enthnew : Int → ℚ
  liquifiedCount : Int
  Hdrainedtotal : ℚ

/-- The step `if (Enthnew[k] >= Enth_s[k] + 0.5 * L) { liquifiedCount++; Enthnew[k] = ... }`
of the drainage loop. -/
def capLevel (cfg : EnthConfig) (Enth_s : Int → ℚ) (k : Int) (s : DrainState) : DrainState :=
  if s.Enthnew k ≥ Enth_s k + 0.5 * cfg.L then
    { s with
      liquifiedCount := s.liquifiedCount + 1
      Enthnew := setAt s.Enthnew k (Enth_s k + 0.5 * cfg.L) }
  else s

/-- Body of the drainage loop of `enthalpyAndDrainageStep` (levels `0 ≤ k < ks`); `vH` is
`vH(i,j)` and `Enth_s` is `esys.Enth_s`. -/
def drainLevel (EC : EnthalpyConverter) (dc : DrainageCalculator ℚ) (grid : IceGrid)
    (cfg : EnthConfig) (vH : ℚ) (Enth_s : Int → ℚ) (k : Int) (s : DrainState) : DrainState :=
  if s.Enthnew k > Enth_s k then
    let s1 := capLevel cfg Enth_s k s
    let p := EC.getPressureFromDepth (vH - grid.zlevels_fine k)
    let omega := EC.getWaterFraction (s1.Enthnew k) p
    if omega > 0.01 then
      let fractiondrained :=
        PetscMin (dc.get_drainage_rate omega * cfg.dt_secs) (omega - 0.01)
      { s1 with
        Hdrainedtotal := s1.Hdrainedtotal + fractiondrained * grid.dz_fine
        Enthnew := setAt s1.Enthnew k (s1.Enthnew k - fractiondrained * cfg.L) }
    else s1
  else s

/-- The drainage loop of `enthalpyAndDrainageStep`: `Hdrainedtotal = 0.0` followed by
`for (k = 0; k < ks; k++)`. -/
def drainColumn (EC : EnthalpyConverter) (dc : DrainageCalculator ℚ) (grid : IceGrid)
    (cfg : EnthConfig) (vH : ℚ) (Enth_s : Int → ℚ) (ks : Int) (Enthnew : Int → ℚ)
    (liquifiedCount : Int) : DrainState :=
  forLoop 0 (drainLevel EC dc grid cfg vH Enth_s) ks.toNat
    { Enthnew := Enthnew, liquifiedCount := liquifiedCount, Hdrainedtotal := 0 }

/-! ## The bulge limiter and the column step of `enthalpyAndDrainageStep` -/

/-- The variables updated by the bulge-limiter loop of `enthalpyAndDrainageStep`. -/
structure BulgeState where
  Enthnew : Int → ℚ
  bulgeCount : ℚ

/-- Body of the bulge-limiter loop: `if (Enthnew[k] < lowerEnthLimit) { *bulgeCount += 1;
Enthnew[k] = lowerEnthLimit; }`. -/
def bulgeLevel (lowerEnthLimit : ℚ) (k : Int) (s : BulgeState) : BulgeState :=
  if s.Enthnew k < lowerEnthLimit then
    { bulgeCount := s.bulgeCount + 1, Enthnew := setAt s.Enthnew k lowerEnthLimit }
  else s

/-- The bulge-limiter loop of `enthalpyAndDrainageStep`:
`lowerEnthLimit = Enth_ks - bulgeEnthMax` followed by `for (k = 0; k < ks; k++)`. -/
def bulgeLimiter (Enth_ks bulgeEnthMax : ℚ) (ks : Int) (Enthnew : Int → ℚ)
    (bulgeCount : ℚ) : BulgeState :=
  forLoop 0 (bulgeLevel (Enth_ks - bulgeEnthMax)) ks.toNat
    { Enthnew := Enthnew, bulgeCount := bulgeCount }

/-- The collaborators and constants of one call of `enthalpyAndDrainageStep`. -/
structure StepEnv where
  EC : EnthalpyConverter
  m : Mask
  grid : IceGrid
  ice : IceFlowLaw
  cfg : EnthConfig
  dc : DrainageCalculator ℚ
  solver : TridiagonalSolver

/-- The state that `enthalpyAndDrainageStep` updates while it sweeps the grid: the output
fields `vWork3d` (new enthalpy, indexed by `i`, `j` and the level), `vHmelt`, `vbmr`, the
counters `*vertSacrCount`, `liquifiedCount`, `*bulgeCount`, the column system `esys` and the
buffer `Enthnew`. -/
structure StepState where
  vWork3d : Int → Int → Int → ℚ
  vHmelt : Int → Int → ℚ
  vbmr : Int → Int → ℚ
  vertSacrCount : ℚ
  liquifiedCount : Int
  bulgeCount : ℚ
  esys : enthSystemCtx
  Enthnew : Int → ℚ

/-- The store `f(i,j) = v` into a map-plane field. -/
def setAt2 {α : Type} (f : Int → Int → α) (i j : Int) (v : α) : Int → Int → α :=
  fun i' j' => if i' = i ∧ j' = j then v else f i' j'

/-- The preliminary basal melt rate `vbmr(i,j)` ("can now determine melt, but only
preliminarily because of drainage"). -/
def basalMeltPrelim (env : StepEnv) (inp : ColumnInput) (pr : ColumnPrep) : ℚ :=
  let ice_K := env.cfg.ice_k / env.cfg.ice_c
  let p1 := env.EC.getPressureFromDepth (inp.vH - env.grid.dz_fine)
  if inp.ocean = true then
    inp.shelfbmassflux
  else if pr.base_is_cold = true then
    0
  else
    let hf_up :=
      if pr.k1_istemperate = true then
        - env.ice.k * (env.EC.getMeltingTemp p1
            - env.EC.getMeltingTemp (env.EC.getPressureFromDepth inp.vH)) / env.grid.dz_fine
      else
        - ice_K * (pr.esys.Enth 1 - pr.esys.Enth 0) / env.grid.dz_fine
    let vbmr := (inp.Rb + inp.G0 - hf_up) / (env.ice.rho * env.cfg.L)
    if inp.vHmelt ≤ 0 ∧ vbmr < 0 then 0 else vbmr

/-- The ice-free short-circuit of the driver (`if (ice_free_column) { ... goto
donewithcolumn; }`): `vWork3d.setColumn(i,j,Enth_ks)` and the subglacial fields. -/
def columnIceFree (env : StepEnv) (inp : ColumnInput) (st : StepState) : StepState :=
  let Enth_ks := columnEnth_ks env.EC env.grid inp
  let st1 := { st with vWork3d := setAt2 st.vWork3d inp.i inp.j (fun _ => Enth_ks) }
  if inp.floating_ice = true then
    { st1 with
      vHmelt := setAt2 st1.vHmelt inp.i inp.j env.cfg.hmelt_max
      vbmr := setAt2 st1.vbmr inp.i inp.j inp.shelfbmassflux }
  else
    { st1 with
      vHmelt := setAt2 st1.vHmelt inp.i inp.j 0
      vbmr := setAt2 st1.vbmr inp.i inp.j 0 }

/-- The column system the driver passes to `solveThisColumn`, for a column that is not
ice-free. -/
def columnReady (env : StepEnv) (inp : ColumnInput) (st : StepState) : enthSystemCtx :=
  let pr := columnPrepare env.EC env.grid env.ice env.cfg inp st.esys
  (basalCalls env.EC env.cfg inp pr).foldl (applyBasalCall env.m)
    (columnInit env.EC env.grid inp pr)

/-- The driver after a successful solve, from "thermodynamic basal melt rate causes water to
be added to layer" to "finalize Hmelt value": `vbmr0` is the preliminary melt rate, `c1` the
column system after the solve and `x1` the solved column.  `setValColumnPL(i,j,Enthnew)`
stores the column. -/
def columnFinish (env : StepEnv) (inp : ColumnInput) (st : StepState) (vbmr0 : ℚ)
    (c1 : enthSystemCtx) (x1 : Int → ℚ) : StepState :=
  let ks := columnKs env.grid inp
  let Enth_ks := columnEnth_ks env.EC env.grid inp
  let dt_secs := env.cfg.dt_secs
  let Hmeltnew0 := if inp.grounded = true then inp.vHmelt + vbmr0 * dt_secs else inp.vHmelt
  let dr := drainColumn env.EC env.dc env.grid env.cfg inp.vH c1.Enth_s ks x1 st.liquifiedCount
  let vbmr1 := if inp.grounded = true then vbmr0 + dr.Hdrainedtotal / dt_secs else vbmr0
  let Hmeltnew1 := if inp.grounded = true then Hmeltnew0 + dr.Hdrainedtotal else Hmeltnew0
  let bl := bulgeLimiter Enth_ks env.cfg.bulgeEnthMax ks dr.Enthnew st.bulgeCount
  let Hmeltnew2 := Hmeltnew1 - env.cfg.hmelt_decay_rate * dt_secs
  let vHmelt :=
    if inp.ocean = true then env.cfg.hmelt_max
    else PetscMax 0 (PetscMin env.cfg.hmelt_max Hmeltnew2)
  { st with
    vWork3d := setAt2 st.vWork3d inp.i inp.j bl.Enthnew
    vHmelt := setAt2 st.vHmelt inp.i inp.j vHmelt
    vbmr := setAt2 st.vbmr inp.i inp.j vbmr1
    liquifiedCount := dr.liquifiedCount
    bulgeCount := bl.bulgeCount
    esys := c1
    Enthnew := bl.Enthnew }

/-- The body of the double loop of `enthalpyAndDrainageStep` for the column `(i,j)`; `inp`
holds what the driver reads for the column, `inp.vHmelt` being `vHmelt(i,j)` on entry.  The
result is the error code with which the function returns from inside the body (`0`: the body
ran to `donewithcolumn`) and the state at that moment.  A pivot error, and a system whose
basal coefficients are unset, end the function by `SETERRQ(1, ...)`. -/
def columnStep (env : StepEnv) (inp : ColumnInput) (st : StepState) : Int × StepState :=
  if columnKs env.grid inp = 0 then
    (0, columnIceFree env inp st)
  else
    let pr := columnPrepare env.EC env.grid env.ice env.cfg inp st.esys
    let st1 :=
      { st with
        vertSacrCount := if pr.lambda < 1 then st.vertSacrCount + 1 else st.vertSacrCount
        vbmr := setAt2 st.vbmr inp.i inp.j (basalMeltPrelim env inp pr) }
    match solveThisColumn env.m env.solver (columnReady env inp st) st.Enthnew with
    | none => (1, { st1 with esys := columnReady env inp st })
    | some (c1, x1, pivoterr) =>
      if pivoterr ≠ 0 then
        (1, { st1 with esys := c1, Enthnew := x1 })
      else
        (0, columnFinish env inp st1 (basalMeltPrelim env inp pr) c1 x1)

/-- The double loop of `enthalpyAndDrainageStep` over the columns of the grid, in the order
of the list: the error code with which the function leaves the loop early (`0`: the loop ran
to its end) and the state at that moment.  Each column reads `vHmelt(i,j)` from the field. -/
def enthalpySweep (env : StepEnv) : List ColumnInput → StepState → Int × StepState
  | [], st => (0, st)
  | inp :: rest, st =>
    if (columnStep env { inp with vHmelt := st.vHmelt inp.i inp.j } st).1 ≠ 0 then
      columnStep env { inp with vHmelt := st.vHmelt inp.i inp.j } st
    else
      enthalpySweep env rest (columnStep env { inp with vHmelt := st.vHmelt inp.i inp.j } st).2

/-! ## The map-plane loops: `fill_tempenth_front`, `diffuse_bwat`, `fixDryWall_bwat` -/

/-- The part of `IceGrid` that describes the cells owned by the process (`xs`, `xm`, `ys`,
`ym`) and the horizontal spacings. -/
structure OwnedGrid where
  xs : Int
  xm : Int
  ys : Int
  ym : Int
  dx : ℚ
  dy : ℚ

/-- The double loop `for (i = xs; i < xs+xm; ++i) for (j = ys; j < ys+ym; ++j)` over the owned
cells, with body `body i j`. -/
def gridFold {σ : Type} (g : OwnedGrid) (body : Int → Int → σ → σ) (s : σ) : σ :=
  forLoop g.xs (fun i s1 => forLoop g.ys (fun j s2 => body i j s2) g.ym.toNat s1) g.xm.toNat s

/-- The double loop over the owned cells with body `a[i][j] = f i j`. -/
def gridLoop (g : OwnedGrid) (f : Int → Int → ℚ) (a : Int → Int → ℚ) : Int → Int → ℚ :=
  gridFold g (fun i j a2 => setAt2 a2 i j (f i j)) a

/-- The scratch columns `Enthrev`, `EnthrevE`, `EnthrevW`, `EnthrevN`, `EnthrevS` of
`fill_tempenth_front`. -/
structure FrontArrays where
  Enthrev : Int → ℚ
  EnthrevE : Int → ℚ
  EnthrevW : Int → ℚ
  EnthrevN : Int → ℚ
  EnthrevS : Int → ℚ

/-- The fields and configuration values read by `fill_tempenth_front`: `sea_level` is `none`
when `ocean == NULL`; `getValColumn i j ks` is the column that `Enth3.getValColumn(i,j,ks,.)`
delivers (class `IceModelVec3`, outside the embedded files). -/
structure FrontInput where
  sea_water_density : ℚ
  ice_density : ℚ
  sea_level : Option ℚ
  vH : Int → Int → ℚ
  vbed : Int → Int → ℚ
  vTestVar : Int → Int → ℚ
  getValColumn : Int → Int → Int → Int → ℚ

/-- The test `vH(i,j)>0.0 && vbed(i,j)>(sea_level-rhofrac*vH(i,j)) && (vbed(i,j)+sea_level)<0`
that defines `grounded_e`, `grounded_w`, `grounded_n`, `grounded_s`, at the cell `(i,j)`. -/
def groundedNeighbour (inp : FrontInput) (sea_level : ℚ) (i j : Int) : Bool :=
  let rhofrac := inp.ice_density / inp.sea_water_density
  decide (inp.vH i j > 0 ∧ inp.vbed i j > sea_level - rhofrac * inp.vH i j
    ∧ inp.vbed i j + sea_level < 0)

/-- The body of the loop `for (k=0; k < ks; k++)` that zeroes the five scratch columns. -/
def frontZero (k : Int) (a : FrontArrays) : FrontArrays :=
  { Enthrev := setAt a.Enthrev k 0
    EnthrevE := setAt a.EnthrevE k 0
    EnthrevW := setAt a.EnthrevW k 0
    EnthrevN := setAt a.EnthrevN k 0
    EnthrevS := setAt a.EnthrevS k 0 }

/-- The body of the loop `for (k=0; k < ks; k++)` that averages over `N` neighbours. -/
def frontAverage (N : Int) (k : Int) (a : FrontArrays) : FrontArrays :=
  { a with
    Enthrev := setAt a.Enthrev k
      ((a.EnthrevE k + a.EnthrevW k + a.EnthrevN k + a.EnthrevS k) / (N : ℚ)) }

/-- The number `N` of grounded neighbours counted by `fill_tempenth_front` at `(i,j)`. -/
def frontCount (inp : FrontInput) (sea_level : ℚ) (i j : Int) : Int :=
  (if groundedNeighbour inp sea_level (i + 1) j = true then 1 else 0)
    + (if groundedNeighbour inp sea_level (i - 1) j = true then 1 else 0)
    + (if groundedNeighbour inp sea_level i (j + 1) = true then 1 else 0)
    + (if groundedNeighbour inp sea_level i (j - 1) = true then 1 else 0)

/-- The body of the double loop of `fill_tempenth_front` at the cell `(i,j)`: the scratch
columns and the output field `vWork3d` after it. -/
def fillFrontCell (grid : IceGrid) (inp : FrontInput) (sea_level : ℚ) (i j : Int)
    (s : FrontArrays × (Int → Int → Int → ℚ)) : FrontArrays × (Int → Int → Int → ℚ) :=
  if inp.vTestVar i j = 1 then
    let ks : Int := Int.floor (inp.vH i j / grid.dz_fine)
    let a1 : FrontArrays := { s.1 with EnthrevE := inp.getValColumn i j ks }
    let a2 := forLoop 0 frontZero ks.toNat a1
    let a3 : FrontArrays :=
      if groundedNeighbour inp sea_level (i + 1) j = true then
        { a2 with EnthrevE := inp.getValColumn (i + 1) j ks }
      else a2
    let a4 : FrontArrays :=
      if groundedNeighbour inp sea_level (i - 1) j = true then
        { a3 with EnthrevW := inp.getValColumn (i - 1) j ks }
      else a3
    let a5 : FrontArrays :=
      if groundedNeighbour inp sea_level i (j + 1) = true then
        { a4 with EnthrevW := inp.getValColumn i (j + 1) ks }
      else a4
    let a6 : FrontArrays :=
      if groundedNeighbour inp sea_level i (j - 1) = true then
        { a5 with EnthrevW := inp.getValColumn i (j - 1) ks }
      else a5
    let N := frontCount inp sea_level i j
    let a7 := if N > 0 then forLoop 0 (frontAverage N) ks.toNat a6 else a6
    (a7, setAt2 s.2 i j a7.Enthrev)
  else s

/-- `IceModel::fill_tempenth_front`: the error code, the scratch columns and the output field
`vWork3d`. -/
def fill_tempenth_front (grid : IceGrid) (g : OwnedGrid) (inp : FrontInput)
    (s : FrontArrays × (Int → Int → Int → ℚ)) :
    Int × FrontArrays × (Int → Int → Int → ℚ) :=
  match inp.sea_level with
  | none => (2, s)
  | some sea_level => (0, gridFold g (fillFrontCell grid inp sea_level) s)

/-- The configuration values and the time step read by `diffuse_bwat`. -/
structure BwatConfig where
  bwat_diffusion_distance : ℚ
  bwat_diffusion_time : ℚ
  dt_years_TempAge : ℚ

/-- The constant `K = L * L / (2.0 * diffusion_time)` of `diffuse_bwat`. -/
def bwatK (cfg : BwatConfig) : ℚ :=
  cfg.bwat_diffusion_distance * cfg.bwat_diffusion_distance
    / (2 * (cfg.bwat_diffusion_time * secpera))

/-- The constant `Rx` of `diffuse_bwat`. -/
def bwatRx (cfg : BwatConfig) (g : OwnedGrid) : ℚ :=
  bwatK cfg * (cfg.dt_years_TempAge * secpera) / (g.dx * g.dx)

/-- The constant `Ry` of `diffuse_bwat`. -/
def bwatRy (cfg : BwatConfig) (g : OwnedGrid) : ℚ :=
  bwatK cfg * (cfg.dt_years_TempAge * secpera) / (g.dy * g.dy)

/-- The constant `oneM4R = 1.0 - 2.0 * Rx - 2.0 * Ry` of `diffuse_bwat`. -/
def bwatOneM4R (cfg : BwatConfig) (g : OwnedGrid) : ℚ :=
  1 - 2 * bwatRx cfg g - 2 * bwatRy cfg g

/-- The value stored in `bwatnew[i][j]` by `diffuse_bwat`. -/
def bwatStencil (cfg : BwatConfig) (g : OwnedGrid) (vHmelt : Int → Int → ℚ) (i j : Int) : ℚ :=
  bwatOneM4R cfg g * vHmelt i j
    + bwatRx cfg g * (vHmelt (i + 1) j + vHmelt (i - 1) j)
    + bwatRy cfg g * (vHmelt i (j + 1) + vHmelt i (j - 1))

/-- `IceModel::diffuse_bwat`: the error code and the array `bwatnew` (`vWork2d[0]`).  The
final copy of `vWork2d[0]` into `vHmelt` with ghost communication is done by `IceModelVec2S`
(outside the embedded files): the new value of `vHmelt` at an owned cell is that of
`bwatnew`. -/
def diffuse_bwat (cfg : BwatConfig) (g : OwnedGrid) (vHmelt bwatnew : Int → Int → ℚ) :
    Int × (Int → Int → ℚ) :=
  if bwatOneM4R cfg g ≤ 0 then (1, bwatnew)
  else (0, gridLoop g (bwatStencil cfg g vHmelt) bwatnew)

/-- The answers of `MaskQuery mask(vMask)` used by `fixDryWall_bwat`. -/
structure MaskQuery where
  grounded_ice : Int → Int → Bool
  floating_ice : Int → Int → Bool

/-- The value stored in `bwatnew[i][j]` by `fixDryWall_bwat`. -/
def dryWallValue (mask : MaskQuery) (vbed vHmelt : Int → Int → ℚ) (i j : Int) : ℚ :=
  if mask.grounded_ice i j = true ∧ vbed i j < 0
      ∧ (mask.floating_ice (i + 1) j = true ∨ mask.floating_ice i (j + 1) = true
          ∨ mask.floating_ice i (j - 1) = true ∨ mask.floating_ice (i - 1) j = true)
      ∧ ((vHmelt (i + 1) j = 2 ∧ mask.grounded_ice (i + 1) j = true)
          ∨ (vHmelt i (j + 1) = 2 ∧ mask.grounded_ice i (j + 1) = true)
          ∨ (vHmelt i (j - 1) = 2 ∧ mask.grounded_ice i (j - 1) = true)
          ∨ (vHmelt (i - 1) j = 2 ∧ mask.grounded_ice (i - 1) j = true))
  then 2 else vHmelt i j

/-- `IceModel::fixDryWall_bwat`: the array `bwatnew` (`vWork2d[0]`); as in `diffuse_bwat` the
new value of `vHmelt` at an owned cell is that of `bwatnew`. -/
def fixDryWall_bwat (mask : MaskQuery) (g : OwnedGrid) (vbed vHmelt bwatnew : Int → Int → ℚ) :
    Int → Int → ℚ :=
  gridLoop g (dryWallValue mask vbed vHmelt) bwatnew

/-! ## Auxiliary definitions used in the statements -/

/-- The floor velocity `0.000001/secpera` of `getEnthalpyCTSColumn`. -/
def epsVel : ℚ := 0.000001 / secpera

/-- The value stored in `(*Enth_s)[k]` for an ice level `k`. -/
def enthCTS (EC : EnthalpyConverter) (grid : IceGrid) (thk : ℚ) (k : Int) : ℚ :=
  EC.getEnthalpyCTS (EC.getPressureFromDepth (thk - grid.zlevels_fine k))

/-- The bound `2*ice_k / denom` that level `k` puts on `lambda`. -/
def lambdaBound (grid : IceGrid) (ice : IceFlowLaw) (w : Int → ℚ) (k : Int) : ℚ :=
  2 * ice.k / ((|w k| + epsVel) * (ice.rho * ice.c_p) * grid.dz_fine)

/-- The context with the assembled rows and the scratch members `UpEnthu`, `UpEnthv`
blanked: what is left are the inputs of the row assembly. -/
def assemblyInputs (c : enthSystemCtx) : enthSystemCtx :=
  { c with
    L := fun _ => 0
    D := fun _ => 0
    U := fun _ => 0
    rhs := fun _ => 0
    UpEnthu := 0
    UpEnthv := 0 }

/-- The first-order upwind advection stencil `(L, D, U)` for the Courant number `AA` of a
level with vertical velocity `w`: `(-AA, +AA, 0)` if `w ≥ 0` and `(0, -AA, +AA)` if `w < 0`. -/
def upwindStencil (AA w : ℚ) : ℚ × ℚ × ℚ :=
  if w ≥ 0 then (-AA, AA, 0) else (0, -AA, AA)

/-- The centered advection stencil `(L, D, U) = (-AA/2, 0, +AA/2)`. -/
def centeredStencil (AA : ℚ) : ℚ × ℚ × ℚ := (-AA / 2, 0, AA / 2)

/-- The energy of level `k` after the cap of the drainage loop, for the solved energy `E`. -/
def cappedEnth (cfg : EnthConfig) (Enth_s : Int → ℚ) (k : Int) (E : ℚ) : ℚ :=
  if E ≥ Enth_s k + 0.5 * cfg.L then Enth_s k + 0.5 * cfg.L else E

/-- In both horizontal directions the upwind neighbour of level `k` is ice-free (east if
`u[k] < 0`, west if `u[k] > 0`, north if `v[k] < 0`, south if `v[k] > 0`). -/
def upwindIceFree (m : Mask) (c : enthSystemCtx) (k : Int) : Prop :=
  (c.u k < 0 → m.ice_free c.Msk.e = true) ∧ (c.u k > 0 → m.ice_free c.Msk.w = true) ∧
  (c.v k < 0 → m.ice_free c.Msk.n = true) ∧ (c.v k > 0 → m.ice_free c.Msk.s = true)

/-- The energy that one pass of the drainage loop body leaves at level `k`, for the solved
energy `E` of that level. -/
def drainedEnth (EC : EnthalpyConverter) (dc : DrainageCalculator ℚ) (grid : IceGrid)
    (cfg : EnthConfig) (vH : ℚ) (Enth_s : Int → ℚ) (k : Int) (E : ℚ) : ℚ :=
  if E > Enth_s k then
    if EC.getWaterFraction (cappedEnth cfg Enth_s k E)
        (EC.getPressureFromDepth (vH - grid.zlevels_fine k)) > 0.01 then
      cappedEnth cfg Enth_s k E
        - PetscMin
            (dc.get_drainage_rate
              (EC.getWaterFraction (cappedEnth cfg Enth_s k E)
                (EC.getPressureFromDepth (vH - grid.zlevels_fine k))) * cfg.dt_secs)
            (EC.getWaterFraction (cappedEnth cfg Enth_s k E)
              (EC.getPressureFromDepth (vH - grid.zlevels_fine k)) - 0.01) * cfg.L
    else cappedEnth cfg Enth_s k E
  else E

/-- The arrays `f` and `g` hold the same values at the levels `0..ks`. -/
def agreeUpTo (ks : Int) (f g : Int → ℚ) : Prop :=
  ∀ k : Int, 0 ≤ k → k ≤ ks → f k = g k

/-- The context `c` with the per-level arrays `Enth`, `Enth_s`, `R`, `u`, `v`, `w`, `Sigma`
replaced. -/
def withColumns (c : enthSystemCtx) (Enth Enth_s R u v w Sigma : Int → ℚ) : enthSystemCtx :=
  { c with Enth := Enth, Enth_s := Enth_s, R := R, u := u, v := v, w := w, Sigma := Sigma }

/-- The cell `(i,j)` is one of the cells owned by the process. -/
def ownedCell (g : OwnedGrid) (i j : Int) : Prop :=
  g.xs ≤ i ∧ i < g.xs + g.xm ∧ g.ys ≤ j ∧ j < g.ys + g.ym

/-- All values of the field `f` lie in `[0, hmelt_max]`. -/
def fieldInRange (hmelt_max : ℚ) (f : Int → Int → ℚ) : Prop :=
  ∀ i j : Int, 0 ≤ f i j ∧ f i j ≤ hmelt_max

/-! ## Concrete data for the worked instances -/

/-- A converter with identity pressure, melting enthalpy `100` at every pressure, and the
temperate test `E ≥ 100`. -/
def exEC : EnthalpyConverter where
  getPressureFromDepth := fun d => d
  getEnthalpyCTS := fun _ => 100
  getMeltingTemp := fun _ => 0
  isTemperate := fun E _ => decide (100 ≤ E)
  getEnthPermissive := fun T _ _ => T
  getWaterFraction := fun E _ => (E - 100) / 10

/-- A fine grid with unit spacing, five levels, `zlevels_fine[k] = k`. -/
def exGrid : IceGrid where
  dx := 1
  dy := 1
  Mz_fine := 5
  dz_fine := 1
  zlevels_fine := fun k => (k : ℚ)

/-- Unit material constants. -/
def exIce : IceFlowLaw where
  rho := 1
  c_p := 1
  k := 1

/-- A column enthalpy that exceeds the melting enthalpy `100` at level `1` only. -/
def exEnthWarm1 : Int → ℚ := fun k => if k = 1 then 200 else 50

/-- A cold column enthalpy. -/
def exEnthCold : Int → ℚ := fun _ => 50

/-- A column of vertical velocities equal to `3`. -/
def exW3 : Int → ℚ := fun _ => 3

/-- A mask for which no cell is ice-free. -/
def exMask : Mask where
  ice_free := fun _ => false

/-- Neighbour enthalpies equal to `50` everywhere. -/
def exEnth3 : Int → Int → Int → planeStar ℚ :=
  fun _ _ _ => { ij := 50, e := 50, w := 50, n := 50, s := 50 }

/-- A context with unit material constants and conductivity ratio `1/10`, after
`initAllColumns` with `dx = dy = 1`, `dt = 4`, `dz = 1`: `nuEQ = 4`, `iceRcold = 4`,
`iceRtemp = 2/5`. -/
def exCtx : enthSystemCtx :=
  initAllColumns (newEnthSystemCtx 1 1 1 (1 / 10) exEnth3 5 (fun _ => 0)) 1 1 4 1

/-- A column whose base is exactly at the melting enthalpy `100`, cold above. -/
def exEnthBaseAtCTS : Int → ℚ := fun k => if k = 0 then 100 else 50

/-- Vertical velocities: `-15/8` at level `1`, zero elsewhere. -/
def exWdown : Int → ℚ := fun k => if k = 1 then -15 / 8 else 0

/-- The result of `getEnthalpyCTSColumn` on the column `exEnthBaseAtCTS`, `exWdown` with
`ks = 2`. -/
def exCTSBase : CTSColumn :=
  getEnthalpyCTSColumn exEC exGrid exIce 0 2 2 exEnthBaseAtCTS exWdown (fun _ => 0)

/-- The context `exCtx` set up for the column `exEnthBaseAtCTS`, `exWdown`, `ks = 2`, with
`lambda` and `Enth_s` from `getEnthalpyCTSColumn` and `R` from `assemble_R`. -/
def exCtxBase : enthSystemCtx :=
  initThisColumn
    { exCtx with ks := 2, Enth := exEnthBaseAtCTS, w := exWdown, Enth_s := exCTSBase.Enth_s }
    false { ij := 0, e := 0, w := 0, n := 0, s := 0 } exCTSBase.lambda

/-- Configuration with unit conductivity and heat capacity, `p_air = 0`, `L = 10`. -/
def exCfg : EnthConfig where
  p_air := 0
  ice_k := 1
  ice_c := 1
  L := 10
  bulgeEnthMax := 5
  hmelt_decay_rate := 0
  hmelt_max := 2
  dt_secs := 4

/-- A grounded column of thickness `2` (`ks = 2`), cold throughout (enthalpy `50` below the
melting enthalpy `100`), with a stored water layer of thickness `1`, geothermal flux `1`
and no frictional heating. -/
def exInpWet : ColumnInput where
  i := 0
  j := 0
  vH := 2
  ocean := false
  floating_ice := false
  grounded := true
  isMarginal := false
  Msk := { ij := 2, e := 2, w := 2, n := 2, s := 2 }
  artm := 50
  liqfrac_surface := 0
  shelfbmassflux := 0
  shelfbtemp := 0
  G0 := 1
  Rb := 0
  vHmelt := 1
  Enth3 := exEnthCold
  u3 := fun _ => 0
  v3 := fun _ => 0
  w3 := fun _ => 0
  Sigma3 := fun _ => 0

/-- The column `exInpWet` without stored water. -/
def exInpDry : ColumnInput := { exInpWet with vHmelt := 0 }

/-- A grounded column of thickness `2` with enthalpy `150` (above melting) at all levels. -/
def exInpWarm : ColumnInput := { exInpWet with vHmelt := 0, Enth3 := fun _ => 150 }

/-- A floating column of thickness `2` with ocean-supplied basal temperature `7`. -/
def exInpFloat : ColumnInput :=
  { exInpWet with ocean := true, floating_ice := true, grounded := false, shelfbtemp := 7 }

/-- The context `exCtx` holding a cold column with `ks = 3`: enthalpy `50` below the melting
enthalpy `100` at all levels, zero velocities and zero strain heating. -/
def exCtxSteady : enthSystemCtx :=
  { exCtx with ks := 3, Enth := exEnthCold, Enth_s := fun _ => 100 }

/-- The context `exCtx` holding the cold column `exEnthCold` with velocities `3` and
`ks = 3`, with `lambda` and `Enth_s` taken from `getEnthalpyCTSColumn`. -/
def exCtxColdW : enthSystemCtx :=
  { exCtx with
    ks := 3
    Enth := exEnthCold
    w := exW3
    lambda := (getEnthalpyCTSColumn exEC exGrid exIce 0 3 3 exEnthCold exW3 (fun _ => 0)).lambda
    Enth_s := (getEnthalpyCTSColumn exEC exGrid exIce 0 3 3 exEnthCold exW3 (fun _ => 0)).Enth_s }

/-- The context `exCtxSteady` after `initThisColumn` (not marginal, `lambda = 1/2`) and
`setDirichletBasal(50)`: `R = 4` at the levels `0..3`. -/
def exCtxSteadyRows : enthSystemCtx :=
  setDirichletBasal
    (initThisColumn exCtxSteady false { ij := 0, e := 0, w := 0, n := 0, s := 0 } (1 / 2)) 50

/-- The context `exCtxBase` after `setDirichletBasal(100)`. -/
def exCtxBaseRows : enthSystemCtx := setDirichletBasal exCtxBase 100

/-- Neighbour enthalpies with a gradient: `50` at the point, `60` to the east, `52` to the
north, `50` to the west and south, at every level. -/
def exEnth3Grad : Int → Int → Int → planeStar ℚ :=
  fun _ _ _ => { ij := 50, e := 60, w := 50, n := 52, s := 50 }

/-- A mask for which every cell is ice-free. -/
def exMaskFree : Mask where
  ice_free := fun _ => true

/-- A marginal cold column (`ks = 3`, `dx = 1`, `dt = 4`, `rho = 1`, no strain heating) with
`u = -1` at all levels and the neighbour enthalpies `exEnth3Grad`, after `initThisColumn`
and `setDirichletBasal(50)`. -/
def exCtxMarg : enthSystemCtx :=
  setDirichletBasal
    (initThisColumn
      { exCtx with
        ks := 3
        Enth := exEnthCold
        Enth_s := fun _ => 100
        u := fun _ => -1
        getPlaneStar_fine := exEnth3Grad }
      true { ij := 2, e := 2, w := 2, n := 2, s := 2 } 1) 50

/-- A column on a grid with `dx = 1` and `dy = 2`, with `v = -1` at all levels and the
neighbour enthalpies `exEnth3Grad`; `marginal` is the flag `ismarginal`. -/
def exCtxDxDy (marginal : Bool) : enthSystemCtx :=
  { exCtx with
    dy := 2
    ks := 3
    ismarginal := marginal
    Msk := { ij := 2, e := 2, w := 2, n := 2, s := 2 }
    v := fun _ => -1
    getPlaneStar_fine := exEnth3Grad }

/-- A solver that reports a pivot error at row `1` and leaves the buffer untouched. -/
def exSolverFail : TridiagonalSolver where
  solve := fun _ _ _ _ _ x => (1, x)

/-- The drainage calculator for `drainage_target_water_frac = 1/100` and
`drainage_max_rate = 1/20`. -/
def exDC : DrainageCalculator ℚ := newDrainageCalculator (1 / 100) (1 / 20)

/-- A solved column with enthalpy `101` at all levels: liquid fraction `1/10` for the
melting enthalpy `100` and `L = 10`. -/
def exEnthWet : Int → ℚ := fun _ => 101

/-- A solved column with a cold bulge: `0` at the levels `0` and `1`, `48` elsewhere. -/
def exEnthBulge : Int → ℚ := fun k => if k = 0 ∨ k = 1 then 0 else 48

/-- A solver that reports no pivot error and returns the temperate column `101`. -/
def exSolverOk : TridiagonalSolver where
  solve := fun _ _ _ _ _ _ => (0, fun _ => 101)

/-- The environment of a step with the example converter, mask, grid, flow law,
configuration and drainage calculator, and the solver `exSolverOk`. -/
def exEnv : StepEnv where
  EC := exEC
  m := exMask
  grid := exGrid
  ice := exIce
  cfg := exCfg
  dc := exDC
  solver := exSolverOk

/-- The environment `exEnv` with the solver `exSolverFail`. -/
def exEnvFail : StepEnv := { exEnv with solver := exSolverFail }

/-- A state of the sweep: output fields zero, water layer `7` (above `hmelt_max = 2`)
everywhere, all counters zero. -/
def exState : StepState where
  vWork3d := fun _ _ _ => 0
  vHmelt := fun _ _ => 7
  vbmr := fun _ _ => 0
  vertSacrCount := 0
  liquifiedCount := 0
  bulgeCount := 0
  esys := exCtx
  Enthnew := fun _ => 0

/-- An ice-free column (`vH = 0`, so `ks = 0`) at the grid point `(1, 0)`. -/
def exInpIceFree : ColumnInput := { exInpWet with i := 1, vH := 0 }

/-- The context `exCtx` for a column with `ks = 0` and `R = 4` at all levels. -/
def exCtxThin : enthSystemCtx := { exCtx with ks := 0, R := fun _ => 4 }

/-- The array `R` of `exCtxSteadyRows` with the entry at level `4`, above `ks = 3`,
replaced by `9`. -/
def exRAbove : Int → ℚ := setAt exCtxSteadyRows.R 4 9

/-- An owned window of `3 × 3` cells starting at `(0,0)`, with `dx = dy = 1`. -/
def exOwned : OwnedGrid where
  xs := 0
  xm := 3
  ys := 0
  ym := 3
  dx := 1
  dy := 1

/-- A diffusion configuration with `K * dt = 1/8` on the grid `exOwned`:
`Rx = Ry = 1/8` and `oneM4R = 1/2`. -/
def exBwat : BwatConfig where
  bwat_diffusion_distance := 1
  bwat_diffusion_time := 4
  dt_years_TempAge := 1

/-- A diffusion configuration with `Rx = Ry = 1/2` on the grid `exOwned`: `oneM4R = -1`. -/
def exBwatUnstable : BwatConfig where
  bwat_diffusion_distance := 1
  bwat_diffusion_time := 1
  dt_years_TempAge := 1

/-- A water layer with the value `2` at the cell `(2,1)` and in the column `i = 0`, and `1`
elsewhere. -/
def exBwatField : Int → Int → ℚ := fun i j => if (i = 2 ∧ j = 1) ∨ i = 0 then 2 else 1

/-- A mask with grounded ice for `i ≥ 1` and floating ice for `i ≤ 0`. -/
def exMaskQuery : MaskQuery where
  grounded_ice := fun i _ => decide (1 ≤ i)
  floating_ice := fun i _ => decide (i ≤ 0)

/-- Neighbour enthalpies that depend on the level: `50` at the point and to the west, north
and south, and `50 + 10*k` to the east at level `k`. -/
def exEnth3Levels : Int → Int → Int → planeStar ℚ :=
  fun _ _ k => { ij := 50, e := 50 + 10 * (k : ℚ), w := 50, n := 50, s := 50 }

/-- A cold column that is not marginal (`ks = 3`, `dx = 1`, `dt = 4`, `rho = 1`, no strain
heating) with `u = -1` at all levels and the neighbour enthalpies `exEnth3Levels`, after
`initThisColumn` and `setDirichletBasal(50)`. -/
def exCtxLevels : enthSystemCtx :=
  setDirichletBasal
    (initThisColumn
      { exCtx with
        ks := 3
        Enth := exEnthCold
        Enth_s := fun _ => 100
        u := fun _ => -1
        getPlaneStar_fine := exEnth3Levels }
      false { ij := 2, e := 2, w := 2, n := 2, s := 2 } 1) 50

/-- An owned window that consists of the cell `(0,0)` only. -/
def exOwnedCell : OwnedGrid where
  xs := 0
  xm := 1
  ys := 0
  ym := 1
  dx := 1
  dy := 1

/-- A newly added cell `(0,0)` of thickness `2` (`ks = 2` on `exGrid`) whose west and north
neighbours are grounded (thickness `2`, bed at `-1`) with enthalpy columns `10` and `30`, and
whose east and south neighbours hold no ice. -/
def exFront : FrontInput where
  sea_water_density := 1000
  ice_density := 900
  sea_level := some 0
  vH := fun i j => if (i = 1 ∧ j = 0) ∨ (i = 0 ∧ j = -1) then 0 else 2
  vbed := fun _ _ => -1
  vTestVar := fun i j => if i = 0 ∧ j = 0 then 1 else 0
  getValColumn := fun i j _ _ =>
    if i = -1 ∧ j = 0 then 10 else if i = 0 ∧ j = 1 then 30 else 0

/-- Scratch columns that hold `7` at all levels. -/
def exFrontArrays : FrontArrays where
  Enthrev := fun _ => 7
  EnthrevE := fun _ => 7
  EnthrevW := fun _ => 7
  EnthrevN := fun _ => 7
  EnthrevS := fun _ => 7

/-! ## Basic lemmas -/

theorem PetscMin_eq_min (a b : ℚ) : PetscMin a b = min a b := by
  unfold PetscMin
  split_ifs with h
  · exact (min_eq_left h.le).symm
  · exact (min_eq_right (not_lt.mp h)).symm

theorem PetscAbs_eq_abs (a : ℚ) : PetscAbs a = |a| := by
  unfold PetscAbs
  split_ifs with h
  · exact (abs_of_nonneg h).symm
  · exact (abs_of_neg (not_le.mp h)).symm

theorem epsVel_pos : 0 < epsVel := by
  unfold epsVel secpera
  norm_num

theorem setAt_same (a : Int → ℚ) (k : Int) (v : ℚ) : setAt a k v k = v := by
  simp [setAt]

theorem setAt_other (a : Int → ℚ) (k m : Int) (v : ℚ) (h : m ≠ k) : setAt a k v m = a m := by
  simp [setAt, h]

theorem lambdaBound_pos (grid : IceGrid) (ice : IceFlowLaw) (w : Int → ℚ) (k : Int)
    (hk : 0 < ice.k) (hrc : 0 < ice.rho * ice.c_p) (hdz : 0 < grid.dz_fine) :
    0 < lambdaBound grid ice w k := by
  unfold lambdaBound
  have h1 : 0 < |w k| + epsVel := add_pos_of_nonneg_of_pos (abs_nonneg _) epsVel_pos
  positivity

/-! ## Lemmas on `getEnthalpyCTSColumn` -/

theorem ctsIceBody_Enth_s (EC : EnthalpyConverter) (grid : IceGrid) (ice : IceFlowLaw)
    (thk : ℚ) (Enth w : Int → ℚ) (k : Int) (s : CTSColumn) :
    (ctsIceBody EC grid ice thk Enth w k s).Enth_s = setAt s.Enth_s k (enthCTS EC grid thk k) := by
  unfold ctsIceBody enthCTS
  dsimp only
  split_ifs <;> rfl

theorem ctsIceBody_lambda (EC : EnthalpyConverter) (grid : IceGrid) (ice : IceFlowLaw)
    (thk : ℚ) (Enth w : Int → ℚ) (k : Int) (s : CTSColumn) :
    (ctsIceBody EC grid ice thk Enth w k s).lambda =
      if Enth k > enthCTS EC grid thk k then 0 else min s.lambda (lambdaBound grid ice w k) := by
  unfold ctsIceBody enthCTS lambdaBound epsVel
  dsimp only
  rw [setAt_same]
  split_ifs
  · rfl
  · simp only [PetscMin_eq_min, PetscAbs_eq_abs]

theorem ctsAir_lambda (EC : EnthalpyConverter) (p_air : ℚ) (lo : Int) (n : Nat)
    (s : CTSColumn) : (forLoop lo (ctsAirBody EC p_air) n s).lambda = s.lambda := by
  induction n with
  | zero => rfl
  | succ n ih => simpa [forLoop, ctsAirBody] using ih

theorem ctsAir_Enth_s_below (EC : EnthalpyConverter) (p_air : ℚ) (lo : Int) (n : Nat)
    (s : CTSColumn) (k : Int) (hk : k < lo) :
    (forLoop lo (ctsAirBody EC p_air) n s).Enth_s k = s.Enth_s k := by
  induction n with
  | zero => rfl
  | succ n ih =>
    simp only [forLoop, ctsAirBody]
    rw [setAt_other _ _ _ _ (by omega)]
    exact ih

theorem ctsIce_Enth_s (EC : EnthalpyConverter) (grid : IceGrid) (ice : IceFlowLaw)
    (thk : ℚ) (Enth w : Int → ℚ) (n : Nat) (s : CTSColumn) (k : Int)
    (h0 : 0 ≤ k) (hk : k < n) :
    (forLoop 0 (ctsIceBody EC grid ice thk Enth w) n s).Enth_s k = enthCTS EC grid thk k := by
  induction n with
  | zero => omega
  | succ n ih =>
    simp only [forLoop, ctsIceBody_Enth_s]
    by_cases hkn : k = 0 + (n : Int)
    · rw [hkn, setAt_same]
    · rw [setAt_other _ _ _ _ hkn]
      exact ih (by push_cast at hk; omega)

/-- The entries `0..ks` of the returned array `Enth_s`. -/
theorem getEnthalpyCTSColumn_Enth_s (EC : EnthalpyConverter) (grid : IceGrid)
    (ice : IceFlowLaw) (p_air thk : ℚ) (ks : Int) (Enth w Enth_s0 : Int → ℚ) (k : Int)
    (h0 : 0 ≤ k) (hk : k ≤ ks) :
    (getEnthalpyCTSColumn EC grid ice p_air thk ks Enth w Enth_s0).Enth_s k
      = enthCTS EC grid thk k := by
  unfold getEnthalpyCTSColumn
  dsimp only
  rw [ctsAir_Enth_s_below _ _ _ _ _ _ (by omega)]
  exact ctsIce_Enth_s _ _ _ _ _ _ _ _ _ h0 (by omega)

/-- The returned `lambda` is the value left by the first loop. -/
theorem getEnthalpyCTSColumn_lambda (EC : EnthalpyConverter) (grid : IceGrid)
    (ice : IceFlowLaw) (p_air thk : ℚ) (ks : Int) (Enth w Enth_s0 : Int → ℚ) :
    (getEnthalpyCTSColumn EC grid ice p_air thk ks Enth w Enth_s0).lambda
      = (forLoop 0 (ctsIceBody EC grid ice thk Enth w) (ks + 1).toNat
          { lambda := 1, Enth_s := Enth_s0 }).lambda := by
  unfold getEnthalpyCTSColumn
  dsimp only
  rw [ctsAir_lambda]

/-- Range of `lambda` after `n` iterations of the first loop. -/
theorem ctsIce_lambda_range (EC : EnthalpyConverter) (grid : IceGrid) (ice : IceFlowLaw)
    (thk : ℚ) (Enth w : Int → ℚ) (hk : 0 < ice.k) (hrc : 0 < ice.rho * ice.c_p)
    (hdz : 0 < grid.dz_fine) (n : Nat) (s : CTSColumn) (hs0 : 0 ≤ s.lambda)
    (hs1 : s.lambda ≤ 1) :
    0 ≤ (forLoop 0 (ctsIceBody EC grid ice thk Enth w) n s).lambda ∧
      (forLoop 0 (ctsIceBody EC grid ice thk Enth w) n s).lambda ≤ 1 := by
  induction n with
  | zero => exact ⟨hs0, hs1⟩
  | succ n ih =>
    simp only [forLoop, ctsIceBody_lambda]
    split_ifs
    · exact ⟨le_refl _, zero_le_one⟩
    · exact ⟨le_min ih.1 (lambdaBound_pos grid ice w _ hk hrc hdz).le,
        le_trans (min_le_left _ _) ih.2⟩

/-- A temperate level among the first `n` forces `lambda = 0` after `n` iterations. -/
theorem ctsIce_lambda_zero (EC : EnthalpyConverter) (grid : IceGrid) (ice : IceFlowLaw)
    (thk : ℚ) (Enth w : Int → ℚ) (hk : 0 < ice.k) (hrc : 0 < ice.rho * ice.c_p)
    (hdz : 0 < grid.dz_fine) (n : Nat) (s : CTSColumn) (k : Int) (hk0 : 0 ≤ k)
    (hkn : k < n) (ht : Enth k > enthCTS EC grid thk k) :
    (forLoop 0 (ctsIceBody EC grid ice thk Enth w) n s).lambda = 0 := by
  induction n with
  | zero => omega
  | succ n ih =>
    simp only [forLoop, ctsIceBody_lambda]
    split_ifs with h
    · rfl
    · have hne : k ≠ 0 + (n : Int) := by
        intro he
        rw [he] at ht
        exact h ht
      have hprev := ih (by push_cast at hkn; omega)
      rw [hprev]
      exact min_eq_left (lambdaBound_pos grid ice w _ hk hrc hdz).le

/-- Without a temperate level among the first `n`, `lambda` after `n` iterations is the
least of the start value and the bounds of the levels visited. -/
theorem ctsIce_lambda_least (EC : EnthalpyConverter) (grid : IceGrid) (ice : IceFlowLaw)
    (thk : ℚ) (Enth w : Int → ℚ) (n : Nat) (s : CTSColumn)
    (hno : ∀ k : Int, 0 ≤ k → k < n → ¬ Enth k > enthCTS EC grid thk k) :
    (forLoop 0 (ctsIceBody EC grid ice thk Enth w) n s).lambda ≤ s.lambda ∧
    (∀ k : Int, 0 ≤ k → k < n →
      (forLoop 0 (ctsIceBody EC grid ice thk Enth w) n s).lambda ≤ lambdaBound grid ice w k) ∧
    ((forLoop 0 (ctsIceBody EC grid ice thk Enth w) n s).lambda = s.lambda ∨
      ∃ k : Int, 0 ≤ k ∧ k < n ∧
        (forLoop 0 (ctsIceBody EC grid ice thk Enth w) n s).lambda = lambdaBound grid ice w k) := by
  induction n with
  | zero =>
    refine ⟨le_refl _, ?_, Or.inl rfl⟩
    intro k h0 hk
    simp only [Nat.cast_zero] at hk
    omega
  | succ n ih =>
    have hprev := ih (fun k h0 hk => hno k h0 (by push_cast; omega))
    obtain ⟨h1, h2, h3⟩ := hprev
    have hcold : ¬ Enth (0 + (n : Int)) > enthCTS EC grid thk (0 + (n : Int)) :=
      hno _ (by omega) (by push_cast; omega)
    simp only [forLoop, ctsIceBody_lambda, if_neg hcold]
    refine ⟨le_trans (min_le_left _ _) h1, ?_, ?_⟩
    · intro k h0 hk
      by_cases hkn : k = 0 + (n : Int)
      · rw [hkn]
        exact min_le_right _ _
      · exact le_trans (min_le_left _ _) (h2 k h0 (by push_cast at hk; omega))
    · rcases le_total (forLoop 0 (ctsIceBody EC grid ice thk Enth w) n s).lambda
          (lambdaBound grid ice w (0 + (n : Int))) with hle | hle
      · rw [min_eq_left hle]
        rcases h3 with h3 | ⟨k, hk0, hkn, hk⟩
        · exact Or.inl h3
        · exact Or.inr ⟨k, hk0, by push_cast; omega, hk⟩
      · rw [min_eq_right hle]
        exact Or.inr ⟨0 + (n : Int), by omega, by push_cast; omega, rfl⟩

/-! ## Claims on `getEnthalpyCTSColumn` -/

/-- C1: for positive ice conductivity, density times heat capacity and `dz_fine`, if some
level `k` in `0..ks` has `Enth[k] > Enth_s[k]` (the returned melting enthalpy), then the
`lambda` returned by `getEnthalpyCTSColumn` is exactly `0`, for every position of the level
and every velocity array `w`. -/
theorem getEnthalpyCTSColumn_temperate_zero (EC : EnthalpyConverter) (grid : IceGrid)
    (ice : IceFlowLaw) (p_air thk : ℚ) (ks : Int) (Enth w Enth_s0 : Int → ℚ)
    (hk : 0 < ice.k) (hrc : 0 < ice.rho * ice.c_p) (hdz : 0 < grid.dz_fine)
    (k : Int) (hk0 : 0 ≤ k) (hkks : k ≤ ks)
    (ht : Enth k > (getEnthalpyCTSColumn EC grid ice p_air thk ks Enth w Enth_s0).Enth_s k) :
    (getEnthalpyCTSColumn EC grid ice p_air thk ks Enth w Enth_s0).lambda = 0 := by
  rw [getEnthalpyCTSColumn_Enth_s _ _ _ _ _ _ _ _ _ _ hk0 hkks] at ht
  rw [getEnthalpyCTSColumn_lambda]
  exact ctsIce_lambda_zero EC grid ice thk Enth w hk hrc hdz _ _ k hk0 (by omega) ht

/-- Instance of C1: a column with `ks = 2` whose level `1` exceeds the melting enthalpy. -/
theorem getEnthalpyCTSColumn_temperate_zero_witness :
    (getEnthalpyCTSColumn exEC exGrid exIce 0 2 2 exEnthWarm1 exW3 (fun _ => 0)).lambda = 0 :=
  getEnthalpyCTSColumn_temperate_zero exEC exGrid exIce 0 2 2 exEnthWarm1 exW3 (fun _ => 0)
    (by norm_num [exIce]) (by norm_num [exIce]) (by norm_num [exGrid]) 1 (by norm_num)
    (by norm_num)
    (by
      rw [getEnthalpyCTSColumn_Enth_s _ _ _ _ _ _ _ _ _ _ (by norm_num) (by norm_num)]
      norm_num [exEnthWarm1, enthCTS, exEC])

/-- C2: for positive ice conductivity, density times heat capacity and `dz_fine`, the
`lambda` returned by `getEnthalpyCTSColumn` satisfies `0 ≤ lambda ≤ 1`, for every `ks` and
all arrays `Enth`, `w` (and whatever melting enthalpies the converter yields). -/
theorem getEnthalpyCTSColumn_lambda_range (EC : EnthalpyConverter) (grid : IceGrid)
    (ice : IceFlowLaw) (p_air thk : ℚ) (ks : Int) (Enth w Enth_s0 : Int → ℚ)
    (hk : 0 < ice.k) (hrc : 0 < ice.rho * ice.c_p) (hdz : 0 < grid.dz_fine) :
    0 ≤ (getEnthalpyCTSColumn EC grid ice p_air thk ks Enth w Enth_s0).lambda ∧
      (getEnthalpyCTSColumn EC grid ice p_air thk ks Enth w Enth_s0).lambda ≤ 1 := by
  rw [getEnthalpyCTSColumn_lambda]
  exact ctsIce_lambda_range EC grid ice thk Enth w hk hrc hdz _ _ zero_le_one (le_refl _)

/-- Instance of C2: a cold column with `ks = 2` and velocities `3`. -/
theorem getEnthalpyCTSColumn_lambda_range_witness :
    0 ≤ (getEnthalpyCTSColumn exEC exGrid exIce 0 2 2 exEnthCold exW3 (fun _ => 0)).lambda ∧
      (getEnthalpyCTSColumn exEC exGrid exIce 0 2 2 exEnthCold exW3 (fun _ => 0)).lambda ≤ 1 :=
  getEnthalpyCTSColumn_lambda_range exEC exGrid exIce 0 2 2 exEnthCold exW3 (fun _ => 0)
    (by norm_num [exIce]) (by norm_num [exIce]) (by norm_num [exGrid])

theorem lambdaBound_eq (grid : IceGrid) (ice : IceFlowLaw) (w : Int → ℚ) (k : Int) :
    lambdaBound grid ice w k
      = 2 * ice.k / ((|w k| + 0.000001 / secpera) * ice.rho * ice.c_p * grid.dz_fine) := by
  unfold lambdaBound epsVel
  rw [mul_assoc (|w k| + 0.000001 / secpera) ice.rho ice.c_p]

/-- C4: when no level `k` in `0..ks` has `Enth[k] > Enth_s[k]`, the `lambda` returned by
`getEnthalpyCTSColumn` is the minimum of `1` and of the bounds
`2*ice_k / ((|w[k]| + eps) * rho * c_p * dz_fine)` of the levels `0..ks`, with
`eps = 0.000001/secpera`; and for positive `rho * c_p` and `dz_fine` it is `1` exactly when
`(|w[k]| + eps) * rho * c_p * dz_fine ≤ 2*ice_k` at every level `0..ks`. -/
theorem getEnthalpyCTSColumn_closed_form (EC : EnthalpyConverter) (grid : IceGrid)
    (ice : IceFlowLaw) (p_air thk : ℚ) (ks : Int) (Enth w Enth_s0 : Int → ℚ)
    (hno : ∀ k : Int, 0 ≤ k → k ≤ ks →
      ¬ Enth k > (getEnthalpyCTSColumn EC grid ice p_air thk ks Enth w Enth_s0).Enth_s k) :
    IsLeast ({1} ∪ {y : ℚ | ∃ k : Int, 0 ≤ k ∧ k ≤ ks ∧
        y = 2 * ice.k / ((|w k| + 0.000001 / secpera) * ice.rho * ice.c_p * grid.dz_fine)})
      (getEnthalpyCTSColumn EC grid ice p_air thk ks Enth w Enth_s0).lambda ∧
    (0 < ice.rho * ice.c_p → 0 < grid.dz_fine →
      ((getEnthalpyCTSColumn EC grid ice p_air thk ks Enth w Enth_s0).lambda = 1 ↔
        ∀ k : Int, 0 ≤ k → k ≤ ks →
          (|w k| + 0.000001 / secpera) * ice.rho * ice.c_p * grid.dz_fine ≤ 2 * ice.k)) := by
  have hno2 : ∀ k : Int, 0 ≤ k → k < ((ks + 1).toNat : Int) →
      ¬ Enth k > enthCTS EC grid thk k := by
    intro k h0 hk
    have hks : k ≤ ks := by omega
    have h := hno k h0 hks
    rwa [getEnthalpyCTSColumn_Enth_s _ _ _ _ _ _ _ _ _ _ h0 hks] at h
  obtain ⟨h1, h2, h3⟩ := ctsIce_lambda_least EC grid ice thk Enth w (ks + 1).toNat
    { lambda := 1, Enth_s := Enth_s0 } hno2
  rw [← getEnthalpyCTSColumn_lambda EC grid ice p_air thk ks Enth w Enth_s0] at h1 h2 h3
  have hle : ∀ k : Int, 0 ≤ k → k ≤ ks →
      (getEnthalpyCTSColumn EC grid ice p_air thk ks Enth w Enth_s0).lambda
        ≤ 2 * ice.k / ((|w k| + 0.000001 / secpera) * ice.rho * ice.c_p * grid.dz_fine) := by
    intro k h0 hk
    rw [← lambdaBound_eq]
    exact h2 k h0 (by omega)
  have hmem : (getEnthalpyCTSColumn EC grid ice p_air thk ks Enth w Enth_s0).lambda = 1 ∨
      ∃ k : Int, 0 ≤ k ∧ k ≤ ks ∧
        (getEnthalpyCTSColumn EC grid ice p_air thk ks Enth w Enth_s0).lambda
          = 2 * ice.k / ((|w k| + 0.000001 / secpera) * ice.rho * ice.c_p * grid.dz_fine) := by
    rcases h3 with h3 | ⟨k, h0, hk, he⟩
    · exact Or.inl h3
    · exact Or.inr ⟨k, h0, by omega, by rw [← lambdaBound_eq]; exact he⟩
  refine ⟨⟨?_, ?_⟩, ?_⟩
  · rcases hmem with h | h
    · exact Or.inl h
    · exact Or.inr h
  · rintro y (hy | ⟨k, h0, hk, hy⟩)
    · rw [Set.mem_singleton_iff.mp hy]
      exact h1
    · rw [hy]
      exact hle k h0 hk
  · intro hrc hdz
    have hden : ∀ k : Int,
        0 < (|w k| + 0.000001 / secpera) * ice.rho * ice.c_p * grid.dz_fine := by
      intro k
      have he : 0 < |w k| + 0.000001 / secpera :=
        add_pos_of_nonneg_of_pos (abs_nonneg _) epsVel_pos
      rw [mul_assoc (|w k| + 0.000001 / secpera) ice.rho ice.c_p]
      exact mul_pos (mul_pos he hrc) hdz
    constructor
    · intro h1eq k h0 hk
      have h := hle k h0 hk
      rw [h1eq, le_div_iff₀ (hden k)] at h
      linarith
    · intro hall
      rcases hmem with h | ⟨k, h0, hk, he⟩
      · exact h
      · apply le_antisymm h1
        rw [he, le_div_iff₀ (hden k)]
        linarith [hall k h0 hk]

/-- Instance of C4: a cold column with `ks = 2` and velocities `3`. -/
theorem getEnthalpyCTSColumn_closed_form_witness :
    (getEnthalpyCTSColumn exEC exGrid exIce 0 2 2 exEnthCold exW3 (fun _ => 0)).lambda = 1 ↔
      ∀ k : Int, 0 ≤ k → k ≤ 2 →
        (|exW3 k| + 0.000001 / secpera) * exIce.rho * exIce.c_p * exGrid.dz_fine
          ≤ 2 * exIce.k :=
  (getEnthalpyCTSColumn_closed_form exEC exGrid exIce 0 2 2 exEnthCold exW3 (fun _ => 0)
    (by
      intro k h0 hk
      rw [getEnthalpyCTSColumn_Enth_s _ _ _ _ _ _ _ _ _ _ h0 hk]
      norm_num [exEnthCold, enthCTS, exEC])).2
    (by norm_num [exIce]) (by norm_num [exGrid])

/-! ## Lemmas on the row assembly of `solveThisColumn` -/

theorem assemblyInputs_loop (m : Mask) (lo : Int) (n : Nat) (c : enthSystemCtx) :
    assemblyInputs (forLoop lo (interiorRow m) n c) = assemblyInputs c := by
  induction n with
  | zero => rfl
  | succ n ih =>
    have h : assemblyInputs (interiorRow m (lo + (n : Int)) (forLoop lo (interiorRow m) n c))
        = assemblyInputs (forLoop lo (interiorRow m) n c) := rfl
    simp only [forLoop]
    rw [h, ih]

theorem interiorL_loop (m : Mask) (lo : Int) (n : Nat) (c : enthSystemCtx) (k : Int) :
    interiorL (forLoop lo (interiorRow m) n c) k = interiorL c k := by
  have h : ∀ d : enthSystemCtx, interiorL (assemblyInputs d) k = interiorL d k := fun _ => rfl
  rw [← h, assemblyInputs_loop, h]

theorem interiorD_loop (m : Mask) (lo : Int) (n : Nat) (c : enthSystemCtx) (k : Int) :
    interiorD (forLoop lo (interiorRow m) n c) k = interiorD c k := by
  have h : ∀ d : enthSystemCtx, interiorD (assemblyInputs d) k = interiorD d k := fun _ => rfl
  rw [← h, assemblyInputs_loop, h]

theorem interiorU_loop (m : Mask) (lo : Int) (n : Nat) (c : enthSystemCtx) (k : Int) :
    interiorU (forLoop lo (interiorRow m) n c) k = interiorU c k := by
  have h : ∀ d : enthSystemCtx, interiorU (assemblyInputs d) k = interiorU d k := fun _ => rfl
  rw [← h, assemblyInputs_loop, h]

theorem interiorRhs_loop (m : Mask) (lo : Int) (n : Nat) (c : enthSystemCtx) (k : Int) :
    interiorRhs m (forLoop lo (interiorRow m) n c) k = interiorRhs m c k := by
  have h : ∀ d : enthSystemCtx, interiorRhs m (assemblyInputs d) k = interiorRhs m d k :=
    fun _ => rfl
  rw [← h, assemblyInputs_loop, h]

theorem interiorLoop_ks (m : Mask) (lo : Int) (n : Nat) (c : enthSystemCtx) :
    (forLoop lo (interiorRow m) n c).ks = c.ks := by
  have h := congrArg enthSystemCtx.ks (assemblyInputs_loop m lo n c)
  exact h

theorem interiorLoop_Mz (m : Mask) (lo : Int) (n : Nat) (c : enthSystemCtx) :
    (forLoop lo (interiorRow m) n c).Mz = c.Mz := by
  have h := congrArg enthSystemCtx.Mz (assemblyInputs_loop m lo n c)
  exact h

theorem interiorLoop_Enth_ks (m : Mask) (lo : Int) (n : Nat) (c : enthSystemCtx) :
    (forLoop lo (interiorRow m) n c).Enth_ks = c.Enth_ks := by
  have h := congrArg enthSystemCtx.Enth_ks (assemblyInputs_loop m lo n c)
  exact h

theorem interiorLoop_L (m : Mask) (n : Nat) (c : enthSystemCtx) (j : Int) :
    (forLoop 1 (interiorRow m) n c).L j
      = if 1 ≤ j ∧ j < 1 + (n : Int) then interiorL c j else c.L j := by
  induction n with
  | zero =>
    have : ¬ (1 ≤ j ∧ j < 1 + ((0 : Nat) : Int)) := by omega
    rw [if_neg this]
    rfl
  | succ n ih =>
    show setAt (forLoop 1 (interiorRow m) n c).L (1 + (n : Int))
      (interiorL (forLoop 1 (interiorRow m) n c) (1 + (n : Int))) j = _
    rw [interiorL_loop]
    by_cases hj : j = 1 + (n : Int)
    · rw [hj, setAt_same, if_pos (by push_cast; omega)]
    · rw [setAt_other _ _ _ _ hj, ih]
      by_cases h : 1 ≤ j ∧ j < 1 + (n : Int)
      · rw [if_pos h, if_pos (by push_cast; omega)]
      · rw [if_neg h, if_neg (by push_cast; omega)]

theorem interiorLoop_D (m : Mask) (n : Nat) (c : enthSystemCtx) (j : Int) :
    (forLoop 1 (interiorRow m) n c).D j
      = if 1 ≤ j ∧ j < 1 + (n : Int) then interiorD c j else c.D j := by
  induction n with
  | zero =>
    have : ¬ (1 ≤ j ∧ j < 1 + ((0 : Nat) : Int)) := by omega
    rw [if_neg this]
    rfl
  | succ n ih =>
    show setAt (forLoop 1 (interiorRow m) n c).D (1 + (n : Int))
      (interiorD (forLoop 1 (interiorRow m) n c) (1 + (n : Int))) j = _
    rw [interiorD_loop]
    by_cases hj : j = 1 + (n : Int)
    · rw [hj, setAt_same, if_pos (by push_cast; omega)]
    · rw [setAt_other _ _ _ _ hj, ih]
      by_cases h : 1 ≤ j ∧ j < 1 + (n : Int)
      · rw [if_pos h, if_pos (by push_cast; omega)]
      · rw [if_neg h, if_neg (by push_cast; omega)]

theorem interiorLoop_U (m : Mask) (n : Nat) (c : enthSystemCtx) (j : Int) :
    (forLoop 1 (interiorRow m) n c).U j
      = if 1 ≤ j ∧ j < 1 + (n : Int) then interiorU c j else c.U j := by
  induction n with
  | zero =>
    have : ¬ (1 ≤ j ∧ j < 1 + ((0 : Nat) : Int)) := by omega
    rw [if_neg this]
    rfl
  | succ n ih =>
    show setAt (forLoop 1 (interiorRow m) n c).U (1 + (n : Int))
      (interiorU (forLoop 1 (interiorRow m) n c) (1 + (n : Int))) j = _
    rw [interiorU_loop]
    by_cases hj : j = 1 + (n : Int)
    · rw [hj, setAt_same, if_pos (by push_cast; omega)]
    · rw [setAt_other _ _ _ _ hj, ih]
      by_cases h : 1 ≤ j ∧ j < 1 + (n : Int)
      · rw [if_pos h, if_pos (by push_cast; omega)]
      · rw [if_neg h, if_neg (by push_cast; omega)]

theorem interiorLoop_rhs (m : Mask) (n : Nat) (c : enthSystemCtx) (j : Int) :
    (forLoop 1 (interiorRow m) n c).rhs j
      = if 1 ≤ j ∧ j < 1 + (n : Int) then interiorRhs m c j else c.rhs j := by
  induction n with
  | zero =>
    have : ¬ (1 ≤ j ∧ j < 1 + ((0 : Nat) : Int)) := by omega
    rw [if_neg this]
    rfl
  | succ n ih =>
    show setAt (forLoop 1 (interiorRow m) n c).rhs (1 + (n : Int))
      (interiorRhs m (forLoop 1 (interiorRow m) n c) (1 + (n : Int))) j = _
    rw [interiorRhs_loop]
    by_cases hj : j = 1 + (n : Int)
    · rw [hj, setAt_same, if_pos (by push_cast; omega)]
    · rw [setAt_other _ _ _ _ hj, ih]
      by_cases h : 1 ≤ j ∧ j < 1 + (n : Int)
      · rw [if_pos h, if_pos (by push_cast; omega)]
      · rw [if_neg h, if_neg (by push_cast; omega)]

theorem assembleRows_eq (m : Mask) (c : enthSystemCtx) (a0 a1 b : ℚ)
    (h0 : c.a0 = some a0) (h1 : c.a1 = some a1) (hb : c.b = some b) :
    assembleRows m c = some (topRow (forLoop 1 (interiorRow m) (c.ks - 1).toNat
      { c with D := setAt c.D 0 a0, U := setAt c.U 0 a1, rhs := setAt c.rhs 0 b })) := by
  simp only [assembleRows, h0, h1, hb]

/-- The rows of the system assembled by `solveThisColumn` for `ks ≥ 1`, once the basal
coefficients `a0`, `a1`, `b` are set. -/
theorem assembleRows_rows (m : Mask) (c : enthSystemCtx) (a0 a1 b : ℚ)
    (h0 : c.a0 = some a0) (h1 : c.a1 = some a1) (hb : c.b = some b) (hks : 1 ≤ c.ks) :
    ∃ c' : enthSystemCtx, assembleRows m c = some c' ∧ c'.ks = c.ks ∧
      c'.D 0 = a0 ∧ c'.U 0 = a1 ∧ c'.rhs 0 = b ∧
      (∀ k : Int, 1 ≤ k → k < c.ks →
        c'.L k = interiorL c k ∧ c'.D k = interiorD c k ∧ c'.U k = interiorU c k ∧
          c'.rhs k = interiorRhs m c k) ∧
      c'.L c.ks = 0 ∧ c'.D c.ks = 1 ∧ c'.rhs c.ks = c.Enth_ks := by
  refine ⟨_, assembleRows_eq m c a0 a1 b h0 h1 hb, ?_⟩
  have hn : (((c.ks - 1).toNat : Nat) : Int) = c.ks - 1 := Int.toNat_of_nonneg (by omega)
  have hpos : c.ks > 0 := by omega
  refine ⟨?_, ?_, ?_, ?_, ?_, ?_, ?_, ?_⟩
  · simp only [topRow, interiorLoop_ks]
  · simp only [topRow, interiorLoop_ks]
    rw [setAt_other _ _ _ _ (by omega), interiorLoop_D, if_neg (by omega)]
    simp only [setAt_same]
  · simp only [topRow, interiorLoop_ks, interiorLoop_Mz]
    split_ifs with h2
    · rw [setAt_other _ _ _ _ (by omega), interiorLoop_U, if_neg (by omega)]
      simp only [setAt_same]
    · rw [interiorLoop_U, if_neg (by omega)]
      simp only [setAt_same]
  · simp only [topRow, interiorLoop_ks]
    rw [setAt_other _ _ _ _ (by omega), interiorLoop_rhs, if_neg (by omega)]
    simp only [setAt_same]
  · intro k hk1 hk2
    have hin : 1 ≤ k ∧ k < 1 + (((c.ks - 1).toNat : Nat) : Int) := by omega
    refine ⟨?_, ?_, ?_, ?_⟩
    · simp only [topRow, interiorLoop_ks]
      rw [if_pos hpos, setAt_other _ _ _ _ (by omega), interiorLoop_L, if_pos hin]
      rfl
    · simp only [topRow, interiorLoop_ks]
      rw [setAt_other _ _ _ _ (by omega), interiorLoop_D, if_pos hin]
      rfl
    · simp only [topRow, interiorLoop_ks, interiorLoop_Mz]
      split_ifs with h2
      · rw [setAt_other _ _ _ _ (by omega), interiorLoop_U, if_pos hin]
        rfl
      · rw [interiorLoop_U, if_pos hin]
        rfl
    · simp only [topRow, interiorLoop_ks]
      rw [setAt_other _ _ _ _ (by omega), interiorLoop_rhs, if_pos hin]
      rfl
  · simp only [topRow, interiorLoop_ks]
    rw [if_pos hpos, setAt_same]
  · simp only [topRow, interiorLoop_ks]
    rw [setAt_same]
  · simp only [topRow, interiorLoop_ks, interiorLoop_Enth_ks]
    rw [setAt_same]

/-! ## The column with its base exactly at the melting enthalpy -/

theorem exCTSBase_lambda : exCTSBase.lambda = 1 := by
  unfold exCTSBase
  rw [getEnthalpyCTSColumn_lambda]
  have h3 : ((2 : Int) + 1).toNat = 3 := by decide
  rw [h3]
  simp only [forLoop, ctsIceBody_lambda]
  norm_num [enthCTS, exEC, exEnthBaseAtCTS, lambdaBound, exIce, exGrid, exWdown, epsVel,
    secpera]
  rw [abs_of_pos (by norm_num : (0 : ℚ) < 15 / 8)]
  norm_num

theorem exCTSBase_Enth_s (k : Int) (h0 : 0 ≤ k) (hk : k ≤ 2) : exCTSBase.Enth_s k = 100 := by
  unfold exCTSBase
  rw [getEnthalpyCTSColumn_Enth_s _ _ _ _ _ _ _ _ _ _ h0 hk]
  rfl

/-- C3, evaluated at a failing input: in the column `exEnthBaseAtCTS` (`ks = 2`) level `0`
is temperate in the sense `Enth[0] ≥ Enth_s[0]` and `assemble_R` gives it the temperate
diffusivity `iceRtemp`, yet `getEnthalpyCTSColumn` returns `lambda = 1`, not `0`. -/
theorem getEnthalpyCTSColumn_at_melting_not_upwind :
    exEnthBaseAtCTS 0 ≥ exCTSBase.Enth_s 0 ∧
      exCtxBase.R 0 = exCtxBase.iceRtemp ∧
      exCTSBase.lambda = 1 ∧ exCTSBase.lambda ≠ 0 := by
  have h3 : ((2 : Int) + 1).toNat = 3 := by decide
  refine ⟨?_, ?_, exCTSBase_lambda, ?_⟩
  · rw [exCTSBase_Enth_s 0 (by norm_num) (by norm_num)]
    norm_num [exEnthBaseAtCTS]
  · simp only [exCtxBase, initThisColumn, assemble_R, h3, forLoop]
    norm_num [setAt, exCTSBase_Enth_s, exEnthBaseAtCTS]
  · rw [exCTSBase_lambda]
    norm_num

/-- C5, evaluated at a failing input: with consistent constants (`ice_k = rho = c = dz = 1`,
`dt = 4`, so `iceRcold = 4`, `nuEQ = 4`, and `iceRtemp = 2/5`), `R` from `assemble_R` and
`lambda` from `getEnthalpyCTSColumn` on the same column (`ks = 2`, base exactly at the
melting enthalpy, `w[1] = -15/8`), the interior row `k = 1` assembled by `solveThisColumn`
is `L = 31/20`, `D = 36/5`, `U = -31/4`: it is not diagonally dominant. -/
theorem solveThisColumn_row_not_dominant_at_melting :
    exCtx.iceRcold = exIce.k * 4 / (exIce.rho * exIce.c_p * exGrid.dz_fine ^ 2) ∧
      0 < exCtx.iceRcold ∧ 0 ≤ exCtx.iceRtemp ∧ exCtx.iceRtemp ≤ exCtx.iceRcold ∧
      exCtx.nuEQ = 4 / exGrid.dz_fine ∧
      ∃ c : enthSystemCtx, assembleRows exMask (setDirichletBasal exCtxBase 100) = some c ∧
        c.L 1 = 31 / 20 ∧ c.D 1 = 36 / 5 ∧ c.U 1 = -31 / 4 ∧
        ¬ (|c.L 1| + |c.U 1| < c.D 1) := by
  have h3 : ((2 : Int) + 1).toNat = 3 := by decide
  have hks : (setDirichletBasal exCtxBase 100).ks = 2 := rfl
  have hL : interiorL (setDirichletBasal exCtxBase 100) 1 = 31 / 20 := by
    simp only [exCtxBase, initThisColumn, assemble_R, h3, forLoop, interiorL, setDirichletBasal]
    norm_num [setAt, exCTSBase_Enth_s, exCTSBase_lambda, exEnthBaseAtCTS, exCtx,
      initAllColumns, newEnthSystemCtx, PetscSqr, exWdown]
  have hD : interiorD (setDirichletBasal exCtxBase 100) 1 = 36 / 5 := by
    simp only [exCtxBase, initThisColumn, assemble_R, h3, forLoop, interiorD, setDirichletBasal]
    norm_num [setAt, exCTSBase_Enth_s, exCTSBase_lambda, exEnthBaseAtCTS, exCtx,
      initAllColumns, newEnthSystemCtx, PetscSqr, exWdown]
  have hU : interiorU (setDirichletBasal exCtxBase 100) 1 = -31 / 4 := by
    simp only [exCtxBase, initThisColumn, assemble_R, h3, forLoop, interiorU, setDirichletBasal]
    norm_num [setAt, exCTSBase_Enth_s, exCTSBase_lambda, exEnthBaseAtCTS, exCtx,
      initAllColumns, newEnthSystemCtx, PetscSqr, exWdown]
  obtain ⟨c, hc, -, -, -, -, hint, -⟩ := assembleRows_rows exMask
    (setDirichletBasal exCtxBase 100) 1 0 100 rfl rfl rfl (by rw [hks]; norm_num)
  obtain ⟨hcL, hcD, hcU, -⟩ := hint 1 (le_refl _) (by rw [hks]; norm_num)
  rw [hL] at hcL
  rw [hD] at hcD
  rw [hU] at hcU
  refine ⟨?_, ?_, ?_, ?_, ?_, c, hc, hcL, hcD, hcU, ?_⟩
  · norm_num [exCtx, initAllColumns, newEnthSystemCtx, PetscSqr, exIce, exGrid]
  · norm_num [exCtx, initAllColumns, newEnthSystemCtx, PetscSqr]
  · norm_num [exCtx, initAllColumns, newEnthSystemCtx, PetscSqr]
  · norm_num [exCtx, initAllColumns, newEnthSystemCtx, PetscSqr]
  · norm_num [exCtx, initAllColumns, newEnthSystemCtx, PetscSqr, exGrid]
  · rw [hcL, hcU, hcD, abs_of_pos (by norm_num : (0 : ℚ) < 31 / 20),
      abs_of_neg (by norm_num : (-31 / 4 : ℚ) < 0)]
    norm_num

/-! ## Claims on the basal boundary condition chosen by the driver -/

theorem columnInit_ks (EC : EnthalpyConverter) (grid : IceGrid) (inp : ColumnInput)
    (pr : ColumnPrep) : (columnInit EC grid inp pr).ks = columnKs grid inp := rfl

theorem exKs_eq (inp : ColumnInput) (h : inp.vH = 2) : columnKs exGrid inp = 2 := by
  unfold columnKs
  rw [h]
  have h2 : ((2 : ℚ) / exGrid.dz_fine) = ((2 : Int) : ℚ) := by norm_num [exGrid]
  rw [h2, Int.floor_intCast]

/-- C6: for a floating column that is not ice-free (`ks ≥ 1`), row 0 of the system the
driver assembles is `D[0] = 1`, `U[0] = 0`, `rhs[0] = Enth0`, with `Enth0` the enthalpy of
the ocean-supplied basal temperature at zero liquid fraction and basal pressure, whatever
`lambda`, `u`, `v`, `w`, `Sigma` and the previous enthalpy are; every solution of the system
has `x[0] = Enth0`. -/
theorem columnSystem_floating_row0 (EC : EnthalpyConverter) (m : Mask) (grid : IceGrid)
    (ice : IceFlowLaw) (cfg : EnthConfig) (inp : ColumnInput) (esys : enthSystemCtx)
    (hfl : inp.ocean = true) (hks : 1 ≤ columnKs grid inp) :
    ∃ c : enthSystemCtx, columnSystem EC m grid ice cfg inp esys = some c ∧
      c.D 0 = 1 ∧ c.U 0 = 0 ∧
      c.rhs 0 = EC.getEnthPermissive inp.shelfbtemp 0 (EC.getPressureFromDepth inp.vH) ∧
      ∀ x : Int → ℚ, IsSolution c x →
        x 0 = EC.getEnthPermissive inp.shelfbtemp 0 (EC.getPressureFromDepth inp.vH) := by
  have hne : columnKs grid inp ≠ 0 := by omega
  have hcalls : basalCalls EC cfg inp (columnPrepare EC grid ice cfg inp esys)
      = [BasalCall.setDirichletBasal
          (EC.getEnthPermissive inp.shelfbtemp 0 (EC.getPressureFromDepth inp.vH))] := by
    simp only [basalCalls, hfl, if_true]
  obtain ⟨c, hc, hcks, hD, hU, hr, -⟩ := assembleRows_rows m
    (setDirichletBasal (columnInit EC grid inp (columnPrepare EC grid ice cfg inp esys))
      (EC.getEnthPermissive inp.shelfbtemp 0 (EC.getPressureFromDepth inp.vH)))
    1 0 (EC.getEnthPermissive inp.shelfbtemp 0 (EC.getPressureFromDepth inp.vH))
    rfl rfl rfl hks
  refine ⟨c, ?_, hD, hU, hr, ?_⟩
  · unfold columnSystem
    rw [if_neg hne]
    simp only [hcalls, List.foldl, applyBasalCall]
    exact hc
  · intro x hx
    have hcks2 : c.ks = columnKs grid inp := hcks
    have h0 := hx 0 (le_refl _) (by omega)
    unfold rowHolds at h0
    rw [if_pos rfl, if_neg (by omega), hD, hU, hr] at h0
    linarith

/-- Instance of C6: the floating column `exInpFloat` (`ks = 2`, basal temperature `7`). -/
theorem columnSystem_floating_row0_witness :
    ∃ c : enthSystemCtx, columnSystem exEC exMask exGrid exIce exCfg exInpFloat exCtx = some c ∧
      c.D 0 = 1 ∧ c.U 0 = 0 ∧
      c.rhs 0 = exEC.getEnthPermissive exInpFloat.shelfbtemp 0
        (exEC.getPressureFromDepth exInpFloat.vH) ∧
      ∀ x : Int → ℚ, IsSolution c x →
        x 0 = exEC.getEnthPermissive exInpFloat.shelfbtemp 0
          (exEC.getPressureFromDepth exInpFloat.vH) :=
  columnSystem_floating_row0 exEC exMask exGrid exIce exCfg exInpFloat exCtx rfl
    (by rw [exKs_eq exInpFloat rfl]; norm_num)

theorem columnPrepare_Enth_s0 (EC : EnthalpyConverter) (grid : IceGrid) (ice : IceFlowLaw)
    (cfg : EnthConfig) (inp : ColumnInput) (esys : enthSystemCtx)
    (hks : 0 ≤ columnKs grid inp) :
    (columnPrepare EC grid ice cfg inp esys).esys.Enth_s 0 = enthCTS EC grid inp.vH 0 :=
  getEnthalpyCTSColumn_Enth_s EC grid ice cfg.p_air inp.vH (columnKs grid inp) inp.Enth3
    inp.w3 esys.Enth_s 0 (le_refl _) hks

/-- C7, as stated, fails: the grounded column `exInpWet` (`ks = 2`) has its gathered base
enthalpy `50` below the base melting enthalpy `100`, but it stores water (`vHmelt = 1`), and
the driver applies the Dirichlet condition with the melting enthalpy, not the Neumann
condition with value `-(G0 + Rb)/ice_K`. -/
theorem columnBasalCalls_cold_over_water :
    exInpWet.ocean = false ∧ columnKs exGrid exInpWet = 2 ∧
      exInpWet.Enth3 0 < (columnPrepare exEC exGrid exIce exCfg exInpWet exCtx).esys.Enth_s 0 ∧
      columnBasalCalls exEC exGrid exIce exCfg exInpWet exCtx
        = [BasalCall.setDirichletBasal 100] ∧
      columnBasalCalls exEC exGrid exIce exCfg exInpWet exCtx
        ≠ [BasalCall.setNeumannBasal (- (exInpWet.G0 + exInpWet.Rb) / (exCfg.ice_k / exCfg.ice_c))] := by
  have hks : columnKs exGrid exInpWet = 2 := exKs_eq exInpWet rfl
  have hs : (columnPrepare exEC exGrid exIce exCfg exInpWet exCtx).esys.Enth_s 0 = 100 := by
    rw [columnPrepare_Enth_s0 _ _ _ _ _ _ (by rw [hks]; norm_num)]
    rfl
  have hcalls : columnBasalCalls exEC exGrid exIce exCfg exInpWet exCtx
      = [BasalCall.setDirichletBasal 100] := by
    unfold columnBasalCalls
    rw [if_neg (by rw [hks]; norm_num)]
    have hs2 : (getEnthalpyCTSColumn exEC exGrid exIce exCfg.p_air exInpWet.vH
        (columnKs exGrid exInpWet) exInpWet.Enth3 exInpWet.w3 exCtx.Enth_s).Enth_s 0 = 100 := hs
    simp only [basalCalls, columnPrepare, hs2]
    norm_num [exInpWet, exEnthCold, setAt, exEC]
  refine ⟨rfl, hks, ?_, hcalls, ?_⟩
  · rw [hs]
    norm_num [exInpWet, exEnthCold]
  · rw [hcalls]
    simp

/-- The base is classified cold exactly when the gathered base enthalpy is below the base
melting enthalpy and no water is stored. -/
theorem columnPrepare_base_is_cold (EC : EnthalpyConverter) (grid : IceGrid)
    (ice : IceFlowLaw) (cfg : EnthConfig) (inp : ColumnInput) (esys : enthSystemCtx) :
    (columnPrepare EC grid ice cfg inp esys).base_is_cold = true ↔
      (inp.vHmelt ≤ 0 ∧
        inp.Enth3 0 < (columnPrepare EC grid ice cfg inp esys).esys.Enth_s 0) := by
  show decide ((if inp.vHmelt > 0 ∧ inp.Enth3 0 < (columnPrepare EC grid ice cfg inp esys).esys.Enth_s 0
      then setAt inp.Enth3 0 ((columnPrepare EC grid ice cfg inp esys).esys.Enth_s 0)
      else inp.Enth3) 0 < (columnPrepare EC grid ice cfg inp esys).esys.Enth_s 0) = true ↔ _
  rw [decide_eq_true_iff]
  by_cases h : inp.vHmelt > 0 ∧
      inp.Enth3 0 < (columnPrepare EC grid ice cfg inp esys).esys.Enth_s 0
  · rw [if_pos h, setAt_same]
    constructor
    · intro hh
      exact absurd hh (lt_irrefl _)
    · intro hh
      exact absurd h.1 (not_lt.mpr hh.1)
  · rw [if_neg h]
    constructor
    · intro hh
      refine ⟨?_, hh⟩
      by_contra hpos
      exact h ⟨not_le.mp hpos, hh⟩
    · intro hh
      exact hh.2

/-- The temperate test of level 1 reads the gathered enthalpy of level 1. -/
theorem columnPrepare_k1_istemperate (EC : EnthalpyConverter) (grid : IceGrid)
    (ice : IceFlowLaw) (cfg : EnthConfig) (inp : ColumnInput) (esys : enthSystemCtx) :
    (columnPrepare EC grid ice cfg inp esys).k1_istemperate
      = EC.isTemperate (inp.Enth3 1) (EC.getPressureFromDepth (inp.vH - grid.dz_fine)) := by
  show EC.isTemperate ((if inp.vHmelt > 0 ∧ inp.Enth3 0 < (columnPrepare EC grid ice cfg inp esys).esys.Enth_s 0
      then setAt inp.Enth3 0 ((columnPrepare EC grid ice cfg inp esys).esys.Enth_s 0)
      else inp.Enth3) 1) _ = _
  split_ifs
  · rw [setAt_other _ _ _ _ (by norm_num)]
  · rfl

/-- C7, amended: for a grounded column that is not ice-free, whose gathered base enthalpy
`Enth[0]` is below the base melting enthalpy `Enth_s[0]` and which stores no water
(`vHmelt ≤ 0`), the driver applies the Neumann basal condition with value
`-(G0 + Rb)/ice_K`, `ice_K = ice_k/ice_c`, and no other. -/
theorem columnBasalCalls_grounded_cold (EC : EnthalpyConverter) (grid : IceGrid)
    (ice : IceFlowLaw) (cfg : EnthConfig) (inp : ColumnInput) (esys : enthSystemCtx)
    (hks : columnKs grid inp ≠ 0) (hgr : inp.ocean = false) (hdry : inp.vHmelt ≤ 0)
    (hcold : inp.Enth3 0 < (columnPrepare EC grid ice cfg inp esys).esys.Enth_s 0) :
    columnBasalCalls EC grid ice cfg inp esys
      = [BasalCall.setNeumannBasal (- (inp.G0 + inp.Rb) / (cfg.ice_k / cfg.ice_c))] := by
  have hb : (columnPrepare EC grid ice cfg inp esys).base_is_cold = true :=
    (columnPrepare_base_is_cold EC grid ice cfg inp esys).mpr ⟨hdry, hcold⟩
  unfold columnBasalCalls
  rw [if_neg hks]
  unfold basalCalls
  dsimp only
  rw [if_neg (by rw [hgr]; simp), if_pos hb]

/-- Instance of the amended C7: the cold grounded column `exInpDry` without stored water. -/
theorem columnBasalCalls_grounded_cold_witness :
    columnBasalCalls exEC exGrid exIce exCfg exInpDry exCtx
      = [BasalCall.setNeumannBasal (- (exInpDry.G0 + exInpDry.Rb) / (exCfg.ice_k / exCfg.ice_c))] :=
  columnBasalCalls_grounded_cold exEC exGrid exIce exCfg exInpDry exCtx
    (by rw [exKs_eq exInpDry rfl]; norm_num) rfl (by norm_num [exInpDry])
    (by
      rw [columnPrepare_Enth_s0 _ _ _ _ _ _ (by rw [exKs_eq exInpDry rfl]; norm_num)]
      norm_num [exInpDry, exInpWet, exEnthCold, enthCTS, exEC])

/-- C8: for a column that is not ice-free the driver sets exactly one basal condition; and
for a grounded one whose base is not cold (`Enth[0] ≥ Enth_s[0]`) it is the zero-flux
Neumann condition when level 1 is temperate and the Dirichlet condition with target
`Enth_s[0]` when level 1 is cold. -/
theorem columnBasalCalls_grounded_warm (EC : EnthalpyConverter) (grid : IceGrid)
    (ice : IceFlowLaw) (cfg : EnthConfig) (inp : ColumnInput) (esys : enthSystemCtx)
    (hks : columnKs grid inp ≠ 0) :
    (columnBasalCalls EC grid ice cfg inp esys).length = 1 ∧
    (inp.ocean = false →
      (columnPrepare EC grid ice cfg inp esys).esys.Enth_s 0 ≤ inp.Enth3 0 →
      (EC.isTemperate (inp.Enth3 1) (EC.getPressureFromDepth (inp.vH - grid.dz_fine)) = true →
        columnBasalCalls EC grid ice cfg inp esys = [BasalCall.setNeumannBasal 0]) ∧
      (EC.isTemperate (inp.Enth3 1) (EC.getPressureFromDepth (inp.vH - grid.dz_fine)) = false →
        columnBasalCalls EC grid ice cfg inp esys
          = [BasalCall.setDirichletBasal
              ((columnPrepare EC grid ice cfg inp esys).esys.Enth_s 0)])) := by
  unfold columnBasalCalls
  rw [if_neg hks]
  constructor
  · unfold basalCalls
    dsimp only
    split_ifs <;> rfl
  · intro hgr hwarm
    have hb : ¬ (columnPrepare EC grid ice cfg inp esys).base_is_cold = true := by
      intro h
      have h2 := ((columnPrepare_base_is_cold EC grid ice cfg inp esys).mp h).2
      exact absurd h2 (not_lt.mpr hwarm)
    unfold basalCalls
    dsimp only
    rw [if_neg (by rw [hgr]; simp), if_neg hb, columnPrepare_k1_istemperate]
    constructor
    · intro ht
      rw [if_pos ht]
    · intro ht
      rw [if_neg (by rw [ht]; simp)]

/-- Instance of C8: the grounded column `exInpWarm`, above melting at levels 0 and 1. -/
theorem columnBasalCalls_grounded_warm_witness :
    (columnBasalCalls exEC exGrid exIce exCfg exInpWarm exCtx).length = 1 ∧
      columnBasalCalls exEC exGrid exIce exCfg exInpWarm exCtx = [BasalCall.setNeumannBasal 0] :=
  ⟨(columnBasalCalls_grounded_warm exEC exGrid exIce exCfg exInpWarm exCtx
      (by rw [exKs_eq exInpWarm rfl]; norm_num)).1,
    ((columnBasalCalls_grounded_warm exEC exGrid exIce exCfg exInpWarm exCtx
      (by rw [exKs_eq exInpWarm rfl]; norm_num)).2 rfl
      (by
        rw [columnPrepare_Enth_s0 _ _ _ _ _ _ (by rw [exKs_eq exInpWarm rfl]; norm_num)]
        norm_num [exInpWarm, enthCTS, exEC])).1
      (by norm_num [exInpWarm, exEC])⟩

/-! ## Claims on the Neumann basal row and the steady state -/

/-- C9: the basal row `(a0, a1, b)` set by `setBasalHeatFlux` holds for `x0`, `x1` if and
only if the generic interior stencil written at `k = 0` with zero vertical velocity,
`Rminus = R[0]`, `Rplus = 0.5*(R[0]+R[1])` and the ghost value `x1 + X`, `X = -2*dz*Y`,
`Y = -hf/K`, holds:
`-Rminus*(x1 + X) + (1 + Rminus + Rplus)*x0 - Rplus*x1
   = Enth[0] + dt*(Sigma[0]/rho - UpEnthu - UpEnthv)`. -/
theorem setBasalHeatFlux_ghost_elimination (m : Mask) (c : enthSystemCtx) (hf : ℚ) :
    ∃ a0 a1 b : ℚ, (setBasalHeatFlux m c hf).a0 = some a0 ∧
      (setBasalHeatFlux m c hf).a1 = some a1 ∧ (setBasalHeatFlux m c hf).b = some b ∧
      ∀ x0 x1 : ℚ,
        (a0 * x0 + a1 * x1 = b ↔
          (let K := (c.ice_rho * c.dzEQ ^ 2 * c.R 0) / c.dtTemp;
           let Y := - hf / K;
           let X := - 2 * c.dzEQ * Y;
           let Rminus := c.R 0;
           let Rplus := 0.5 * (c.R 0 + c.R 1);
           - Rminus * (x1 + X) + (1 + Rminus + Rplus) * x0 - Rplus * x1
             = c.Enth 0 + c.dtTemp * (c.Sigma 0 / c.ice_rho
                - (setBasalHeatFlux m c hf).UpEnthu - (setBasalHeatFlux m c hf).UpEnthv))) := by
  refine ⟨_, _, _, rfl, rfl, rfl, ?_⟩
  intro x0 x1
  simp only [setBasalHeatFlux, neumannRow, PetscSqr, pow_two]
  constructor <;> intro h <;> linear_combination h

theorem storeLoop_at (f : Int → ℚ) (n : Nat) (R0 : Int → ℚ) (j : Int) :
    forLoop 0 (fun k R => setAt R k (f k)) n R0 j
      = if 0 ≤ j ∧ j < (n : Int) then f j else R0 j := by
  induction n with
  | zero =>
    have : ¬ (0 ≤ j ∧ j < ((0 : Nat) : Int)) := by omega
    rw [if_neg this]
    rfl
  | succ n ih =>
    show setAt (forLoop 0 (fun k R => setAt R k (f k)) n R0) (0 + (n : Int))
      (f (0 + (n : Int))) j = _
    by_cases hj : j = 0 + (n : Int)
    · rw [hj, setAt_same, if_pos (by push_cast; omega)]
    · rw [setAt_other _ _ _ _ hj, ih]
      by_cases h : 0 ≤ j ∧ j < (n : Int)
      · rw [if_pos h, if_pos (by push_cast; omega)]
      · rw [if_neg h, if_neg (by push_cast; omega)]

/-- The entries `0..ks` of `R` after `assemble_R`. -/
theorem assemble_R_at (c : enthSystemCtx) (k : Int) (h0 : 0 ≤ k) (hk : k ≤ c.ks) :
    (assemble_R c).R k = if c.Enth k < c.Enth_s k then c.iceRcold else c.iceRtemp := by
  show forLoop 0
    (fun k R => setAt R k (if c.Enth k < c.Enth_s k then c.iceRcold else c.iceRtemp))
    (c.ks + 1).toNat c.R k = _
  rw [storeLoop_at (fun k => if c.Enth k < c.Enth_s k then c.iceRcold else c.iceRtemp)]
  rw [if_pos ⟨h0, by omega⟩]

theorem upwindTerms_zero (m : Mask) (c : enthSystemCtx) (k : Int) (hu : c.u k = 0)
    (hv : c.v k = 0) : upwindTerms m c k = (0, 0) := by
  unfold upwindTerms getMarginalEnth
  simp [hu, hv]

/-- The homogeneous implicit diffusion system with a zero-flux base and a zero top value
has only the zero solution. -/
theorem diffusion_rows_unique (R : ℚ) (hR : 0 ≤ R) (ks : Int) (y : Int → ℚ)
    (h0 : (1 + 2 * R) * y 0 - 2 * R * y 1 = 0)
    (hi : ∀ k : Int, 1 ≤ k → k < ks → - R * y (k - 1) + (1 + 2 * R) * y k - R * y (k + 1) = 0)
    (htop : y ks = 0) : ∀ k : Int, 0 ≤ k → k ≤ ks → y k = 0 := by
  have hstep : ∀ n : Nat, (n : Int) < ks → |y n| ≤ |y ((n : Int) + 1)| := by
    intro n
    induction n with
    | zero =>
      intro _
      have e : (1 + 2 * R) * y 0 = 2 * R * y 1 := by linarith
      have e2 : (1 + 2 * R) * |y 0| = 2 * R * |y 1| := by
        have := congrArg abs e
        rwa [abs_mul, abs_mul, abs_of_nonneg (by linarith : (0 : ℚ) ≤ 1 + 2 * R),
          abs_of_nonneg (by linarith : (0 : ℚ) ≤ 2 * R)] at this
      have hy0 := abs_nonneg (y 0)
      have hy1 := abs_nonneg (y 1)
      simp only [Nat.cast_zero, zero_add]
      nlinarith
    | succ n ih =>
      intro hlt
      have hprev := ih (by push_cast at hlt; omega)
      have e := hi ((n : Int) + 1) (by omega) (by push_cast at hlt; omega)
      rw [show (n : Int) + 1 - 1 = (n : Int) by ring] at e
      have e1 : (1 + 2 * R) * y ((n : Int) + 1) = R * (y n + y ((n : Int) + 1 + 1)) := by
        linarith
      have e2 : (1 + 2 * R) * |y ((n : Int) + 1)| = R * |y n + y ((n : Int) + 1 + 1)| := by
        have := congrArg abs e1
        rwa [abs_mul, abs_mul, abs_of_nonneg (by linarith : (0 : ℚ) ≤ 1 + 2 * R),
          abs_of_nonneg hR] at this
      have e3 := abs_add (y n) (y ((n : Int) + 1 + 1))
      have hy1 := abs_nonneg (y ((n : Int) + 1))
      have hy2 := abs_nonneg (y ((n : Int) + 1 + 1))
      push_cast
      nlinarith [mul_le_mul_of_nonneg_left e3 hR, mul_le_mul_of_nonneg_left hprev hR]
  have hdown : ∀ d : Nat, (d : Int) ≤ ks → y (ks - d) = 0 := by
    intro d
    induction d with
    | zero =>
      intro _
      simpa using htop
    | succ d ih =>
      intro hle
      have hz := ih (by push_cast at hle; omega)
      have hnn : 0 ≤ ks - ((d : Int) + 1) := by push_cast at hle; omega
      have hs := hstep (ks - ((d : Int) + 1)).toNat (by
        rw [Int.toNat_of_nonneg hnn]
        omega)
      rw [Int.toNat_of_nonneg hnn] at hs
      rw [show ks - ((d : Int) + 1) + 1 = ks - d by ring, hz, abs_zero] at hs
      have := abs_nonneg (y (ks - ((d : Int) + 1)))
      push_cast
      exact abs_eq_zero.mp (le_antisymm hs this)
  intro k hk0 hk
  have h := hdown (ks - k).toNat (by
    rw [Int.toNat_of_nonneg (by omega)]
    omega)
  rw [Int.toNat_of_nonneg (by omega)] at h
  rwa [show ks - (ks - k) = k by ring] at h

/-- C10: for `ks ≥ 1` and a cold column (`Enth[k] < Enth_s[k]` at all levels) whose enthalpy
is uniformly `E_top`, with zero `u`, `v`, `w`, `Sigma`, surface Dirichlet value `E_top` and
basal heat flux `0` (and a non-negative cold diffusivity number `iceRcold`), the system
assembled by `setBasalHeatFlux` and `solveThisColumn` is solved by a column `x` if and only
if `x[k] = E_top` at every level `0..ks`: the constant column is a solution and the only
one. -/
theorem steady_state_preserved (m : Mask) (c : enthSystemCtx) (ismarginal : Bool)
    (Msk : planeStar Int) (lambda E_top : ℚ) (hks : 1 ≤ c.ks) (hR : 0 ≤ c.iceRcold)
    (hE : ∀ k : Int, 0 ≤ k → k ≤ c.ks → c.Enth k = E_top)
    (hcold : ∀ k : Int, 0 ≤ k → k ≤ c.ks → c.Enth k < c.Enth_s k)
    (hu : ∀ k : Int, 0 ≤ k → k ≤ c.ks → c.u k = 0)
    (hv : ∀ k : Int, 0 ≤ k → k ≤ c.ks → c.v k = 0)
    (hw : ∀ k : Int, 0 ≤ k → k ≤ c.ks → c.w k = 0)
    (hS : ∀ k : Int, 0 ≤ k → k ≤ c.ks → c.Sigma k = 0) :
    ∃ c' : enthSystemCtx,
      assembleRows m (setBasalHeatFlux m
        (setBoundaryValuesThisColumn (initThisColumn c ismarginal Msk lambda) E_top) 0)
        = some c' ∧
      c'.ks = c.ks ∧
      ∀ x : Int → ℚ, IsSolution c' x ↔ ∀ k : Int, 0 ≤ k → k ≤ c.ks → x k = E_top := by
  have hRk : ∀ k : Int, 0 ≤ k → k ≤ c.ks →
      (setBoundaryValuesThisColumn (initThisColumn c ismarginal Msk lambda) E_top).R k
        = c.iceRcold := by
    intro k h0 hk
    have h := assemble_R_at
      { c with ismarginal := ismarginal, lambda := lambda, Msk := Msk } k h0 hk
    exact h.trans (if_pos (hcold k h0 hk))
  have hup : ∀ k : Int, 0 ≤ k → k ≤ c.ks →
      upwindTerms m (setBoundaryValuesThisColumn
        (initThisColumn c ismarginal Msk lambda) E_top) k = (0, 0) := by
    intro k h0 hk
    exact upwindTerms_zero m _ k (hu k h0 hk) (hv k h0 hk)
  obtain ⟨c', hc', hcks, hD0, hU0, hr0, hint, hLt, hDt, hrt⟩ := assembleRows_rows m
    (setBasalHeatFlux m
      (setBoundaryValuesThisColumn (initThisColumn c ismarginal Msk lambda) E_top) 0)
    _ _ _ rfl rfl rfl hks
  have hcks2 : c'.ks = c.ks := hcks
  have hDt2 : c'.D c.ks = 1 := hDt
  have hrt2 : c'.rhs c.ks = E_top := hrt
  rw [hRk 0 (le_refl _) (by omega), hRk 1 (by norm_num) hks] at hD0 hU0
  rw [hup 0 (le_refl _) (by omega)] at hr0
  have hr0' : c'.rhs 0 = E_top := by
    rw [hr0]
    have hE2 : (setBoundaryValuesThisColumn (initThisColumn c ismarginal Msk lambda)
        E_top).Enth 0 = E_top := hE 0 (le_refl _) (by omega)
    have hS2 : (setBoundaryValuesThisColumn (initThisColumn c ismarginal Msk lambda)
        E_top).Sigma 0 = 0 := hS 0 (le_refl _) (by omega)
    rw [hE2, hS2]
    simp
  have hLt2 : c'.L c.ks = 0 := hLt
  have hR3 : ∀ k : Int, 0 ≤ k → k ≤ c.ks →
      (setBasalHeatFlux m (setBoundaryValuesThisColumn
        (initThisColumn c ismarginal Msk lambda) E_top) 0).R k = c.iceRcold := hRk
  have hw3 : ∀ k : Int, 0 ≤ k → k ≤ c.ks →
      (setBasalHeatFlux m (setBoundaryValuesThisColumn
        (initThisColumn c ismarginal Msk lambda) E_top) 0).w k = 0 := hw
  have hE3 : ∀ k : Int, 0 ≤ k → k ≤ c.ks →
      (setBasalHeatFlux m (setBoundaryValuesThisColumn
        (initThisColumn c ismarginal Msk lambda) E_top) 0).Enth k = E_top := hE
  have hS3 : ∀ k : Int, 0 ≤ k → k ≤ c.ks →
      (setBasalHeatFlux m (setBoundaryValuesThisColumn
        (initThisColumn c ismarginal Msk lambda) E_top) 0).Sigma k = 0 := hS
  have hup3 : ∀ k : Int, 0 ≤ k → k ≤ c.ks →
      upwindTerms m (setBasalHeatFlux m (setBoundaryValuesThisColumn
        (initThisColumn c ismarginal Msk lambda) E_top) 0) k = (0, 0) := by
    intro k h0 hk
    exact upwindTerms_zero m _ k (hu k h0 hk) (hv k h0 hk)
  have hint2 : ∀ k : Int, 1 ≤ k → k < c.ks →
      c'.L k = - c.iceRcold ∧ c'.D k = 1 + 2 * c.iceRcold ∧ c'.U k = - c.iceRcold ∧
        c'.rhs k = E_top := by
    intro k hk1 hk2
    obtain ⟨hL, hD, hU, hr⟩ := hint k hk1 hk2
    refine ⟨?_, ?_, ?_, ?_⟩
    · rw [hL]
      unfold interiorL
      dsimp only
      rw [hw3 k (by omega) (by omega), if_pos (le_refl _), hR3 (k - 1) (by omega) (by omega),
        hR3 k (by omega) (by omega)]
      ring
    · rw [hD]
      unfold interiorD
      dsimp only
      rw [hw3 k (by omega) (by omega), if_pos (le_refl _), hR3 (k - 1) (by omega) (by omega),
        hR3 k (by omega) (by omega), hR3 (k + 1) (by omega) (by omega)]
      ring
    · rw [hU]
      unfold interiorU
      dsimp only
      rw [hw3 k (by omega) (by omega), if_pos (le_refl _), hR3 k (by omega) (by omega),
        hR3 (k + 1) (by omega) (by omega)]
      ring
    · rw [hr]
      unfold interiorRhs
      dsimp only
      rw [hup3 k (by omega) (by omega), hE3 k (by omega) (by omega),
        hS3 k (by omega) (by omega)]
      simp
  refine ⟨c', hc', hcks2, ?_⟩
  intro x
  constructor
  · intro hx
    have hy := diffusion_rows_unique c.iceRcold hR c.ks (fun k => x k - E_top)
      (by
        have h := hx 0 (le_refl _) (by omega)
        unfold rowHolds at h
        rw [if_pos rfl, if_neg (by omega), hD0, hU0, hr0',
          show (0 : Int) + 1 = 1 by norm_num] at h
        show (1 + 2 * c.iceRcold) * (x 0 - E_top) - 2 * c.iceRcold * (x 1 - E_top) = 0
        linear_combination h)
      (by
        intro k hk1 hk2
        have h := hx k (by omega) (by omega)
        obtain ⟨hL, hD, hU, hr⟩ := hint2 k hk1 hk2
        unfold rowHolds at h
        rw [if_neg (by omega), if_neg (by omega), hL, hD, hU, hr] at h
        show - c.iceRcold * (x (k - 1) - E_top) + (1 + 2 * c.iceRcold) * (x k - E_top)
          - c.iceRcold * (x (k + 1) - E_top) = 0
        linear_combination h)
      (by
        have h := hx c.ks (by omega) (by omega)
        unfold rowHolds at h
        rw [if_neg (by omega), if_pos hcks2.symm, hLt2, hDt2, hrt2] at h
        show x c.ks - E_top = 0
        linear_combination h)
    intro k h0 hk
    have hz : x k - E_top = 0 := hy k h0 hk
    linarith
  · intro hx k h0 hk
    rw [hcks2] at hk
    unfold rowHolds
    by_cases hk0 : k = 0
    · rw [if_pos hk0, if_neg (by omega), hk0, hD0, hU0, hr0',
        hx 0 (le_refl _) (by omega), hx (0 + 1) (by norm_num) (by omega)]
      ring
    · by_cases hkt : k = c.ks
      · rw [if_neg hk0, if_pos (by omega), hkt, hLt2, hDt2, hrt2,
          hx c.ks (by omega) (le_refl _)]
        ring
      · obtain ⟨hL, hD, hU, hr⟩ := hint2 k (by omega) (by omega)
        rw [if_neg hk0, if_neg (by omega), hL, hD, hU, hr, hx k h0 hk,
          hx (k - 1) (by omega) (by omega), hx (k + 1) (by omega) (by omega)]
        ring

/-- Instance of C10: the cold column `exCtxSteady` with `ks = 3` and `E_top = 50`. -/
theorem steady_state_preserved_witness :
    ∃ c' : enthSystemCtx,
      assembleRows exMask (setBasalHeatFlux exMask
        (setBoundaryValuesThisColumn
          (initThisColumn exCtxSteady false { ij := 0, e := 0, w := 0, n := 0, s := 0 } 1) 50) 0)
        = some c' ∧
      c'.ks = exCtxSteady.ks ∧
      ∀ x : Int → ℚ, IsSolution c' x ↔ ∀ k : Int, 0 ≤ k → k ≤ exCtxSteady.ks → x k = 50 :=
  steady_state_preserved exMask exCtxSteady false { ij := 0, e := 0, w := 0, n := 0, s := 0 }
    1 50 (by norm_num [exCtxSteady])
    (by norm_num [exCtxSteady, exCtx, initAllColumns, newEnthSystemCtx, PetscSqr])
    (fun _ _ _ => rfl) (fun _ _ _ => by norm_num [exCtxSteady, exEnthCold])
    (fun _ _ _ => rfl) (fun _ _ _ => rfl) (fun _ _ _ => rfl) (fun _ _ _ => rfl)

/-! ## Diagonal dominance away from the melting enthalpy -/

/-- Every interior row assembled by `solveThisColumn` has coefficients that sum to `1`. -/
theorem interior_row_sum (c : enthSystemCtx) (k : Int) :
    interiorL c k + interiorD c k + interiorU c k = 1 := by
  unfold interiorL interiorD interiorU
  dsimp only
  split_ifs <;> ring

/-- A row whose coefficients sum to `1` with non-positive off-diagonal entries is strictly
diagonally dominant. -/
theorem dominant_of_nonpos (L D U : ℚ) (hsum : L + D + U = 1) (hL : L ≤ 0) (hU : U ≤ 0) :
    |L| + |U| < D := by
  rw [abs_of_nonpos hL, abs_of_nonpos hU]
  linarith

/-- The bound that `lambda` puts on the vertical Courant number of a level. -/
theorem courant_bound (rc dz dt ik w lam nu Rcold : ℚ) (hrc : 0 < rc) (hdz : 0 < dz)
    (hdt : 0 < dt) (hl0 : 0 ≤ lam) (hRc : Rcold = ik * dt / (rc * dz ^ 2))
    (hnu : nu = dt / dz) (hb : lam ≤ 2 * ik / ((|w| + epsVel) * rc * dz)) :
    nu * |w| * lam ≤ 2 * Rcold := by
  have hden : 0 < (|w| + epsVel) * rc * dz :=
    mul_pos (mul_pos (add_pos_of_nonneg_of_pos (abs_nonneg _) epsVel_pos) hrc) hdz
  have h1 : lam * ((|w| + epsVel) * rc * dz) ≤ 2 * ik := (le_div_iff₀ hden).mp hb
  have h2 : lam * |w| * (rc * dz) ≤ 2 * ik := by
    have := mul_nonneg (mul_nonneg hl0 epsVel_pos.le) (mul_pos hrc hdz).le
    nlinarith
  have hpos : 0 ≤ dt / (rc * dz ^ 2) := by positivity
  have e1 : nu * |w| * lam = (lam * |w| * (rc * dz)) * (dt / (rc * dz ^ 2)) := by
    rw [hnu]
    field_simp
    ring
  have e2 : 2 * Rcold = (2 * ik) * (dt / (rc * dz ^ 2)) := by
    rw [hRc]
    ring
  rw [e1, e2]
  exact mul_le_mul_of_nonneg_right h2 hpos

/-- Away from the melting enthalpy the blend factor makes every interior row strictly
diagonally dominant: with consistent constants, `lambda` and `Enth_s` from
`getEnthalpyCTSColumn`, `R` from `assemble_R` on the same column, and no level `0..ks`
exactly at its melting enthalpy, `|L[k]| + |U[k]| < D[k]` for `1 ≤ k < ks`. -/
theorem interior_row_dominant_off_melting (EC : EnthalpyConverter) (grid : IceGrid)
    (ice : IceFlowLaw) (p_air thk dt : ℚ) (Enth_s0 : Int → ℚ) (c : enthSystemCtx)
    (hk : 0 < ice.k) (hrc : 0 < ice.rho * ice.c_p) (hdz : 0 < grid.dz_fine) (hdt : 0 < dt)
    (hRc : c.iceRcold = ice.k * dt / (ice.rho * ice.c_p * grid.dz_fine ^ 2))
    (hRt : 0 ≤ c.iceRtemp) (hnu : c.nuEQ = dt / grid.dz_fine)
    (hlam : c.lambda
      = (getEnthalpyCTSColumn EC grid ice p_air thk c.ks c.Enth c.w Enth_s0).lambda)
    (hEs : c.Enth_s
      = (getEnthalpyCTSColumn EC grid ice p_air thk c.ks c.Enth c.w Enth_s0).Enth_s)
    (hne : ∀ j : Int, 0 ≤ j → j ≤ c.ks → c.Enth j ≠ c.Enth_s j)
    (k : Int) (hk1 : 1 ≤ k) (hk2 : k < c.ks) :
    |interiorL (assemble_R c) k| + |interiorU (assemble_R c) k| < interiorD (assemble_R c) k := by
  have hRcpos : 0 < c.iceRcold := by
    rw [hRc]
    positivity
  have hnupos : 0 < c.nuEQ := by
    rw [hnu]
    positivity
  have hEsj : ∀ j : Int, 0 ≤ j → j ≤ c.ks → c.Enth_s j = enthCTS EC grid thk j := by
    intro j h0 hj
    rw [hEs]
    exact getEnthalpyCTSColumn_Enth_s _ _ _ _ _ _ _ _ _ _ h0 hj
  have hlam2 : c.lambda = (forLoop 0 (ctsIceBody EC grid ice thk c.Enth c.w) (c.ks + 1).toNat
      { lambda := 1, Enth_s := Enth_s0 }).lambda := by
    rw [hlam, getEnthalpyCTSColumn_lambda]
  obtain ⟨hl0, hl1⟩ : 0 ≤ c.lambda ∧ c.lambda ≤ 1 := by
    rw [hlam2]
    exact ctsIce_lambda_range EC grid ice thk c.Enth c.w hk hrc hdz _ _ zero_le_one (le_refl _)
  have hRj : ∀ j : Int, 0 ≤ j → j ≤ c.ks →
      (assemble_R c).R j = if c.Enth j < c.Enth_s j then c.iceRcold else c.iceRtemp :=
    fun j h0 hj => assemble_R_at c j h0 hj
  have hRnn : ∀ j : Int, 0 ≤ j → j ≤ c.ks → 0 ≤ (assemble_R c).R j := by
    intro j h0 hj
    rw [hRj j h0 hj]
    split_ifs
    · exact hRcpos.le
    · exact hRt
  have hkey : c.lambda = 0 ∨
      ((∀ j : Int, 0 ≤ j → j ≤ c.ks → (assemble_R c).R j = c.iceRcold) ∧
        c.nuEQ * |c.w k| * c.lambda ≤ 2 * c.iceRcold) := by
    by_cases hex : ∃ j : Int, 0 ≤ j ∧ j ≤ c.ks ∧ c.Enth j > c.Enth_s j
    · obtain ⟨j, h0, hj, ht⟩ := hex
      left
      rw [hlam2]
      rw [hEsj j h0 hj] at ht
      exact ctsIce_lambda_zero EC grid ice thk c.Enth c.w hk hrc hdz _ _ j h0 (by omega) ht
    · right
      have hcoldj : ∀ j : Int, 0 ≤ j → j ≤ c.ks → c.Enth j < c.Enth_s j := by
        intro j h0 hj
        rcases lt_trichotomy (c.Enth j) (c.Enth_s j) with h | h | h
        · exact h
        · exact absurd h (hne j h0 hj)
        · exact absurd ⟨j, h0, hj, h⟩ hex
      refine ⟨fun j h0 hj => by rw [hRj j h0 hj, if_pos (hcoldj j h0 hj)], ?_⟩
      have hno : ∀ j : Int, 0 ≤ j → j < ((c.ks + 1).toNat : Int) →
          ¬ c.Enth j > enthCTS EC grid thk j := by
        intro j h0 hj
        have hj2 : j ≤ c.ks := by omega
        rw [← hEsj j h0 hj2]
        exact not_lt.mpr (hcoldj j h0 hj2).le
      have hb := (ctsIce_lambda_least EC grid ice thk c.Enth c.w (c.ks + 1).toNat
        { lambda := 1, Enth_s := Enth_s0 } hno).2.1 k (by omega) (by omega)
      rw [← hlam2] at hb
      exact courant_bound (ice.rho * ice.c_p) grid.dz_fine dt ice.k (c.w k) c.lambda c.nuEQ
        c.iceRcold hrc hdz hdt hl0 hRc hnu hb
  have hw : (assemble_R c).w k = c.w k := rfl
  have hl : (assemble_R c).lambda = c.lambda := rfl
  have hn : (assemble_R c).nuEQ = c.nuEQ := rfl
  have hRa := hRnn (k - 1) (by omega) (by omega)
  have hRb := hRnn k (by omega) (by omega)
  have hRd := hRnn (k + 1) (by omega) (by omega)
  have h05 : (0.5 : ℚ) = 1 / 2 := by norm_num
  apply dominant_of_nonpos _ _ _ (interior_row_sum _ k)
  · unfold interiorL
    dsimp only
    rw [hw, hl, hn, h05]
    split_ifs with hwpos
    · have := mul_nonneg (mul_nonneg hnupos.le hwpos) (by linarith : (0 : ℚ) ≤ 1 - c.lambda / 2)
      linarith
    · rcases hkey with h0 | ⟨hall, hc⟩
      · rw [h0]
        linarith
      · rw [hall (k - 1) (by omega) (by omega), hall k (by omega) (by omega)]
        rw [abs_of_neg (not_le.mp hwpos)] at hc
        linarith
  · unfold interiorU
    dsimp only
    rw [hw, hl, hn, h05]
    split_ifs with hwpos
    · rcases hkey with h0 | ⟨hall, hc⟩
      · rw [h0]
        linarith
      · rw [hall k (by omega) (by omega), hall (k + 1) (by omega) (by omega)]
        rw [abs_of_nonneg hwpos] at hc
        linarith
    · have hwneg : c.w k < 0 := not_le.mp hwpos
      have := mul_nonneg (mul_nonneg hnupos.le (neg_nonneg.mpr hwneg.le))
        (by linarith : (0 : ℚ) ≤ 1 - c.lambda / 2)
      linarith

/-- Instance of `interior_row_dominant_off_melting`: row `1` of the cold column
`exCtxColdW`. -/
theorem interior_row_dominant_off_melting_witness :
    |interiorL (assemble_R exCtxColdW) 1| + |interiorU (assemble_R exCtxColdW) 1|
      < interiorD (assemble_R exCtxColdW) 1 :=
  interior_row_dominant_off_melting exEC exGrid exIce 0 3 4 (fun _ => 0) exCtxColdW
    (by norm_num [exIce]) (by norm_num [exIce]) (by norm_num [exGrid]) (by norm_num)
    (by norm_num [exCtxColdW, exCtx, initAllColumns, newEnthSystemCtx, PetscSqr, exIce, exGrid])
    (by norm_num [exCtxColdW, exCtx, initAllColumns, newEnthSystemCtx, PetscSqr])
    (by norm_num [exCtxColdW, exCtx, initAllColumns, newEnthSystemCtx, exGrid])
    rfl rfl
    (by
      intro j h0 hj
      have hj3 : j ≤ 3 := hj
      have h : exCtxColdW.Enth_s j = enthCTS exEC exGrid 3 j :=
        getEnthalpyCTSColumn_Enth_s exEC exGrid exIce 0 3 3 exEnthCold exW3 (fun _ => 0) j h0
          hj3
      rw [h]
      norm_num [exCtxColdW, exEnthCold, enthCTS, exEC])
    1 (le_refl _) (by norm_num [exCtxColdW])

/-! ## Claims on the interior rows and on `assemble_R` -/

theorem exCtxSteadyRows_R (k : Int) (h0 : 0 ≤ k) (hk : k ≤ 3) : exCtxSteadyRows.R k = 4 := by
  have h := assemble_R_at
    { exCtxSteady with
      ismarginal := false
      lambda := 1 / 2
      Msk := { ij := 0, e := 0, w := 0, n := 0, s := 0 } } k h0 hk
  refine h.trans ?_
  norm_num [exCtxSteady, exEnthCold, exCtx, initAllColumns, newEnthSystemCtx, PetscSqr]

/-- C11: for an interior level `k` (`1 ≤ k < ks`) with `w[k] = 0` and
`R[k-1] = R[k] = R[k+1] = R`, `solveThisColumn` assembles `L[k] = -R`, `D[k] = 1 + 2R`,
`U[k] = -R`, for every `lambda`: row `k` is the row
`-R*x[k-1] + (1+2R)*x[k] - R*x[k+1] = rhs[k]` of the implicit diffusion scheme. -/
theorem solveThisColumn_classical_stencil (m : Mask) (c : enthSystemCtx) (a0 a1 b R : ℚ)
    (h0 : c.a0 = some a0) (h1 : c.a1 = some a1) (hb : c.b = some b)
    (k : Int) (hk1 : 1 ≤ k) (hk2 : k < c.ks) (hw : c.w k = 0)
    (hRa : c.R (k - 1) = R) (hRb : c.R k = R) (hRc : c.R (k + 1) = R) :
    ∃ c' : enthSystemCtx, assembleRows m c = some c' ∧
      c'.L k = - R ∧ c'.D k = 1 + 2 * R ∧ c'.U k = - R ∧
      ∀ x : Int → ℚ, rowHolds c' x k ↔
        - R * x (k - 1) + (1 + 2 * R) * x k - R * x (k + 1) = c'.rhs k := by
  obtain ⟨c', hc', hcks, -, -, -, hint, -⟩ :=
    assembleRows_rows m c a0 a1 b h0 h1 hb (by omega)
  obtain ⟨hL, hD, hU, -⟩ := hint k hk1 hk2
  have hL2 : c'.L k = - R := by
    rw [hL]
    unfold interiorL
    dsimp only
    rw [hw, if_pos (le_refl _), hRa, hRb]
    ring
  have hD2 : c'.D k = 1 + 2 * R := by
    rw [hD]
    unfold interiorD
    dsimp only
    rw [hw, if_pos (le_refl _), hRa, hRb, hRc]
    ring
  have hU2 : c'.U k = - R := by
    rw [hU]
    unfold interiorU
    dsimp only
    rw [hw, if_pos (le_refl _), hRb, hRc]
    ring
  refine ⟨c', hc', hL2, hD2, hU2, ?_⟩
  intro x
  unfold rowHolds
  rw [if_neg (by omega), if_neg (by omega), hL2, hD2, hU2]
  constructor <;> intro h <;> linear_combination h

/-- Instance of C11: row `1` of the cold column `exCtxSteadyRows` (`ks = 3`, `R = 4`,
`lambda = 1/2`). -/
theorem solveThisColumn_classical_stencil_witness :
    ∃ c' : enthSystemCtx, assembleRows exMask exCtxSteadyRows = some c' ∧
      c'.L 1 = - 4 ∧ c'.D 1 = 1 + 2 * 4 ∧ c'.U 1 = - 4 ∧
      ∀ x : Int → ℚ, rowHolds c' x 1 ↔
        - 4 * x (1 - 1) + (1 + 2 * 4) * x 1 - 4 * x (1 + 1) = c'.rhs 1 :=
  solveThisColumn_classical_stencil exMask exCtxSteadyRows 1 0 50 4 rfl rfl rfl 1 (le_refl _)
    (by show (1 : Int) < 3; norm_num) rfl
    (exCtxSteadyRows_R _ (by norm_num) (by norm_num))
    (exCtxSteadyRows_R _ (by norm_num) (by norm_num))
    (exCtxSteadyRows_R _ (by norm_num) (by norm_num))

/-- C12: for an interior level `k`, with `AA = nuEQ*w[k]`, the advective contribution that
`solveThisColumn` adds to the diffusion part `(-Rminus, 1+Rminus+Rplus, -Rplus)` of
`(L[k], D[k], U[k])` is `(1-lambda)*upwind + lambda*centered`; at `lambda = 0` it is the
upwind stencil, at `lambda = 1` the centered stencil `(-AA/2, 0, AA/2)` in both sign
branches. -/
theorem solveThisColumn_convex_blend (m : Mask) (c : enthSystemCtx) (a0 a1 b : ℚ)
    (h0 : c.a0 = some a0) (h1 : c.a1 = some a1) (hb : c.b = some b)
    (k : Int) (hk1 : 1 ≤ k) (hk2 : k < c.ks) :
    ∃ c' : enthSystemCtx, assembleRows m c = some c' ∧
      (c'.L k - (- (0.5 * (c.R (k - 1) + c.R k))),
        c'.D k - (1 + 0.5 * (c.R (k - 1) + c.R k) + 0.5 * (c.R k + c.R (k + 1))),
        c'.U k - (- (0.5 * (c.R k + c.R (k + 1)))))
        = ((1 - c.lambda) * (upwindStencil (c.nuEQ * c.w k) (c.w k)).1
              + c.lambda * (centeredStencil (c.nuEQ * c.w k)).1,
           (1 - c.lambda) * (upwindStencil (c.nuEQ * c.w k) (c.w k)).2.1
              + c.lambda * (centeredStencil (c.nuEQ * c.w k)).2.1,
           (1 - c.lambda) * (upwindStencil (c.nuEQ * c.w k) (c.w k)).2.2
              + c.lambda * (centeredStencil (c.nuEQ * c.w k)).2.2) ∧
      (c.lambda = 0 →
        (c'.L k - (- (0.5 * (c.R (k - 1) + c.R k))),
          c'.D k - (1 + 0.5 * (c.R (k - 1) + c.R k) + 0.5 * (c.R k + c.R (k + 1))),
          c'.U k - (- (0.5 * (c.R k + c.R (k + 1)))))
          = upwindStencil (c.nuEQ * c.w k) (c.w k)) ∧
      (c.lambda = 1 →
        (c'.L k - (- (0.5 * (c.R (k - 1) + c.R k))),
          c'.D k - (1 + 0.5 * (c.R (k - 1) + c.R k) + 0.5 * (c.R k + c.R (k + 1))),
          c'.U k - (- (0.5 * (c.R k + c.R (k + 1)))))
          = centeredStencil (c.nuEQ * c.w k)) := by
  obtain ⟨c', hc', hcks, -, -, -, hint, -⟩ :=
    assembleRows_rows m c a0 a1 b h0 h1 hb (by omega)
  obtain ⟨hL, hD, hU, -⟩ := hint k hk1 hk2
  refine ⟨c', hc', ?_, ?_, ?_⟩
  · rw [hL, hD, hU]
    unfold interiorL interiorD interiorU upwindStencil centeredStencil
    dsimp only
    by_cases hw : c.w k ≥ 0
    · simp only [if_pos hw, Prod.mk.injEq]
      refine ⟨?_, ?_, ?_⟩ <;> ring
    · simp only [if_neg hw, Prod.mk.injEq]
      refine ⟨?_, ?_, ?_⟩ <;> ring
  · intro hl
    rw [hL, hD, hU]
    unfold interiorL interiorD interiorU upwindStencil
    dsimp only
    rw [hl]
    by_cases hw : c.w k ≥ 0
    · simp only [if_pos hw, Prod.mk.injEq]
      refine ⟨?_, ?_, ?_⟩ <;> ring
    · simp only [if_neg hw, Prod.mk.injEq]
      refine ⟨?_, ?_, ?_⟩ <;> ring
  · intro hl
    rw [hL, hD, hU]
    unfold interiorL interiorD interiorU centeredStencil
    dsimp only
    rw [hl]
    by_cases hw : c.w k ≥ 0
    · simp only [if_pos hw, Prod.mk.injEq]
      refine ⟨?_, ?_, ?_⟩ <;> ring
    · simp only [if_neg hw, Prod.mk.injEq]
      refine ⟨?_, ?_, ?_⟩ <;> ring

/-- C13: for every level `k` with `0 ≤ k ≤ ks`, `assemble_R` sets `R[k] = iceRcold` if
`Enth[k] < Enth_s[k]` and `R[k] = iceRtemp` otherwise; so `R[k]` is one of the two fixed
values, and a level exactly at the melting enthalpy receives `iceRtemp`. -/
theorem assemble_R_classifies (c : enthSystemCtx) (k : Int) (h0 : 0 ≤ k) (hk : k ≤ c.ks) :
    (c.Enth k < c.Enth_s k → (assemble_R c).R k = c.iceRcold) ∧
    (¬ c.Enth k < c.Enth_s k → (assemble_R c).R k = c.iceRtemp) ∧
    ((assemble_R c).R k = c.iceRcold ∨ (assemble_R c).R k = c.iceRtemp) ∧
    (c.Enth k = c.Enth_s k → (assemble_R c).R k = c.iceRtemp) := by
  have h := assemble_R_at c k h0 hk
  refine ⟨?_, ?_, ?_, ?_⟩
  · intro hc
    rw [h, if_pos hc]
  · intro hc
    rw [h, if_neg hc]
  · rw [h]
    split_ifs
    · exact Or.inl rfl
    · exact Or.inr rfl
  · intro he
    rw [h, if_neg (by rw [he]; exact lt_irrefl _)]

/-- Instance of C12: row `1` of the column `exCtxBaseRows` (`w[1] = -15/8`, `lambda = 1`). -/
theorem solveThisColumn_convex_blend_witness :
    ∃ c' : enthSystemCtx, assembleRows exMask exCtxBaseRows = some c' ∧
      (c'.L 1 - (- (0.5 * (exCtxBaseRows.R (1 - 1) + exCtxBaseRows.R 1))),
        c'.D 1 - (1 + 0.5 * (exCtxBaseRows.R (1 - 1) + exCtxBaseRows.R 1)
          + 0.5 * (exCtxBaseRows.R 1 + exCtxBaseRows.R (1 + 1))),
        c'.U 1 - (- (0.5 * (exCtxBaseRows.R 1 + exCtxBaseRows.R (1 + 1)))))
        = ((1 - exCtxBaseRows.lambda)
              * (upwindStencil (exCtxBaseRows.nuEQ * exCtxBaseRows.w 1) (exCtxBaseRows.w 1)).1
              + exCtxBaseRows.lambda
                * (centeredStencil (exCtxBaseRows.nuEQ * exCtxBaseRows.w 1)).1,
           (1 - exCtxBaseRows.lambda)
              * (upwindStencil (exCtxBaseRows.nuEQ * exCtxBaseRows.w 1) (exCtxBaseRows.w 1)).2.1
              + exCtxBaseRows.lambda
                * (centeredStencil (exCtxBaseRows.nuEQ * exCtxBaseRows.w 1)).2.1,
           (1 - exCtxBaseRows.lambda)
              * (upwindStencil (exCtxBaseRows.nuEQ * exCtxBaseRows.w 1) (exCtxBaseRows.w 1)).2.2
              + exCtxBaseRows.lambda
                * (centeredStencil (exCtxBaseRows.nuEQ * exCtxBaseRows.w 1)).2.2) :=
  (solveThisColumn_convex_blend exMask exCtxBaseRows 1 0 100 rfl rfl rfl 1 (le_refl _)
    (by show (1 : Int) < 2; norm_num)).imp (fun _ h => ⟨h.1, h.2.1⟩)

/-- Instance of C13: level `0` of the cold column `exCtxSteady`. -/
theorem assemble_R_classifies_witness :
    (assemble_R exCtxSteady).R 0 = exCtxSteady.iceRcold :=
  (assemble_R_classifies exCtxSteady 0 (le_refl _) (by show (0 : Int) ≤ 3; norm_num)).1
    (by norm_num [exCtxSteady, exEnthCold])

/-! ## Claims on the horizontal advection terms -/

/-- The margin-aware rule yields zero terms where the upwind neighbours are ice-free. -/
theorem upwindTerms_marginal_ice_free (m : Mask) (c : enthSystemCtx) (k : Int)
    (hm : c.ismarginal = true) (hfree : upwindIceFree m c k) : upwindTerms m c k = (0, 0) := by
  obtain ⟨hue, huw, hvn, hvs⟩ := hfree
  unfold upwindTerms getMarginalEnth
  dsimp only
  rw [if_neg (by rw [hm]; simp)]
  have h1 : ¬ (c.u k < 0 ∧ ¬ m.ice_free c.Msk.e = true) := fun h => h.2 (hue h.1)
  have h2 : ¬ (c.u k > 0 ∧ ¬ m.ice_free c.Msk.w = true) := fun h => h.2 (huw h.1)
  have h3 : ¬ (c.v k < 0 ∧ ¬ m.ice_free c.Msk.n = true) := fun h => h.2 (hvn h.1)
  have h4 : ¬ (c.v k > 0 ∧ ¬ m.ice_free c.Msk.s = true) := fun h => h.2 (hvs h.1)
  rw [if_neg h1, if_neg h2, if_neg h3, if_neg h4]

theorem exCtxMarg_upwind (k : Int) : upwindTerms exMask exCtxMarg k = (-10, 0) := by
  unfold upwindTerms getMarginalEnth
  norm_num [exCtxMarg, setDirichletBasal, initThisColumn, assemble_R, exMask, exEnth3Grad,
    exCtx, initAllColumns, newEnthSystemCtx]

/-- C14, evaluated at a failing input: the column `exCtxMarg` is flagged marginal, none of
its neighbours is ice-free and `u[1] = -1`.  The driver announces that a marginal column
ignores advection, but `solveThisColumn` calls `getMarginalEnth`, which gives
`UpEnthu = -10` at level `1`: the assembled `rhs[1]` is `90`, not
`Enth[1] + dt*Sigma[1]/rho = 50`. -/
theorem marginal_column_advects :
    exCtxMarg.ismarginal = true ∧ (upwindTerms exMask exCtxMarg 1).1 = -10 ∧
      ∃ c' : enthSystemCtx, assembleRows exMask exCtxMarg = some c' ∧ c'.rhs 1 = 90 ∧
        c'.rhs 1 ≠ exCtxMarg.Enth 1 + exCtxMarg.dtTemp * exCtxMarg.Sigma 1 / exCtxMarg.ice_rho := by
  obtain ⟨c', hc', -, -, -, -, hint, -⟩ := assembleRows_rows exMask exCtxMarg 1 0 50
    rfl rfl rfl (by show (1 : Int) ≤ 3; norm_num)
  obtain ⟨-, -, -, hr⟩ := hint 1 (le_refl _) (by show (1 : Int) < 3; norm_num)
  have hr2 : c'.rhs 1 = 90 := by
    rw [hr]
    unfold interiorRhs
    dsimp only
    rw [exCtxMarg_upwind]
    norm_num [exCtxMarg, setDirichletBasal, initThisColumn, assemble_R, exEnthCold, exCtx,
      initAllColumns, newEnthSystemCtx]
  refine ⟨rfl, by rw [exCtxMarg_upwind], c', hc', hr2, ?_⟩
  rw [hr2]
  norm_num [exCtxMarg, setDirichletBasal, initThisColumn, assemble_R, exEnthCold, exCtx,
    initAllColumns, newEnthSystemCtx]

/-- Where the code does drop the horizontal terms of a column flagged marginal: at every
level whose upwind neighbours are ice-free (east if `u[k] < 0`, west if `u[k] > 0`, north if
`v[k] < 0`, south if `v[k] > 0`; in particular when all four neighbours are ice-free)
`UpEnthu` and `UpEnthv` are `0`, whatever `u[k]`, `v[k]` and the neighbour enthalpies: an
interior row has `rhs[k] = Enth[k] + dt*Sigma[k]/rho`, and the Neumann basal row set by
`setBasalHeatFlux` has `UpEnthu = UpEnthv = 0` and
`b = Enth[0] + R[0]*X + dt*Sigma[0]/rho`, `X = -2*dz*(-hf/K)`. -/
theorem marginal_ice_free_no_advection (m : Mask) (c : enthSystemCtx)
    (hm : c.ismarginal = true) :
    (∀ k : Int, upwindIceFree m c k → upwindTerms m c k = (0, 0)) ∧
    (∀ (k : Int) (a0 a1 b : ℚ), c.a0 = some a0 → c.a1 = some a1 → c.b = some b →
      1 ≤ k → k < c.ks → upwindIceFree m c k →
      ∃ c' : enthSystemCtx, assembleRows m c = some c' ∧
        c'.rhs k = c.Enth k + c.dtTemp * c.Sigma k / c.ice_rho) ∧
    (upwindIceFree m c 0 → ∀ hf : ℚ,
      (setBasalHeatFlux m c hf).UpEnthu = 0 ∧ (setBasalHeatFlux m c hf).UpEnthv = 0 ∧
      (setBasalHeatFlux m c hf).b = some (c.Enth 0
        + c.R 0 * (- 2 * c.dzEQ * (- hf / ((c.ice_rho * PetscSqr c.dzEQ * c.R 0) / c.dtTemp)))
        + c.dtTemp * c.Sigma 0 / c.ice_rho)) := by
  refine ⟨fun k hfree => upwindTerms_marginal_ice_free m c k hm hfree, ?_, ?_⟩
  · intro k a0 a1 b h0 h1 hb hk1 hk2 hfree
    obtain ⟨c', hc', -, -, -, -, hint, -⟩ :=
      assembleRows_rows m c a0 a1 b h0 h1 hb (by omega)
    obtain ⟨-, -, -, hr⟩ := hint k hk1 hk2
    refine ⟨c', hc', ?_⟩
    rw [hr]
    unfold interiorRhs
    dsimp only
    rw [upwindTerms_marginal_ice_free m c k hm hfree]
    ring
  · intro hfree hf
    have hup := upwindTerms_marginal_ice_free m c 0 hm hfree
    unfold setBasalHeatFlux neumannRow
    dsimp only
    rw [hup]
    refine ⟨rfl, rfl, ?_⟩
    congr 1
    ring

/-- The marginal column `exCtxMarg` under the mask `exMaskFree`, for which every neighbour
is ice-free: no horizontal term enters `rhs[1]`. -/
theorem marginal_ice_free_no_advection_witness :
    upwindTerms exMaskFree exCtxMarg 1 = (0, 0) ∧
    ∃ c' : enthSystemCtx, assembleRows exMaskFree exCtxMarg = some c' ∧
      c'.rhs 1 = exCtxMarg.Enth 1 + exCtxMarg.dtTemp * exCtxMarg.Sigma 1 / exCtxMarg.ice_rho :=
  ⟨(marginal_ice_free_no_advection exMaskFree exCtxMarg rfl).1 1
      ⟨fun _ => rfl, fun _ => rfl, fun _ => rfl, fun _ => rfl⟩,
    (marginal_ice_free_no_advection exMaskFree exCtxMarg rfl).2.1 1 1 0 50 rfl rfl rfl
      (le_refl _) (by show (1 : Int) < 3; norm_num)
      ⟨fun _ => rfl, fun _ => rfl, fun _ => rfl, fun _ => rfl⟩⟩

/-- With no ice-free neighbour the margin-aware rule is the plain upwind rule in `x`, and
the plain upwind rule with the spacing `dx` in `y`. -/
theorem getMarginalEnth_no_ice_free (m : Mask) (dx : ℚ) (ss : planeStar ℚ) (u0 v0 : ℚ)
    (M : planeStar Int) (he : m.ice_free M.e = false) (hw : m.ice_free M.w = false)
    (hn : m.ice_free M.n = false) (hs : m.ice_free M.s = false) :
    (getMarginalEnth m dx ss u0 v0 M).1
      = (if u0 < 0 then u0 * (ss.e - ss.ij) / dx else u0 * (ss.ij - ss.w) / dx) ∧
    (getMarginalEnth m dx ss u0 v0 M).2
      = (if v0 < 0 then v0 * (ss.n - ss.ij) / dx else v0 * (ss.ij - ss.s) / dx) := by
  unfold getMarginalEnth
  dsimp only
  rw [he, hw, hn, hs]
  constructor
  · by_cases h1 : u0 < 0
    · simp [h1]
    · by_cases h2 : u0 > 0
      · simp [h1, h2]
      · have h0 : u0 = 0 := le_antisymm (not_lt.mp h2) (not_lt.mp h1)
        simp [h0]
  · by_cases h1 : v0 < 0
    · simp [h1]
    · by_cases h2 : v0 > 0
      · simp [h1, h2]
      · have h0 : v0 = 0 := le_antisymm (not_lt.mp h2) (not_lt.mp h1)
        simp [h0]

/-- C15, evaluated at a failing input: on a grid with `dx = 1`, `dy = 2`, with no ice-free
neighbour, `v0 = -1`, `ss.n = 52`, `ss.ij = 50`, `getMarginalEnth` returns
`UpEnthv = v0*(ss.n - ss.ij)/dx = -2`, while the non-marginal formula gives
`v0*(ss.n - ss.ij)/dy = -1`. -/
theorem getMarginalEnth_v_term_uses_dx :
    exMask.ice_free (exCtxDxDy true).Msk.e = false ∧
      exMask.ice_free (exCtxDxDy true).Msk.w = false ∧
      exMask.ice_free (exCtxDxDy true).Msk.n = false ∧
      exMask.ice_free (exCtxDxDy true).Msk.s = false ∧
      (exCtxDxDy true).dx = 1 ∧ (exCtxDxDy true).dy = 2 ∧
      getMarginalEnth exMask (exCtxDxDy true).dx (exEnth3Grad 0 0 0) 0 (-1)
        (exCtxDxDy true).Msk = (0, -2) ∧
      (upwindTerms exMask (exCtxDxDy true) 1).2 = -2 ∧
      (upwindTerms exMask (exCtxDxDy false) 1).2 = -1 := by
  refine ⟨rfl, rfl, rfl, rfl, ?_, rfl, ?_, ?_, ?_⟩
  · norm_num [exCtxDxDy, exCtx, initAllColumns]
  · unfold getMarginalEnth
    norm_num [exCtxDxDy, exCtx, initAllColumns, exMask, exEnth3Grad]
  · unfold upwindTerms getMarginalEnth
    norm_num [exCtxDxDy, exCtx, initAllColumns, newEnthSystemCtx, exMask, exEnth3Grad]
  · unfold upwindTerms
    norm_num [exCtxDxDy, exCtx, initAllColumns, newEnthSystemCtx, exEnth3Grad]

/-! ## Claims on the top row and the air levels -/

theorem fillLoop_at (lo : Int) (v : ℚ) (n : Nat) (y : Int → ℚ) (k : Int) :
    forLoop lo (fun j z => setAt z j v) n y k
      = if lo ≤ k ∧ k < lo + (n : Int) then v else y k := by
  induction n with
  | zero =>
    have : ¬ (lo ≤ k ∧ k < lo + ((0 : Nat) : Int)) := by omega
    rw [if_neg this]
    rfl
  | succ n ih =>
    show setAt (forLoop lo (fun j z => setAt z j v) n y) (lo + (n : Int)) v k = _
    by_cases hk : k = lo + (n : Int)
    · rw [hk, setAt_same, if_pos (by push_cast; omega)]
    · rw [setAt_other _ _ _ _ hk, ih]
      by_cases h : lo ≤ k ∧ k < lo + (n : Int)
      · rw [if_pos h, if_pos (by push_cast; omega)]
      · rw [if_neg h, if_neg (by push_cast; omega)]

/-- C16: for `ks ≤ Mz-1` (and basal coefficients set), `solveThisColumn` assembles
row `ks` as `D[ks] = 1`, `rhs[ks] = Enth_ks`, with `L[ks] = 0` when `ks > 0` and `U[ks] = 0`
when `ks < Mz-1`; and after the call every level `ks < k < Mz` of the output column equals
`Enth_ks`, for every tridiagonal solver, whatever pivot error index it reports. -/
theorem solveThisColumn_top_and_air (m : Mask) (solver : TridiagonalSolver)
    (c : enthSystemCtx) (x : Int → ℚ) (a0 a1 b : ℚ)
    (h0 : c.a0 = some a0) (h1 : c.a1 = some a1) (hb : c.b = some b)
    (hks : c.ks ≤ c.Mz - 1) :
    ∃ (c1 : enthSystemCtx) (x1 : Int → ℚ) (pivoterrorindex : Int),
      solveThisColumn m solver c x = some (c1, x1, pivoterrorindex) ∧
      c1.D c.ks = 1 ∧ c1.rhs c.ks = c.Enth_ks ∧
      (c.ks > 0 → c1.L c.ks = 0) ∧ (c.ks < c.Mz - 1 → c1.U c.ks = 0) ∧
      ∀ k : Int, c.ks < k → k < c.Mz → x1 k = c.Enth_ks := by
  have hsolve : solveThisColumn m solver c x = some
      (topRow (forLoop 1 (interiorRow m) (c.ks - 1).toNat
        { c with D := setAt c.D 0 a0, U := setAt c.U 0 a1, rhs := setAt c.rhs 0 b }),
       forLoop (c.ks + 1) (fun k y => setAt y k c.Enth_ks) (c.Mz - (c.ks + 1)).toNat
        (solver.solve
          (topRow (forLoop 1 (interiorRow m) (c.ks - 1).toNat
            { c with D := setAt c.D 0 a0, U := setAt c.U 0 a1, rhs := setAt c.rhs 0 b })).L
          (topRow (forLoop 1 (interiorRow m) (c.ks - 1).toNat
            { c with D := setAt c.D 0 a0, U := setAt c.U 0 a1, rhs := setAt c.rhs 0 b })).D
          (topRow (forLoop 1 (interiorRow m) (c.ks - 1).toNat
            { c with D := setAt c.D 0 a0, U := setAt c.U 0 a1, rhs := setAt c.rhs 0 b })).U
          (topRow (forLoop 1 (interiorRow m) (c.ks - 1).toNat
            { c with D := setAt c.D 0 a0, U := setAt c.U 0 a1, rhs := setAt c.rhs 0 b })).rhs
          (c.ks + 1) x).2,
       (solver.solve
          (topRow (forLoop 1 (interiorRow m) (c.ks - 1).toNat
            { c with D := setAt c.D 0 a0, U := setAt c.U 0 a1, rhs := setAt c.rhs 0 b })).L
          (topRow (forLoop 1 (interiorRow m) (c.ks - 1).toNat
            { c with D := setAt c.D 0 a0, U := setAt c.U 0 a1, rhs := setAt c.rhs 0 b })).D
          (topRow (forLoop 1 (interiorRow m) (c.ks - 1).toNat
            { c with D := setAt c.D 0 a0, U := setAt c.U 0 a1, rhs := setAt c.rhs 0 b })).U
          (topRow (forLoop 1 (interiorRow m) (c.ks - 1).toNat
            { c with D := setAt c.D 0 a0, U := setAt c.U 0 a1, rhs := setAt c.rhs 0 b })).rhs
          (c.ks + 1) x).1) := by
    unfold solveThisColumn
    rw [assembleRows_eq m c a0 a1 b h0 h1 hb]
    simp only [topRow, interiorLoop_ks, interiorLoop_Mz, interiorLoop_Enth_ks]
  refine ⟨_, _, _, hsolve, ?_, ?_, ?_, ?_, ?_⟩
  · simp only [topRow, interiorLoop_ks, setAt_same]
  · simp only [topRow, interiorLoop_ks, interiorLoop_Enth_ks, setAt_same]
  · intro hpos
    simp only [topRow, interiorLoop_ks]
    rw [if_pos hpos, setAt_same]
  · intro hlt
    simp only [topRow, interiorLoop_ks, interiorLoop_Mz]
    rw [if_pos hlt, setAt_same]
  · intro k hk1 hk2
    rw [fillLoop_at, if_pos ⟨by omega, by rw [Int.toNat_of_nonneg (by omega)]; omega⟩]

/-- Instance of C16: the column `exCtxSteadyRows` (`ks = 3`, `Mz = 5`) with a solver that
reports a pivot error. -/
theorem solveThisColumn_top_and_air_witness :
    ∃ (c1 : enthSystemCtx) (x1 : Int → ℚ) (pivoterrorindex : Int),
      solveThisColumn exMask exSolverFail exCtxSteadyRows (fun _ => 0)
        = some (c1, x1, pivoterrorindex) ∧
      c1.D exCtxSteadyRows.ks = 1 ∧ c1.rhs exCtxSteadyRows.ks = exCtxSteadyRows.Enth_ks ∧
      (exCtxSteadyRows.ks > 0 → c1.L exCtxSteadyRows.ks = 0) ∧
      (exCtxSteadyRows.ks < exCtxSteadyRows.Mz - 1 → c1.U exCtxSteadyRows.ks = 0) ∧
      ∀ k : Int, exCtxSteadyRows.ks < k → k < exCtxSteadyRows.Mz →
        x1 k = exCtxSteadyRows.Enth_ks :=
  solveThisColumn_top_and_air exMask exSolverFail exCtxSteadyRows (fun _ => 0) 1 0 50
    rfl rfl rfl (by show (3 : Int) ≤ 5 - 1; norm_num)

/-! ## Claims on `DrainageCalculator::get_drainage_rate` -/

/-- C17: with `OM2 = 2*OM1`, `OM3 = 3*OM1`, `DR2 = 0.1*DR3` (the constructor) and
`OM1 > 0`, `get_drainage_rate` is the piecewise-linear reference: `0` for `omega ≤ OM1`,
`DR2*(omega-OM1)/(OM2-OM1)` on `(OM1, OM2]`,
`DR2 + (DR3-DR2)*(omega-OM2)/(OM3-OM2)` on `(OM2, OM3]`, and `DR3` for `omega > OM3`; in
particular `D(0) = 0` and `D(OM3) = DR3`. -/
theorem get_drainage_rate_piecewise {K : Type} [LinearOrderedField K] (OM1 DR3 : K)
    (hOM : 0 < OM1) :
    (∀ omega : K,
      (omega ≤ (newDrainageCalculator OM1 DR3).OM1 →
        (newDrainageCalculator OM1 DR3).get_drainage_rate omega = 0) ∧
      ((newDrainageCalculator OM1 DR3).OM1 < omega →
        omega ≤ (newDrainageCalculator OM1 DR3).OM2 →
        (newDrainageCalculator OM1 DR3).get_drainage_rate omega
          = (newDrainageCalculator OM1 DR3).DR2 * (omega - (newDrainageCalculator OM1 DR3).OM1)
            / ((newDrainageCalculator OM1 DR3).OM2 - (newDrainageCalculator OM1 DR3).OM1)) ∧
      ((newDrainageCalculator OM1 DR3).OM2 < omega →
        omega ≤ (newDrainageCalculator OM1 DR3).OM3 →
        (newDrainageCalculator OM1 DR3).get_drainage_rate omega
          = (newDrainageCalculator OM1 DR3).DR2
            + ((newDrainageCalculator OM1 DR3).DR3 - (newDrainageCalculator OM1 DR3).DR2)
              * (omega - (newDrainageCalculator OM1 DR3).OM2)
              / ((newDrainageCalculator OM1 DR3).OM3 - (newDrainageCalculator OM1 DR3).OM2)) ∧
      ((newDrainageCalculator OM1 DR3).OM3 < omega →
        (newDrainageCalculator OM1 DR3).get_drainage_rate omega
          = (newDrainageCalculator OM1 DR3).DR3)) ∧
    (newDrainageCalculator OM1 DR3).get_drainage_rate 0 = 0 ∧
    (newDrainageCalculator OM1 DR3).get_drainage_rate (newDrainageCalculator OM1 DR3).OM3
      = (newDrainageCalculator OM1 DR3).DR3 := by
  have hne : OM1 ≠ 0 := hOM.ne'
  have e21 : 2 * OM1 - OM1 = OM1 := by ring
  have e32 : 3 * OM1 - 2 * OM1 = OM1 := by ring
  refine ⟨fun omega => ⟨?_, ?_, ?_, ?_⟩, ?_, ?_⟩
  · intro h
    simp only [DrainageCalculator.get_drainage_rate, newDrainageCalculator] at h ⊢
    rw [if_neg (not_lt.mpr h)]
  · intro h1 h2
    simp only [DrainageCalculator.get_drainage_rate, newDrainageCalculator] at h1 h2 ⊢
    rw [if_pos h1, if_neg (not_lt.mpr h2), e21]
  · intro h1 h2
    simp only [DrainageCalculator.get_drainage_rate, newDrainageCalculator] at h1 h2 ⊢
    rw [if_pos (by linarith), if_pos h1, if_neg (not_lt.mpr h2), e32]
  · intro h
    simp only [DrainageCalculator.get_drainage_rate, newDrainageCalculator] at h ⊢
    rw [if_pos (by linarith), if_pos (by linarith), if_pos h]
  · simp only [DrainageCalculator.get_drainage_rate, newDrainageCalculator]
    rw [if_neg (not_lt.mpr hOM.le)]
  · simp only [DrainageCalculator.get_drainage_rate, newDrainageCalculator]
    rw [if_pos (by linarith), if_pos (by linarith), if_neg (lt_irrefl _), e32]
    field_simp

/-- Instance of C17: `OM1 = 1/100`, `DR3 = 1/20`, at `omega = 3/200`. -/
theorem get_drainage_rate_piecewise_witness :
    (newDrainageCalculator (1 / 100 : ℚ) (1 / 20)).get_drainage_rate (3 / 200)
      = (newDrainageCalculator (1 / 100 : ℚ) (1 / 20)).DR2
        * (3 / 200 - (newDrainageCalculator (1 / 100 : ℚ) (1 / 20)).OM1)
        / ((newDrainageCalculator (1 / 100 : ℚ) (1 / 20)).OM2
          - (newDrainageCalculator (1 / 100 : ℚ) (1 / 20)).OM1) :=
  ((get_drainage_rate_piecewise (1 / 100 : ℚ) (1 / 20) (by norm_num)).1 (3 / 200)).2.1
    (by norm_num [newDrainageCalculator]) (by norm_num [newDrainageCalculator])

/-- The four regions of `get_drainage_rate` for a calculator built by the constructor. -/
theorem get_drainage_rate_regions {K : Type} [LinearOrderedField K] (OM1 DR3 : K)
    (omega : K) :
    (omega ≤ OM1 ∧ (newDrainageCalculator OM1 DR3).get_drainage_rate omega = 0) ∨
    (OM1 < omega ∧ omega ≤ 2 * OM1 ∧
      (newDrainageCalculator OM1 DR3).get_drainage_rate omega
        = 0.1 * DR3 * (omega - OM1) / OM1) ∨
    (2 * OM1 < omega ∧ omega ≤ 3 * OM1 ∧
      (newDrainageCalculator OM1 DR3).get_drainage_rate omega
        = 0.1 * DR3 + (DR3 - 0.1 * DR3) * (omega - 2 * OM1) / OM1) ∨
    (3 * OM1 < omega ∧ (newDrainageCalculator OM1 DR3).get_drainage_rate omega = DR3) := by
  simp only [DrainageCalculator.get_drainage_rate, newDrainageCalculator]
  by_cases h1 : omega > OM1
  · by_cases h2 : omega > 2 * OM1
    · by_cases h3 : omega > 3 * OM1
      · right; right; right
        rw [if_pos h1, if_pos h2, if_pos h3]
        exact ⟨h3, rfl⟩
      · right; right; left
        rw [if_pos h1, if_pos h2, if_neg h3]
        exact ⟨h2, not_lt.mp h3, rfl⟩
    · right; left
      rw [if_pos h1, if_neg h2]
      exact ⟨h1, not_lt.mp h2, rfl⟩
  · left
    rw [if_neg h1]
    exact ⟨not_lt.mp h1, rfl⟩

/-- Bounds and monotonicity of the two linear pieces of `get_drainage_rate`. -/
theorem drainage_pieces {K : Type} [LinearOrderedField K] (OM1 DR3 : K) (hOM : 0 < OM1)
    (hDR : 0 ≤ DR3) :
    (∀ w : K, OM1 ≤ w → 0 ≤ 0.1 * DR3 * (w - OM1) / OM1) ∧
    (∀ w : K, w ≤ 2 * OM1 → 0.1 * DR3 * (w - OM1) / OM1 ≤ 0.1 * DR3) ∧
    (∀ w : K, 2 * OM1 ≤ w → 0.1 * DR3 ≤ 0.1 * DR3 + (DR3 - 0.1 * DR3) * (w - 2 * OM1) / OM1) ∧
    (∀ w : K, w ≤ 3 * OM1 → 0.1 * DR3 + (DR3 - 0.1 * DR3) * (w - 2 * OM1) / OM1 ≤ DR3) ∧
    (∀ a b : K, a ≤ b → 0.1 * DR3 * (a - OM1) / OM1 ≤ 0.1 * DR3 * (b - OM1) / OM1) ∧
    (∀ a b : K, a ≤ b →
      0.1 * DR3 + (DR3 - 0.1 * DR3) * (a - 2 * OM1) / OM1
        ≤ 0.1 * DR3 + (DR3 - 0.1 * DR3) * (b - 2 * OM1) / OM1) := by
  have h01 : (0.1 : K) = 1 / 10 := by norm_num
  have hDR2 : 0 ≤ 0.1 * DR3 := by rw [h01]; positivity
  have hd : 0 ≤ DR3 - 0.1 * DR3 := by rw [h01]; linarith
  refine ⟨?_, ?_, ?_, ?_, ?_, ?_⟩
  · intro w hw
    exact div_nonneg (mul_nonneg hDR2 (sub_nonneg.mpr hw)) hOM.le
  · intro w hw
    rw [div_le_iff₀ hOM]
    exact mul_le_mul_of_nonneg_left (by linarith) hDR2
  · intro w hw
    have := div_nonneg (mul_nonneg hd (sub_nonneg.mpr hw)) hOM.le
    linarith
  · intro w hw
    have h : (DR3 - 0.1 * DR3) * (w - 2 * OM1) / OM1 ≤ DR3 - 0.1 * DR3 := by
      rw [div_le_iff₀ hOM]
      exact mul_le_mul_of_nonneg_left (by linarith) hd
    linarith
  · intro a b hab
    exact div_le_div_of_nonneg_right (mul_le_mul_of_nonneg_left (by linarith) hDR2) hOM.le
  · intro a b hab
    have := div_le_div_of_nonneg_right
      (mul_le_mul_of_nonneg_left (by linarith : a - 2 * OM1 ≤ b - 2 * OM1) hd) hOM.le
    linarith

/-- C18: for `OM1 > 0` and `DR3 ≥ 0`, `get_drainage_rate` is non-decreasing
(`omega1 ≤ omega2` gives `D(omega1) ≤ D(omega2)`, also across the thresholds), and
`0 ≤ D(omega) ≤ DR3` for every `omega`. -/
theorem get_drainage_rate_monotone {K : Type} [LinearOrderedField K] (OM1 DR3 : K)
    (hOM : 0 < OM1) (hDR : 0 ≤ DR3) :
    (∀ omega1 omega2 : K, omega1 ≤ omega2 →
      (newDrainageCalculator OM1 DR3).get_drainage_rate omega1
        ≤ (newDrainageCalculator OM1 DR3).get_drainage_rate omega2) ∧
    (∀ omega : K, 0 ≤ (newDrainageCalculator OM1 DR3).get_drainage_rate omega ∧
      (newDrainageCalculator OM1 DR3).get_drainage_rate omega
        ≤ (newDrainageCalculator OM1 DR3).DR3) := by
  obtain ⟨f1, f2, f3, f4, m1, m2⟩ := drainage_pieces OM1 DR3 hOM hDR
  have h12 : 0.1 * DR3 ≤ DR3 := by
    have h01 : (0.1 : K) = 1 / 10 := by norm_num
    rw [h01]
    linarith
  have hDR2 : 0 ≤ 0.1 * DR3 := by
    have h01 : (0.1 : K) = 1 / 10 := by norm_num
    rw [h01]
    positivity
  constructor
  · intro a b hab
    rcases get_drainage_rate_regions OM1 DR3 a with
      ⟨ha, ea⟩ | ⟨ha1, ha2, ea⟩ | ⟨ha1, ha2, ea⟩ | ⟨ha, ea⟩
    · rw [ea]
      rcases get_drainage_rate_regions OM1 DR3 b with
        ⟨hb, eb⟩ | ⟨hb1, hb2, eb⟩ | ⟨hb1, hb2, eb⟩ | ⟨hb, eb⟩
      · rw [eb]
      · rw [eb]
        exact f1 b hb1.le
      · rw [eb]
        exact le_trans hDR2 (f3 b hb1.le)
      · rw [eb]
        exact hDR
    · rw [ea]
      rcases get_drainage_rate_regions OM1 DR3 b with
        ⟨hb, eb⟩ | ⟨hb1, hb2, eb⟩ | ⟨hb1, hb2, eb⟩ | ⟨hb, eb⟩
      · exfalso; linarith
      · rw [eb]
        exact m1 a b hab
      · rw [eb]
        exact le_trans (f2 a ha2) (f3 b hb1.le)
      · rw [eb]
        exact le_trans (f2 a ha2) h12
    · rw [ea]
      rcases get_drainage_rate_regions OM1 DR3 b with
        ⟨hb, eb⟩ | ⟨hb1, hb2, eb⟩ | ⟨hb1, hb2, eb⟩ | ⟨hb, eb⟩
      · exfalso; linarith
      · exfalso; linarith
      · rw [eb]
        exact m2 a b hab
      · rw [eb]
        exact f4 a ha2
    · rw [ea]
      rcases get_drainage_rate_regions OM1 DR3 b with
        ⟨hb, eb⟩ | ⟨hb1, hb2, eb⟩ | ⟨hb1, hb2, eb⟩ | ⟨hb, eb⟩
      · exfalso; linarith
      · exfalso; linarith
      · exfalso; linarith
      · rw [eb]
  · intro w
    show _ ∧ _ ≤ DR3
    rcases get_drainage_rate_regions OM1 DR3 w with
      ⟨hw, ew⟩ | ⟨hw1, hw2, ew⟩ | ⟨hw1, hw2, ew⟩ | ⟨hw, ew⟩
    · rw [ew]
      exact ⟨le_refl _, hDR⟩
    · rw [ew]
      exact ⟨f1 w hw1.le, le_trans (f2 w hw2) h12⟩
    · rw [ew]
      exact ⟨le_trans hDR2 (f3 w hw1.le), f4 w hw2⟩
    · rw [ew]
      exact ⟨hDR, le_refl _⟩

/-- Instance of C18: `OM1 = 1/100`, `DR3 = 1/20`, for the pair `3/200 ≤ 1/40` that
straddles the threshold `OM2`. -/
theorem get_drainage_rate_monotone_witness :
    (newDrainageCalculator (1 / 100 : ℚ) (1 / 20)).get_drainage_rate (3 / 200)
      ≤ (newDrainageCalculator (1 / 100 : ℚ) (1 / 20)).get_drainage_rate (1 / 40) :=
  (get_drainage_rate_monotone (1 / 100 : ℚ) (1 / 20) (by norm_num) (by norm_num)).1
    (3 / 200) (1 / 40) (by norm_num)

/-- C19: for `OM1 > 0`, `get_drainage_rate` is a continuous function of `omega` on the
real line; and at each threshold the two adjacent branch formulas agree: both give `0` at
`OM1`, `DR2` at `OM2` and `DR3` at `OM3`. -/
theorem get_drainage_rate_continuous (OM1 DR3 : ℝ) (hOM : 0 < OM1) :
    Continuous (fun omega : ℝ => (newDrainageCalculator OM1 DR3).get_drainage_rate omega) ∧
    (newDrainageCalculator OM1 DR3).DR2
        * ((newDrainageCalculator OM1 DR3).OM1 - (newDrainageCalculator OM1 DR3).OM1)
        / (newDrainageCalculator OM1 DR3).OM1 = 0 ∧
    (newDrainageCalculator OM1 DR3).DR2
        * ((newDrainageCalculator OM1 DR3).OM2 - (newDrainageCalculator OM1 DR3).OM1)
        / (newDrainageCalculator OM1 DR3).OM1 = (newDrainageCalculator OM1 DR3).DR2 ∧
    (newDrainageCalculator OM1 DR3).DR2
        + ((newDrainageCalculator OM1 DR3).DR3 - (newDrainageCalculator OM1 DR3).DR2)
          * ((newDrainageCalculator OM1 DR3).OM2 - (newDrainageCalculator OM1 DR3).OM2)
          / (newDrainageCalculator OM1 DR3).OM1 = (newDrainageCalculator OM1 DR3).DR2 ∧
    (newDrainageCalculator OM1 DR3).DR2
        + ((newDrainageCalculator OM1 DR3).DR3 - (newDrainageCalculator OM1 DR3).DR2)
          * ((newDrainageCalculator OM1 DR3).OM3 - (newDrainageCalculator OM1 DR3).OM2)
          / (newDrainageCalculator OM1 DR3).OM1 = (newDrainageCalculator OM1 DR3).DR3 := by
  have hne : OM1 ≠ 0 := hOM.ne'
  refine ⟨?_, ?_, ?_, ?_, ?_⟩
  · have heq : (fun omega : ℝ => (newDrainageCalculator OM1 DR3).get_drainage_rate omega)
        = fun omega : ℝ =>
          if omega ≤ OM1 then (0 : ℝ)
          else if omega ≤ 2 * OM1 then 0.1 * DR3 * (omega - OM1) / OM1
          else if omega ≤ 3 * OM1 then
            0.1 * DR3 + (DR3 - 0.1 * DR3) * (omega - 2 * OM1) / OM1
          else DR3 := by
      funext omega
      simp only [DrainageCalculator.get_drainage_rate, newDrainageCalculator]
      by_cases h1 : omega ≤ OM1
      · rw [if_neg (not_lt.mpr h1), if_pos h1]
      · rw [if_pos (not_le.mp h1), if_neg h1]
        by_cases h2 : omega ≤ 2 * OM1
        · rw [if_neg (not_lt.mpr h2), if_pos h2]
        · rw [if_pos (not_le.mp h2), if_neg h2]
          by_cases h3 : omega ≤ 3 * OM1
          · rw [if_neg (not_lt.mpr h3), if_pos h3]
          · rw [if_pos (not_le.mp h3), if_neg h3]
    rw [heq]
    have hp1 : Continuous (fun omega : ℝ => 0.1 * DR3 * (omega - OM1) / OM1) := by
      fun_prop
    have hp2 : Continuous
        (fun omega : ℝ => 0.1 * DR3 + (DR3 - 0.1 * DR3) * (omega - 2 * OM1) / OM1) := by
      fun_prop
    have e1 : 2 * OM1 - OM1 = OM1 := by ring
    have e2 : 3 * OM1 - 2 * OM1 = OM1 := by ring
    refine Continuous.if_le continuous_const ?_ continuous_id continuous_const ?_
    · refine Continuous.if_le hp1 ?_ continuous_id continuous_const ?_
      · refine Continuous.if_le hp2 continuous_const continuous_id continuous_const ?_
        intro x hx
        have hx2 : x = 3 * OM1 := hx
        rw [hx2, e2, mul_div_assoc, div_self hne, mul_one]
        ring
      · intro x hx
        have hx2 : x = 2 * OM1 := hx
        rw [hx2, if_pos (by linarith), e1, mul_div_assoc, div_self hne, mul_one, sub_self,
          mul_zero, zero_div, add_zero]
    · intro x hx
      have hx2 : x = OM1 := hx
      rw [hx2, if_pos (by linarith), sub_self, mul_zero, zero_div]
  · simp only [newDrainageCalculator]
    rw [sub_self, mul_zero, zero_div]
  · simp only [newDrainageCalculator]
    rw [show 2 * OM1 - OM1 = OM1 by ring, mul_div_assoc, div_self hne, mul_one]
  · simp only [newDrainageCalculator]
    rw [sub_self, mul_zero, zero_div, add_zero]
  · simp only [newDrainageCalculator]
    rw [show 3 * OM1 - 2 * OM1 = OM1 by ring, mul_div_assoc, div_self hne, mul_one]
    ring

/-- Instance of C19: `OM1 = 1/100`, `DR3 = 1/20`. -/
theorem get_drainage_rate_continuous_witness :
    Continuous (fun omega : ℝ =>
      (newDrainageCalculator (1 / 100 : ℝ) (1 / 20)).get_drainage_rate omega) :=
  (get_drainage_rate_continuous (1 / 100) (1 / 20) (by norm_num)).1

/-! ## Claims on the drainage loop -/

theorem get_drainage_rate_nonneg {K : Type} [LinearOrderedField K] (OM1 DR3 : K)
    (hOM : 0 < OM1) (hDR : 0 ≤ DR3) (omega : K) :
    0 ≤ (newDrainageCalculator OM1 DR3).get_drainage_rate omega := by
  obtain ⟨f1, -, f3, -, -, -⟩ := drainage_pieces OM1 DR3 hOM hDR
  have hDR2 : 0 ≤ 0.1 * DR3 := by
    have h01 : (0.1 : K) = 1 / 10 := by norm_num
    rw [h01]
    positivity
  rcases get_drainage_rate_regions OM1 DR3 omega with
    ⟨hw, ew⟩ | ⟨hw1, hw2, ew⟩ | ⟨hw1, hw2, ew⟩ | ⟨hw, ew⟩
  · rw [ew]
  · rw [ew]
    exact f1 omega hw1.le
  · rw [ew]
    exact le_trans hDR2 (f3 omega hw1.le)
  · rw [ew]
    exact hDR

theorem capLevel_Enthnew (cfg : EnthConfig) (Enth_s : Int → ℚ) (k : Int) (s : DrainState)
    (j : Int) :
    (capLevel cfg Enth_s k s).Enthnew j
      = if j = k then cappedEnth cfg Enth_s k (s.Enthnew k) else s.Enthnew j := by
  unfold capLevel cappedEnth
  by_cases hc : s.Enthnew k ≥ Enth_s k + 0.5 * cfg.L
  · rw [if_pos hc, if_pos hc]
    by_cases hj : j = k
    · rw [if_pos hj, hj]
      exact setAt_same _ _ _
    · rw [if_neg hj]
      exact setAt_other _ _ _ _ hj
  · rw [if_neg hc, if_neg hc]
    by_cases hj : j = k
    · rw [if_pos hj, hj]
    · rw [if_neg hj]

/-- One pass of the drainage loop body changes the energy of its own level only. -/
theorem drainLevel_Enthnew (EC : EnthalpyConverter) (dc : DrainageCalculator ℚ)
    (grid : IceGrid) (cfg : EnthConfig) (vH : ℚ) (Enth_s : Int → ℚ) (k : Int)
    (s : DrainState) (j : Int) :
    (drainLevel EC dc grid cfg vH Enth_s k s).Enthnew j
      = if j = k then drainedEnth EC dc grid cfg vH Enth_s k (s.Enthnew k)
        else s.Enthnew j := by
  have hkk : (capLevel cfg Enth_s k s).Enthnew k = cappedEnth cfg Enth_s k (s.Enthnew k) := by
    rw [capLevel_Enthnew, if_pos rfl]
  unfold drainLevel drainedEnth
  dsimp only
  by_cases h1 : s.Enthnew k > Enth_s k
  · rw [if_pos h1, if_pos h1, hkk]
    by_cases h2 : EC.getWaterFraction (cappedEnth cfg Enth_s k (s.Enthnew k))
        (EC.getPressureFromDepth (vH - grid.zlevels_fine k)) > 0.01
    · rw [if_pos h2, if_pos h2]
      by_cases hj : j = k
      · rw [if_pos hj, hj]
        exact setAt_same _ _ _
      · rw [if_neg hj]
        show setAt _ _ _ j = _
        rw [setAt_other _ _ _ _ hj, capLevel_Enthnew, if_neg hj]
    · rw [if_neg h2, if_neg h2, capLevel_Enthnew]
  · rw [if_neg h1, if_neg h1]
    by_cases hj : j = k
    · rw [if_pos hj, hj]
    · rw [if_neg hj]

/-- The energies after the drainage loop. -/
theorem drainLoop_Enthnew (EC : EnthalpyConverter) (dc : DrainageCalculator ℚ)
    (grid : IceGrid) (cfg : EnthConfig) (vH : ℚ) (Enth_s : Int → ℚ) (n : Nat)
    (s : DrainState) (j : Int) :
    (forLoop 0 (drainLevel EC dc grid cfg vH Enth_s) n s).Enthnew j
      = if 0 ≤ j ∧ j < (n : Int) then drainedEnth EC dc grid cfg vH Enth_s j (s.Enthnew j)
        else s.Enthnew j := by
  induction n with
  | zero =>
    have : ¬ (0 ≤ j ∧ j < ((0 : Nat) : Int)) := by omega
    rw [if_neg this]
    rfl
  | succ n ih =>
    show (drainLevel EC dc grid cfg vH Enth_s (0 + (n : Int))
      (forLoop 0 (drainLevel EC dc grid cfg vH Enth_s) n s)).Enthnew j = _
    rw [drainLevel_Enthnew]
    by_cases hj : j = 0 + (n : Int)
    · rw [if_pos hj, if_pos (by push_cast; omega), ← hj, ih, if_neg (by omega)]
    · rw [if_neg hj, ih]
      by_cases h : 0 ≤ j ∧ j < (n : Int)
      · rw [if_pos h, if_pos (by push_cast; omega)]
      · rw [if_neg h, if_neg (by push_cast; omega)]

/-- C20: in the drainage loop, with liquid fraction `omega = (E - Enth_s[k])/L` for
`E ≥ Enth_s[k]`, `L > 0`, `dt ≥ 0` and a non-negative drainage rate, for every level
`k < ks` whose (possibly capped) liquid fraction `omega` exceeds `0.01` the drained fraction
`f = PetscMin(D(omega)*dt, omega - 0.01)` satisfies `0 ≤ f ≤ omega - 0.01`, the energy of
the level after the loop is the capped energy minus `f*L`, and its liquid fraction after
drainage is `omega - f ≥ 0.01`, so the level stays above the melting enthalpy. -/
theorem drainage_never_overdrains (EC : EnthalpyConverter) (dc : DrainageCalculator ℚ)
    (grid : IceGrid) (cfg : EnthConfig) (vH : ℚ) (Enth_s : Int → ℚ) (ks : Int)
    (Enthnew : Int → ℚ) (liquifiedCount : Int) (k : Int) (h0 : 0 ≤ k) (hk : k < ks)
    (hL : 0 < cfg.L) (hdt : 0 ≤ cfg.dt_secs)
    (hD : ∀ omega : ℚ, 0 ≤ dc.get_drainage_rate omega)
    (hWF : ∀ E : ℚ, E ≥ Enth_s k →
      EC.getWaterFraction E (EC.getPressureFromDepth (vH - grid.zlevels_fine k))
        = (E - Enth_s k) / cfg.L)
    (homega : (cappedEnth cfg Enth_s k (Enthnew k) - Enth_s k) / cfg.L > 0.01) :
    0 ≤ PetscMin
        (dc.get_drainage_rate ((cappedEnth cfg Enth_s k (Enthnew k) - Enth_s k) / cfg.L)
          * cfg.dt_secs)
        ((cappedEnth cfg Enth_s k (Enthnew k) - Enth_s k) / cfg.L - 0.01) ∧
    PetscMin
        (dc.get_drainage_rate ((cappedEnth cfg Enth_s k (Enthnew k) - Enth_s k) / cfg.L)
          * cfg.dt_secs)
        ((cappedEnth cfg Enth_s k (Enthnew k) - Enth_s k) / cfg.L - 0.01)
      ≤ (cappedEnth cfg Enth_s k (Enthnew k) - Enth_s k) / cfg.L - 0.01 ∧
    (drainColumn EC dc grid cfg vH Enth_s ks Enthnew liquifiedCount).Enthnew k
      = cappedEnth cfg Enth_s k (Enthnew k)
        - PetscMin
            (dc.get_drainage_rate ((cappedEnth cfg Enth_s k (Enthnew k) - Enth_s k) / cfg.L)
              * cfg.dt_secs)
            ((cappedEnth cfg Enth_s k (Enthnew k) - Enth_s k) / cfg.L - 0.01) * cfg.L ∧
    ((drainColumn EC dc grid cfg vH Enth_s ks Enthnew liquifiedCount).Enthnew k - Enth_s k)
        / cfg.L
      = (cappedEnth cfg Enth_s k (Enthnew k) - Enth_s k) / cfg.L
        - PetscMin
            (dc.get_drainage_rate ((cappedEnth cfg Enth_s k (Enthnew k) - Enth_s k) / cfg.L)
              * cfg.dt_secs)
            ((cappedEnth cfg Enth_s k (Enthnew k) - Enth_s k) / cfg.L - 0.01) ∧
    ((drainColumn EC dc grid cfg vH Enth_s ks Enthnew liquifiedCount).Enthnew k - Enth_s k)
        / cfg.L ≥ 0.01 ∧
    (drainColumn EC dc grid cfg vH Enth_s ks Enthnew liquifiedCount).Enthnew k > Enth_s k := by
  have hLne : cfg.L ≠ 0 := hL.ne'
  have h001 : (0.01 : ℚ) = 1 / 100 := by norm_num
  have h05 : (0.5 : ℚ) = 1 / 2 := by norm_num
  -- the capped energy is above the melting enthalpy, hence so is the solved energy
  have hEpos : cappedEnth cfg Enth_s k (Enthnew k) > Enth_s k := by
    have h1 : 0 < (cappedEnth cfg Enth_s k (Enthnew k) - Enth_s k) / cfg.L := by
      rw [h001] at homega
      linarith
    have h2 := (div_pos_iff_of_pos_right hL).mp h1
    linarith
  have hraw : Enthnew k > Enth_s k := by
    unfold cappedEnth at hEpos
    by_cases hc : Enthnew k ≥ Enth_s k + 0.5 * cfg.L
    · rw [h05] at hc
      linarith
    · rwa [if_neg hc] at hEpos
  have hwf := hWF (cappedEnth cfg Enth_s k (Enthnew k)) hEpos.le
  have hfmin := PetscMin_eq_min
    (dc.get_drainage_rate ((cappedEnth cfg Enth_s k (Enthnew k) - Enth_s k) / cfg.L)
      * cfg.dt_secs)
    ((cappedEnth cfg Enth_s k (Enthnew k) - Enth_s k) / cfg.L - 0.01)
  have hf0 : 0 ≤ PetscMin
      (dc.get_drainage_rate ((cappedEnth cfg Enth_s k (Enthnew k) - Enth_s k) / cfg.L)
        * cfg.dt_secs)
      ((cappedEnth cfg Enth_s k (Enthnew k) - Enth_s k) / cfg.L - 0.01) := by
    rw [hfmin]
    exact le_min (mul_nonneg (hD _) hdt) (by linarith)
  have hf1 : PetscMin
      (dc.get_drainage_rate ((cappedEnth cfg Enth_s k (Enthnew k) - Enth_s k) / cfg.L)
        * cfg.dt_secs)
      ((cappedEnth cfg Enth_s k (Enthnew k) - Enth_s k) / cfg.L - 0.01)
      ≤ (cappedEnth cfg Enth_s k (Enthnew k) - Enth_s k) / cfg.L - 0.01 := by
    rw [hfmin]
    exact min_le_right _ _
  have hout : (drainColumn EC dc grid cfg vH Enth_s ks Enthnew liquifiedCount).Enthnew k
      = cappedEnth cfg Enth_s k (Enthnew k)
        - PetscMin
            (dc.get_drainage_rate ((cappedEnth cfg Enth_s k (Enthnew k) - Enth_s k) / cfg.L)
              * cfg.dt_secs)
            ((cappedEnth cfg Enth_s k (Enthnew k) - Enth_s k) / cfg.L - 0.01) * cfg.L := by
    unfold drainColumn
    rw [drainLoop_Enthnew, if_pos ⟨h0, by rw [Int.toNat_of_nonneg (by omega)]; exact hk⟩]
    show drainedEnth EC dc grid cfg vH Enth_s k (Enthnew k) = _
    unfold drainedEnth
    rw [if_pos hraw, hwf, if_pos homega]
  have hfrac : ((drainColumn EC dc grid cfg vH Enth_s ks Enthnew liquifiedCount).Enthnew k
      - Enth_s k) / cfg.L
      = (cappedEnth cfg Enth_s k (Enthnew k) - Enth_s k) / cfg.L
        - PetscMin
            (dc.get_drainage_rate ((cappedEnth cfg Enth_s k (Enthnew k) - Enth_s k) / cfg.L)
              * cfg.dt_secs)
            ((cappedEnth cfg Enth_s k (Enthnew k) - Enth_s k) / cfg.L - 0.01) := by
    have halg : ∀ E f Es L : ℚ, L ≠ 0 → (E - f * L - Es) / L = (E - Es) / L - f := by
      intro E f Es L h
      field_simp
      ring
    rw [hout]
    exact halg _ _ _ _ hLne
  have hge : ((drainColumn EC dc grid cfg vH Enth_s ks Enthnew liquifiedCount).Enthnew k
      - Enth_s k) / cfg.L ≥ 0.01 := by
    rw [hfrac]
    linarith
  refine ⟨hf0, hf1, hout, hfrac, hge, ?_⟩
  have h3 : 0 < ((drainColumn EC dc grid cfg vH Enth_s ks Enthnew liquifiedCount).Enthnew k
      - Enth_s k) / cfg.L := by
    rw [h001] at hge
    linarith
  have h4 := (div_pos_iff_of_pos_right hL).mp h3
  linarith

/-- Instance of C20: level `1` of the wet column `exEnthWet` (`ks = 3`, `omega = 1/10`). -/
theorem drainage_never_overdrains_witness :
    (drainColumn exEC exDC exGrid exCfg 3 (fun _ => 100) 3 exEnthWet 0).Enthnew 1
      > (fun _ : Int => (100 : ℚ)) 1 :=
  (drainage_never_overdrains exEC exDC exGrid exCfg 3 (fun _ => 100) 3 exEnthWet 0 1
    (by norm_num) (by norm_num) (by norm_num [exCfg]) (by norm_num [exCfg])
    (fun omega => get_drainage_rate_nonneg (1 / 100) (1 / 20) (by norm_num) (by norm_num) omega)
    (fun E _ => by norm_num [exEC, exCfg])
    (by norm_num [cappedEnth, exEnthWet, exCfg])).2.2.2.2.2

/-- C21: after the drainage loop, for `L > 0`, `dt ≥ 0` and a non-negative drainage rate,
every level `0 ≤ k < ks` satisfies `Enthnew[k] ≤ Enth_s[k] + 0.5*L`, and a level whose
solved energy was at most `Enth_s[k]` keeps that energy. -/
theorem drainage_energy_cap (EC : EnthalpyConverter) (dc : DrainageCalculator ℚ)
    (grid : IceGrid) (cfg : EnthConfig) (vH : ℚ) (Enth_s : Int → ℚ) (ks : Int)
    (Enthnew : Int → ℚ) (liquifiedCount : Int) (k : Int) (h0 : 0 ≤ k) (hk : k < ks)
    (hL : 0 < cfg.L) (hdt : 0 ≤ cfg.dt_secs)
    (hD : ∀ omega : ℚ, 0 ≤ dc.get_drainage_rate omega) :
    (drainColumn EC dc grid cfg vH Enth_s ks Enthnew liquifiedCount).Enthnew k
      ≤ Enth_s k + 0.5 * cfg.L ∧
    (Enthnew k ≤ Enth_s k →
      (drainColumn EC dc grid cfg vH Enth_s ks Enthnew liquifiedCount).Enthnew k
        = Enthnew k) := by
  have h05 : (0.5 : ℚ) = 1 / 2 := by norm_num
  have hout : (drainColumn EC dc grid cfg vH Enth_s ks Enthnew liquifiedCount).Enthnew k
      = drainedEnth EC dc grid cfg vH Enth_s k (Enthnew k) := by
    unfold drainColumn
    rw [drainLoop_Enthnew, if_pos ⟨h0, by rw [Int.toNat_of_nonneg (by omega)]; exact hk⟩]
  have hcap : cappedEnth cfg Enth_s k (Enthnew k) ≤ Enth_s k + 0.5 * cfg.L := by
    unfold cappedEnth
    split_ifs with hc
    · exact le_refl _
    · exact (not_le.mp hc).le
  rw [hout]
  constructor
  · unfold drainedEnth
    split_ifs with h1 h2
    · have hf : 0 ≤ PetscMin
          (dc.get_drainage_rate
            (EC.getWaterFraction (cappedEnth cfg Enth_s k (Enthnew k))
              (EC.getPressureFromDepth (vH - grid.zlevels_fine k))) * cfg.dt_secs)
          (EC.getWaterFraction (cappedEnth cfg Enth_s k (Enthnew k))
            (EC.getPressureFromDepth (vH - grid.zlevels_fine k)) - 0.01) := by
        rw [PetscMin_eq_min]
        exact le_min (mul_nonneg (hD _) hdt) (by linarith)
      have := mul_nonneg hf hL.le
      linarith
    · exact hcap
    · rw [h05]
      linarith [not_lt.mp h1]
  · intro hle
    unfold drainedEnth
    rw [if_neg (not_lt.mpr hle)]

/-- Instance of C21: level `1` of the wet column `exEnthWet` (`ks = 3`). -/
theorem drainage_energy_cap_witness :
    (drainColumn exEC exDC exGrid exCfg 3 (fun _ => 100) 3 exEnthWet 0).Enthnew 1
      ≤ (fun _ : Int => (100 : ℚ)) 1 + 0.5 * exCfg.L :=
  (drainage_energy_cap exEC exDC exGrid exCfg 3 (fun _ => 100) 3 exEnthWet 0 1
    (by norm_num) (by norm_num) (by norm_num [exCfg]) (by norm_num [exCfg])
    (fun omega =>
      get_drainage_rate_nonneg (1 / 100) (1 / 20) (by norm_num) (by norm_num) omega)).1

/-! ## Claims on the bulge limiter -/

theorem bulgeLevel_Enthnew (lim : ℚ) (k : Int) (s : BulgeState) (j : Int) :
    (bulgeLevel lim k s).Enthnew j
      = if j = k then max (s.Enthnew k) lim else s.Enthnew j := by
  unfold bulgeLevel
  by_cases hc : s.Enthnew k < lim
  · rw [if_pos hc]
    by_cases hj : j = k
    · rw [if_pos hj, hj, max_eq_right hc.le]
      exact setAt_same _ _ _
    · rw [if_neg hj]
      exact setAt_other _ _ _ _ hj
  · rw [if_neg hc]
    by_cases hj : j = k
    · rw [if_pos hj, hj, max_eq_left (not_lt.mp hc)]
    · rw [if_neg hj]

/-- The energies after the bulge-limiter loop. -/
theorem bulgeLoop_Enthnew (lim : ℚ) (n : Nat) (s : BulgeState) (j : Int) :
    (forLoop 0 (bulgeLevel lim) n s).Enthnew j
      = if 0 ≤ j ∧ j < (n : Int) then max (s.Enthnew j) lim else s.Enthnew j := by
  induction n with
  | zero =>
    have : ¬ (0 ≤ j ∧ j < ((0 : Nat) : Int)) := by omega
    rw [if_neg this]
    rfl
  | succ n ih =>
    show (bulgeLevel lim (0 + (n : Int)) (forLoop 0 (bulgeLevel lim) n s)).Enthnew j = _
    rw [bulgeLevel_Enthnew]
    by_cases hj : j = 0 + (n : Int)
    · rw [if_pos hj, if_pos (by push_cast; omega), ← hj, ih, if_neg (by omega)]
    · rw [if_neg hj, ih]
      by_cases h : 0 ≤ j ∧ j < (n : Int)
      · rw [if_pos h, if_pos (by push_cast; omega)]
      · rw [if_neg h, if_neg (by push_cast; omega)]

/-- A column with no level below the limit passes the bulge-limiter loop unchanged. -/
theorem bulgeLoop_fixed (lim : ℚ) (n : Nat) (s : BulgeState)
    (h : ∀ j : Int, 0 ≤ j → j < (n : Int) → lim ≤ s.Enthnew j) :
    forLoop 0 (bulgeLevel lim) n s = s := by
  induction n with
  | zero => rfl
  | succ n ih =>
    have hprev := ih (fun j h0 hj => h j h0 (by push_cast; omega))
    show bulgeLevel lim (0 + (n : Int)) (forLoop 0 (bulgeLevel lim) n s) = s
    rw [hprev]
    unfold bulgeLevel
    rw [if_neg (not_lt.mpr (h _ (by omega) (by push_cast; omega)))]

/-- C23: after the bulge-limiter loop every level `0 ≤ k < ks` holds
`max(value before, Enth_ks - bulgeEnthMax)`: it is at least `Enth_ks - bulgeEnthMax` and not
below its value before the limiter. -/
theorem bulgeLimiter_lower_bound (Enth_ks bulgeEnthMax : ℚ) (ks : Int) (Enthnew : Int → ℚ)
    (bulgeCount : ℚ) (k : Int) (h0 : 0 ≤ k) (hk : k < ks) :
    (bulgeLimiter Enth_ks bulgeEnthMax ks Enthnew bulgeCount).Enthnew k
      = max (Enthnew k) (Enth_ks - bulgeEnthMax) ∧
    (bulgeLimiter Enth_ks bulgeEnthMax ks Enthnew bulgeCount).Enthnew k
      ≥ Enth_ks - bulgeEnthMax ∧
    (bulgeLimiter Enth_ks bulgeEnthMax ks Enthnew bulgeCount).Enthnew k ≥ Enthnew k := by
  have hout : (bulgeLimiter Enth_ks bulgeEnthMax ks Enthnew bulgeCount).Enthnew k
      = max (Enthnew k) (Enth_ks - bulgeEnthMax) := by
    unfold bulgeLimiter
    rw [bulgeLoop_Enthnew, if_pos ⟨h0, by rw [Int.toNat_of_nonneg (by omega)]; exact hk⟩]
  rw [hout]
  exact ⟨rfl, le_max_right _ _, le_max_left _ _⟩

/-- Instance of C23: level `1` of the column `exEnthBulge` (`ks = 3`, limit `45`). -/
theorem bulgeLimiter_lower_bound_witness :
    (bulgeLimiter 50 5 3 exEnthBulge 0).Enthnew 1 = max (exEnthBulge 1) (50 - 5) :=
  (bulgeLimiter_lower_bound 50 5 3 exEnthBulge 0 1 (by norm_num) (by norm_num)).1

/-- C24: applying the bulge-limiter loop to its own output changes no level and adds `0`
to the bulge counter. -/
theorem bulgeLimiter_idempotent (Enth_ks bulgeEnthMax : ℚ) (ks : Int) (Enthnew : Int → ℚ)
    (bulgeCount : ℚ) :
    (bulgeLimiter Enth_ks bulgeEnthMax ks
        (bulgeLimiter Enth_ks bulgeEnthMax ks Enthnew bulgeCount).Enthnew
        (bulgeLimiter Enth_ks bulgeEnthMax ks Enthnew bulgeCount).bulgeCount).Enthnew
      = (bulgeLimiter Enth_ks bulgeEnthMax ks Enthnew bulgeCount).Enthnew ∧
    (bulgeLimiter Enth_ks bulgeEnthMax ks
        (bulgeLimiter Enth_ks bulgeEnthMax ks Enthnew bulgeCount).Enthnew
        (bulgeLimiter Enth_ks bulgeEnthMax ks Enthnew bulgeCount).bulgeCount).bulgeCount
      = (bulgeLimiter Enth_ks bulgeEnthMax ks Enthnew bulgeCount).bulgeCount + 0 := by
  have hfix : bulgeLimiter Enth_ks bulgeEnthMax ks
      (bulgeLimiter Enth_ks bulgeEnthMax ks Enthnew bulgeCount).Enthnew
      (bulgeLimiter Enth_ks bulgeEnthMax ks Enthnew bulgeCount).bulgeCount
      = bulgeLimiter Enth_ks bulgeEnthMax ks Enthnew bulgeCount := by
    have h := bulgeLoop_fixed (Enth_ks - bulgeEnthMax) ks.toNat
      (bulgeLimiter Enth_ks bulgeEnthMax ks Enthnew bulgeCount)
      (by
        intro j h0 hj
        unfold bulgeLimiter
        rw [bulgeLoop_Enthnew, if_pos ⟨h0, hj⟩]
        exact le_max_right _ _)
    exact h
  rw [hfix, add_zero]
  exact ⟨rfl, rfl⟩

/-- C25, evaluated at a failing input: in the column `exEnthBulge` (`ks = 3`,
`Enth_ks = 50`, `bulgeEnthMax = 5`) the levels `0` and `1` are clamped, and the
bulge-limiter loop raises `bulgeCount` from `0` to `2`, once per clamped level, not by `1`
for the column. -/
theorem bulgeLimiter_counts_levels :
    exEnthBulge 0 < 50 - 5 ∧ exEnthBulge 1 < 50 - 5 ∧ ¬ exEnthBulge 2 < 50 - 5 ∧
      (bulgeLimiter 50 5 3 exEnthBulge 0).bulgeCount = 2 ∧
      (bulgeLimiter 50 5 3 exEnthBulge 0).bulgeCount ≠ 0 + 1 := by
  have h3 : (3 : Int).toNat = 3 := by decide
  have hc : (bulgeLimiter 50 5 3 exEnthBulge 0).bulgeCount = 2 := by
    simp only [bulgeLimiter, h3, forLoop, bulgeLevel]
    norm_num [exEnthBulge, setAt]
  refine ⟨by norm_num [exEnthBulge], by norm_num [exEnthBulge], by norm_num [exEnthBulge],
    hc, ?_⟩
  rw [hc]
  norm_num

/-! ## Lemmas on the column step -/

theorem setAt2_same {α : Type} (f : Int → Int → α) (i j : Int) (v : α) :
    setAt2 f i j v i j = v := by
  unfold setAt2
  rw [if_pos ⟨rfl, rfl⟩]

theorem exKs_zero (inp : ColumnInput) (h : inp.vH = 0) : columnKs exGrid inp = 0 := by
  unfold columnKs
  rw [h, zero_div]
  exact Int.floor_zero

/-- The step of an ice-free column. -/
theorem columnStep_ice_free (env : StepEnv) (inp : ColumnInput) (st : StepState)
    (hks : columnKs env.grid inp = 0) :
    columnStep env inp st = (0, columnIceFree env inp st) := by
  unfold columnStep
  rw [if_pos hks]

/-- The step of a column whose solve reports a pivot error. -/
theorem columnStep_pivot_error (env : StepEnv) (inp : ColumnInput) (st : StepState)
    (c1 : enthSystemCtx) (x1 : Int → ℚ) (pivoterr : Int)
    (hks : columnKs env.grid inp ≠ 0)
    (hsolve : solveThisColumn env.m env.solver (columnReady env inp st) st.Enthnew
      = some (c1, x1, pivoterr))
    (hp : pivoterr ≠ 0) :
    columnStep env inp st =
      (1, { st with
            vertSacrCount :=
              if (columnPrepare env.EC env.grid env.ice env.cfg inp st.esys).lambda < 1
              then st.vertSacrCount + 1 else st.vertSacrCount
            vbmr := setAt2 st.vbmr inp.i inp.j
              (basalMeltPrelim env inp
                (columnPrepare env.EC env.grid env.ice env.cfg inp st.esys))
            esys := c1
            Enthnew := x1 }) := by
  unfold columnStep
  rw [if_neg hks]
  simp only [hsolve]
  rw [if_pos hp]

/-- The step of a column whose solve succeeds. -/
theorem columnStep_solved (env : StepEnv) (inp : ColumnInput) (st : StepState)
    (c1 : enthSystemCtx) (x1 : Int → ℚ)
    (hks : columnKs env.grid inp ≠ 0)
    (hsolve : solveThisColumn env.m env.solver (columnReady env inp st) st.Enthnew
      = some (c1, x1, 0)) :
    columnStep env inp st =
      (0, columnFinish env inp
        { st with
          vertSacrCount :=
            if (columnPrepare env.EC env.grid env.ice env.cfg inp st.esys).lambda < 1
            then st.vertSacrCount + 1 else st.vertSacrCount
          vbmr := setAt2 st.vbmr inp.i inp.j
            (basalMeltPrelim env inp
              (columnPrepare env.EC env.grid env.ice env.cfg inp st.esys)) }
        (basalMeltPrelim env inp (columnPrepare env.EC env.grid env.ice env.cfg inp st.esys))
        c1 x1) := by
  unfold columnStep
  rw [if_neg hks]
  simp only [hsolve]
  rw [if_neg (by simp)]

/-- A sweep whose first column succeeds continues with the remaining columns. -/
theorem enthalpySweep_cons_ok (env : StepEnv) (inp : ColumnInput) (rest : List ColumnInput)
    (st : StepState)
    (h : (columnStep env { inp with vHmelt := st.vHmelt inp.i inp.j } st).1 = 0) :
    enthalpySweep env (inp :: rest) st
      = enthalpySweep env rest
          (columnStep env { inp with vHmelt := st.vHmelt inp.i inp.j } st).2 := by
  show (if (columnStep env { inp with vHmelt := st.vHmelt inp.i inp.j } st).1 ≠ 0 then _
    else _) = _
  rw [if_neg (by rw [h]; simp)]

/-- A sweep whose first column fails stops there. -/
theorem enthalpySweep_cons_err (env : StepEnv) (inp : ColumnInput) (rest : List ColumnInput)
    (st : StepState)
    (h : (columnStep env { inp with vHmelt := st.vHmelt inp.i inp.j } st).1 ≠ 0) :
    enthalpySweep env (inp :: rest) st
      = columnStep env { inp with vHmelt := st.vHmelt inp.i inp.j } st := by
  show (if (columnStep env { inp with vHmelt := st.vHmelt inp.i inp.j } st).1 ≠ 0 then _
    else _) = _
  rw [if_pos h]

/-- A sweep over a concatenation: the second part is swept from the state the first part
leaves, unless the first part failed. -/
theorem enthalpySweep_append (env : StepEnv) (pre rest : List ColumnInput) :
    ∀ st : StepState, (enthalpySweep env pre st).1 = 0 →
      enthalpySweep env (pre ++ rest) st
        = enthalpySweep env rest (enthalpySweep env pre st).2 := by
  induction pre with
  | nil =>
    intro st _
    rfl
  | cons inp pre ih =>
    intro st h
    by_cases hc : (columnStep env { inp with vHmelt := st.vHmelt inp.i inp.j } st).1 = 0
    · rw [enthalpySweep_cons_ok env inp pre st hc] at h ⊢
      rw [List.cons_append, enthalpySweep_cons_ok env inp (pre ++ rest) st hc]
      exact ih _ h
    · rw [enthalpySweep_cons_err env inp pre st hc] at h
      exact absurd h hc

/-! ## Claims on the ice-free short-circuit and on the pivot error -/

/-- The state after the ice-free short-circuit, as one record. -/
theorem columnIceFree_eq (env : StepEnv) (inp : ColumnInput) (st : StepState) :
    columnIceFree env inp st =
      { st with
        vWork3d := setAt2 st.vWork3d inp.i inp.j (fun _ => columnEnth_ks env.EC env.grid inp)
        vHmelt := setAt2 st.vHmelt inp.i inp.j
          (if inp.floating_ice = true then env.cfg.hmelt_max else 0)
        vbmr := setAt2 st.vbmr inp.i inp.j
          (if inp.floating_ice = true then inp.shelfbmassflux else 0) } := by
  unfold columnIceFree
  cases inp.floating_ice <;> simp

/-- C27: for a column with `ks = 0` the step succeeds, sets every level of the output column
to the surface enthalpy `Enth_ks`, sets `vHmelt = hmelt_max` and `vbmr = shelfbmassflux` when
the mask says floating ice and `vHmelt = 0`, `vbmr = 0` otherwise, leaves the `lambda < 1`,
liquified and bulge counters, the column system and the solution buffer unchanged, and does
not depend on the tridiagonal solver. -/
theorem ice_free_short_circuit (env : StepEnv) (inp : ColumnInput) (st : StepState)
    (hks : columnKs env.grid inp = 0) :
    (columnStep env inp st).1 = 0 ∧
    (∀ k : Int, (columnStep env inp st).2.vWork3d inp.i inp.j k
        = columnEnth_ks env.EC env.grid inp) ∧
    (inp.floating_ice = true →
      (columnStep env inp st).2.vHmelt inp.i inp.j = env.cfg.hmelt_max ∧
      (columnStep env inp st).2.vbmr inp.i inp.j = inp.shelfbmassflux) ∧
    (inp.floating_ice = false →
      (columnStep env inp st).2.vHmelt inp.i inp.j = 0 ∧
      (columnStep env inp st).2.vbmr inp.i inp.j = 0) ∧
    (columnStep env inp st).2.vertSacrCount = st.vertSacrCount ∧
    (columnStep env inp st).2.liquifiedCount = st.liquifiedCount ∧
    (columnStep env inp st).2.bulgeCount = st.bulgeCount ∧
    (columnStep env inp st).2.esys = st.esys ∧
    (columnStep env inp st).2.Enthnew = st.Enthnew ∧
    (∀ solver : TridiagonalSolver,
      columnStep { env with solver := solver } inp st = columnStep env inp st) := by
  have hstep := columnStep_ice_free env inp st hks
  rw [hstep, columnIceFree_eq]
  refine ⟨rfl, ?_, ?_, ?_, rfl, rfl, rfl, rfl, rfl, ?_⟩
  · intro k
    show setAt2 st.vWork3d inp.i inp.j (fun _ => columnEnth_ks env.EC env.grid inp)
      inp.i inp.j k = _
    rw [setAt2_same]
  · intro hf
    refine ⟨?_, ?_⟩
    · show setAt2 st.vHmelt inp.i inp.j _ inp.i inp.j = _
      rw [setAt2_same, if_pos hf]
    · show setAt2 st.vbmr inp.i inp.j _ inp.i inp.j = _
      rw [setAt2_same, if_pos hf]
  · intro hf
    refine ⟨?_, ?_⟩
    · show setAt2 st.vHmelt inp.i inp.j _ inp.i inp.j = _
      rw [setAt2_same, if_neg (by rw [hf]; simp)]
    · show setAt2 st.vbmr inp.i inp.j _ inp.i inp.j = _
      rw [setAt2_same, if_neg (by rw [hf]; simp)]
  · intro solver
    rw [← columnIceFree_eq]
    exact columnStep_ice_free { env with solver := solver } inp st hks

/-- Instance of C27: the ice-free column `exInpIceFree` at `(1, 0)`, with surface enthalpy
`50`, in the state `exState`. -/
theorem ice_free_short_circuit_witness :
    columnKs exEnv.grid exInpIceFree = 0 ∧
    (columnStep exEnv exInpIceFree exState).1 = 0 ∧
    (∀ k : Int, (columnStep exEnv exInpIceFree exState).2.vWork3d 1 0 k = 50) ∧
    (columnStep exEnv exInpIceFree exState).2.bulgeCount = 0 :=
  ⟨exKs_zero exInpIceFree rfl,
    (ice_free_short_circuit exEnv exInpIceFree exState (exKs_zero exInpIceFree rfl)).1,
    (ice_free_short_circuit exEnv exInpIceFree exState (exKs_zero exInpIceFree rfl)).2.1,
    (ice_free_short_circuit exEnv exInpIceFree exState
      (exKs_zero exInpIceFree rfl)).2.2.2.2.2.2.1⟩

/-- The system of a floating column before the solve. -/
theorem columnReady_floating (env : StepEnv) (inp : ColumnInput) (st : StepState)
    (hfl : inp.ocean = true) :
    columnReady env inp st
      = setDirichletBasal
          (columnInit env.EC env.grid inp
            (columnPrepare env.EC env.grid env.ice env.cfg inp st.esys))
          (env.EC.getEnthPermissive inp.shelfbtemp 0 (env.EC.getPressureFromDepth inp.vH)) := by
  unfold columnReady
  simp only [basalCalls, hfl, if_true, List.foldl, applyBasalCall]

/-- With the basal coefficients set, `solveThisColumn` yields a system, a column and the
pivot error index of the tridiagonal solver. -/
theorem solveThisColumn_some (m : Mask) (solver : TridiagonalSolver) (c : enthSystemCtx)
    (x : Int → ℚ) (a0 a1 b : ℚ)
    (h0 : c.a0 = some a0) (h1 : c.a1 = some a1) (hb : c.b = some b) :
    ∃ (c1 : enthSystemCtx) (x1 : Int → ℚ),
      solveThisColumn m solver c x
        = some (c1, x1, (solver.solve c1.L c1.D c1.U c1.rhs (c1.ks + 1) x).1) := by
  unfold solveThisColumn
  rw [assembleRows_eq m c a0 a1 b h0 h1 hb]
  exact ⟨_, _, rfl⟩

/-- The solve of a floating column. -/
theorem solveThisColumn_floating (env : StepEnv) (inp : ColumnInput) (st : StepState)
    (hfl : inp.ocean = true) :
    ∃ (c1 : enthSystemCtx) (x1 : Int → ℚ),
      solveThisColumn env.m env.solver (columnReady env inp st) st.Enthnew
        = some (c1, x1,
            (env.solver.solve c1.L c1.D c1.U c1.rhs (c1.ks + 1) st.Enthnew).1) := by
  rw [columnReady_floating env inp st hfl]
  exact solveThisColumn_some env.m env.solver _ st.Enthnew 1 0 _ rfl rfl rfl

/-- C28: when the columns `pre` of a sweep have succeeded and `solveThisColumn` reports a
non-zero pivot error index for the next column `inp` (not ice-free), the sweep returns a
non-zero error code; the output field `vWork3d`, the water layer `vHmelt` and the liquified
and bulge counters are as the columns `pre` left them (no write of the new enthalpy, no
drainage, no bulge limiter, no water-layer update for that column), and the columns `post`
after it are not processed. -/
theorem pivot_error_is_fatal (env : StepEnv) (pre : List ColumnInput) (inp : ColumnInput)
    (post : List ColumnInput) (st : StepState) (c1 : enthSystemCtx) (x1 : Int → ℚ)
    (pivoterr : Int)
    (hpre : (enthalpySweep env pre st).1 = 0)
    (hks : columnKs env.grid inp ≠ 0)
    (hsolve : solveThisColumn env.m env.solver
        (columnReady env
          { inp with vHmelt := (enthalpySweep env pre st).2.vHmelt inp.i inp.j }
          (enthalpySweep env pre st).2)
        (enthalpySweep env pre st).2.Enthnew = some (c1, x1, pivoterr))
    (hp : pivoterr ≠ 0) :
    (enthalpySweep env (pre ++ inp :: post) st).1 ≠ 0 ∧
    (enthalpySweep env (pre ++ inp :: post) st).2.vWork3d
      = (enthalpySweep env pre st).2.vWork3d ∧
    (enthalpySweep env (pre ++ inp :: post) st).2.vHmelt
      = (enthalpySweep env pre st).2.vHmelt ∧
    (enthalpySweep env (pre ++ inp :: post) st).2.liquifiedCount
      = (enthalpySweep env pre st).2.liquifiedCount ∧
    (enthalpySweep env (pre ++ inp :: post) st).2.bulgeCount
      = (enthalpySweep env pre st).2.bulgeCount ∧
    enthalpySweep env (pre ++ inp :: post) st = enthalpySweep env (pre ++ [inp]) st := by
  have hstep := columnStep_pivot_error env
    { inp with vHmelt := (enthalpySweep env pre st).2.vHmelt inp.i inp.j }
    (enthalpySweep env pre st).2 c1 x1 pivoterr hks hsolve hp
  have herr : (columnStep env
      { inp with vHmelt := (enthalpySweep env pre st).2.vHmelt inp.i inp.j }
      (enthalpySweep env pre st).2).1 ≠ 0 := by
    rw [hstep]
    simp
  have hall : ∀ rest : List ColumnInput,
      enthalpySweep env (pre ++ inp :: rest) st
        = columnStep env
            { inp with vHmelt := (enthalpySweep env pre st).2.vHmelt inp.i inp.j }
            (enthalpySweep env pre st).2 := by
    intro rest
    rw [enthalpySweep_append env pre (inp :: rest) st hpre]
    exact enthalpySweep_cons_err env inp rest _ herr
  rw [hall post, hall []]
  refine ⟨herr, ?_, ?_, ?_, ?_, rfl⟩ <;> rw [hstep]

/-- Instance of C28: with the solver `exSolverFail` the sweep over the ice-free column
`exInpIceFree`, the floating column `exInpFloat` and the grounded column `exInpWet` fails at
the second column and does not process the third. -/
theorem pivot_error_is_fatal_witness :
    (enthalpySweep exEnvFail ([exInpIceFree] ++ exInpFloat :: [exInpWet]) exState).1 ≠ 0 ∧
    enthalpySweep exEnvFail ([exInpIceFree] ++ exInpFloat :: [exInpWet]) exState
      = enthalpySweep exEnvFail ([exInpIceFree] ++ [exInpFloat]) exState := by
  have hpre : (enthalpySweep exEnvFail [exInpIceFree] exState).1 = 0 := by
    have h0 : (columnStep exEnvFail
        { exInpIceFree with vHmelt := exState.vHmelt exInpIceFree.i exInpIceFree.j }
        exState).1 = 0 := by
      rw [columnStep_ice_free exEnvFail _ exState (exKs_zero _ rfl)]
    rw [enthalpySweep_cons_ok exEnvFail exInpIceFree [] exState h0]
    rfl
  obtain ⟨c1, x1, hsolve⟩ := solveThisColumn_floating exEnvFail
    { exInpFloat with
      vHmelt := (enthalpySweep exEnvFail [exInpIceFree] exState).2.vHmelt
        exInpFloat.i exInpFloat.j }
    (enthalpySweep exEnvFail [exInpIceFree] exState).2 rfl
  have h := pivot_error_is_fatal exEnvFail [exInpIceFree] exInpFloat [exInpWet] exState
    c1 x1 1 hpre
    (by
      show columnKs exGrid exInpFloat ≠ 0
      rw [exKs_eq exInpFloat rfl]
      norm_num)
    hsolve (by norm_num)
  exact ⟨h.1, h.2.2.2.2.2⟩

/-! ## Claims on the water layer and the basal melt rate -/

theorem PetscMax_eq_max (a b : ℚ) : PetscMax a b = max a b := by
  unfold PetscMax
  split_ifs with h
  · exact (max_eq_right h.le).symm
  · exact (max_eq_left (not_lt.mp h)).symm

/-- The clamp `PetscMax(0.0, PetscMin(hmelt_max, Hmeltnew))` lies in `[0, hmelt_max]`. -/
theorem water_layer_clamp (hmelt_max Hmeltnew : ℚ) (h : 0 ≤ hmelt_max) :
    0 ≤ PetscMax 0 (PetscMin hmelt_max Hmeltnew) ∧
      PetscMax 0 (PetscMin hmelt_max Hmeltnew) ≤ hmelt_max := by
  rw [PetscMax_eq_max, PetscMin_eq_min]
  exact ⟨le_max_left _ _, max_le h (min_le_left _ _)⟩

/-- The water layer written by the last lines of the column step. -/
theorem columnFinish_vHmelt (env : StepEnv) (inp : ColumnInput) (st : StepState) (vbmr0 : ℚ)
    (c1 : enthSystemCtx) (x1 : Int → ℚ) :
    (columnFinish env inp st vbmr0 c1 x1).vHmelt
      = setAt2 st.vHmelt inp.i inp.j
          (if inp.ocean = true then env.cfg.hmelt_max
           else PetscMax 0 (PetscMin env.cfg.hmelt_max
             ((if inp.grounded = true then
                 (if inp.grounded = true then inp.vHmelt + vbmr0 * env.cfg.dt_secs
                  else inp.vHmelt)
                 + (drainColumn env.EC env.dc env.grid env.cfg inp.vH c1.Enth_s
                     (columnKs env.grid inp) x1 st.liquifiedCount).Hdrainedtotal
               else
                 (if inp.grounded = true then inp.vHmelt + vbmr0 * env.cfg.dt_secs
                  else inp.vHmelt))
               - env.cfg.hmelt_decay_rate * env.cfg.dt_secs))) :=
  rfl

/-- The basal melt rate written by the column step after the drainage loop. -/
theorem columnFinish_vbmr (env : StepEnv) (inp : ColumnInput) (st : StepState) (vbmr0 : ℚ)
    (c1 : enthSystemCtx) (x1 : Int → ℚ) :
    (columnFinish env inp st vbmr0 c1 x1).vbmr
      = setAt2 st.vbmr inp.i inp.j
          (if inp.grounded = true then
             vbmr0 + (drainColumn env.EC env.dc env.grid env.cfg inp.vH c1.Enth_s
               (columnKs env.grid inp) x1 st.liquifiedCount).Hdrainedtotal / env.cfg.dt_secs
           else vbmr0) :=
  rfl

/-- The water layer after a column step: untouched when the step fails, else written at
`(i,j)` with a value that lies in `[0, hmelt_max]` for `hmelt_max ≥ 0`. -/
theorem columnStep_vHmelt (env : StepEnv) (inp : ColumnInput) (st : StepState) :
    ((columnStep env inp st).1 ≠ 0 ∧ (columnStep env inp st).2.vHmelt = st.vHmelt) ∨
    ((columnStep env inp st).1 = 0 ∧ ∃ v : ℚ,
      (columnStep env inp st).2.vHmelt = setAt2 st.vHmelt inp.i inp.j v ∧
      (0 ≤ env.cfg.hmelt_max → 0 ≤ v ∧ v ≤ env.cfg.hmelt_max)) := by
  by_cases hks : columnKs env.grid inp = 0
  · right
    rw [columnStep_ice_free env inp st hks, columnIceFree_eq]
    refine ⟨rfl, _, rfl, ?_⟩
    intro h
    split_ifs
    · exact ⟨h, le_refl _⟩
    · exact ⟨le_refl _, h⟩
  · cases hsolve : solveThisColumn env.m env.solver (columnReady env inp st) st.Enthnew with
    | none =>
      left
      unfold columnStep
      rw [if_neg hks]
      simp only [hsolve]
      exact ⟨by norm_num, trivial⟩
    | some r =>
      obtain ⟨c1, x1, pivoterr⟩ := r
      by_cases hp : pivoterr = 0
      · right
        rw [hp] at hsolve
        rw [columnStep_solved env inp st c1 x1 hks hsolve]
        refine ⟨rfl, _, columnFinish_vHmelt env inp _ _ c1 x1, ?_⟩
        intro h
        split_ifs
        all_goals first | exact ⟨h, le_refl _⟩ | exact water_layer_clamp _ _ h
      · left
        rw [columnStep_pivot_error env inp st c1 x1 pivoterr hks hsolve hp]
        exact ⟨by norm_num, rfl⟩

/-- After a successful sweep the water layer lies in `[0, hmelt_max]` at every grid point
where it did before and at every grid point of a processed column. -/
theorem enthalpySweep_vHmelt (env : StepEnv) (hmax : 0 ≤ env.cfg.hmelt_max) (i j : Int) :
    ∀ (cols : List ColumnInput) (st : StepState),
      (enthalpySweep env cols st).1 = 0 →
      ((0 ≤ st.vHmelt i j ∧ st.vHmelt i j ≤ env.cfg.hmelt_max) ∨
        ∃ inp : ColumnInput, inp ∈ cols ∧ inp.i = i ∧ inp.j = j) →
      0 ≤ (enthalpySweep env cols st).2.vHmelt i j ∧
        (enthalpySweep env cols st).2.vHmelt i j ≤ env.cfg.hmelt_max := by
  intro cols
  induction cols with
  | nil =>
    intro st _ h
    rcases h with h | ⟨inp, hmem, _⟩
    · exact h
    · exact absurd hmem (List.not_mem_nil inp)
  | cons inp rest ih =>
    intro st hcode h
    by_cases hc : (columnStep env { inp with vHmelt := st.vHmelt inp.i inp.j } st).1 = 0
    · rw [enthalpySweep_cons_ok env inp rest st hc] at hcode ⊢
      apply ih _ hcode
      rcases columnStep_vHmelt env { inp with vHmelt := st.vHmelt inp.i inp.j } st with
        ⟨hne, _⟩ | ⟨_, v, hv, hrange⟩
      · exact absurd hc hne
      · have hvr := hrange hmax
        have hij : (columnStep env { inp with vHmelt := st.vHmelt inp.i inp.j } st).2.vHmelt i j
            = if i = inp.i ∧ j = inp.j then v else st.vHmelt i j := by
          rw [hv]
          rfl
        rcases h with h | ⟨inp0, hmem, hi, hj⟩
        · left
          rw [hij]
          split_ifs
          · exact hvr
          · exact h
        · rcases List.mem_cons.mp hmem with heq | hrest
          · left
            rw [hij, if_pos ⟨by rw [← hi, heq], by rw [← hj, heq]⟩]
            exact hvr
          · exact Or.inr ⟨inp0, hrest, hi, hj⟩
    · rw [enthalpySweep_cons_err env inp rest st hc] at hcode
      exact absurd hcode hc

/-- C22: for `hmelt_max ≥ 0`, after a successful sweep the water-layer thickness
`vHmelt(i,j)` of every processed column lies in `[0, hmelt_max]`, whatever its ice-free,
floating or grounded path, the water layer before the sweep, the basal melt rates, the
drained amounts, the decay rate and the time step are. -/
theorem water_layer_in_range (env : StepEnv) (cols : List ColumnInput) (st : StepState)
    (inp : ColumnInput) (hmax : 0 ≤ env.cfg.hmelt_max)
    (hcode : (enthalpySweep env cols st).1 = 0) (hmem : inp ∈ cols) :
    0 ≤ (enthalpySweep env cols st).2.vHmelt inp.i inp.j ∧
      (enthalpySweep env cols st).2.vHmelt inp.i inp.j ≤ env.cfg.hmelt_max :=
  enthalpySweep_vHmelt env hmax inp.i inp.j cols st hcode (Or.inr ⟨inp, hmem, rfl, rfl⟩)

/-- The basal calls of the decision chart set all three coefficients of row 0. -/
theorem columnReady_coeffs (env : StepEnv) (inp : ColumnInput) (st : StepState) :
    ∃ a0 a1 b : ℚ, (columnReady env inp st).a0 = some a0 ∧
      (columnReady env inp st).a1 = some a1 ∧ (columnReady env inp st).b = some b := by
  unfold columnReady basalCalls
  dsimp only
  split_ifs <;> exact ⟨_, _, _, rfl, rfl, rfl⟩

/-- The solve of a column that is not ice-free yields a system, a column and the pivot error
index of the tridiagonal solver. -/
theorem solveThisColumn_column (env : StepEnv) (inp : ColumnInput) (st : StepState) :
    ∃ (c1 : enthSystemCtx) (x1 : Int → ℚ),
      solveThisColumn env.m env.solver (columnReady env inp st) st.Enthnew
        = some (c1, x1,
            (env.solver.solve c1.L c1.D c1.U c1.rhs (c1.ks + 1) st.Enthnew).1) := by
  obtain ⟨a0, a1, b, h0, h1, hb⟩ := columnReady_coeffs env inp st
  exact solveThisColumn_some env.m env.solver _ st.Enthnew a0 a1 b h0 h1 hb

/-- With a solver that never reports a pivot error every column step succeeds. -/
theorem columnStep_ok_of_solver (env : StepEnv)
    (hs : ∀ (L D U r : Int → ℚ) (n : Int) (x : Int → ℚ), (env.solver.solve L D U r n x).1 = 0)
    (inp : ColumnInput) (st : StepState) : (columnStep env inp st).1 = 0 := by
  by_cases hks : columnKs env.grid inp = 0
  · rw [columnStep_ice_free env inp st hks]
  · obtain ⟨c1, x1, hsolve⟩ := solveThisColumn_column env inp st
    rw [hs] at hsolve
    rw [columnStep_solved env inp st c1 x1 hks hsolve]

/-- With a solver that never reports a pivot error every sweep succeeds. -/
theorem enthalpySweep_ok_of_solver (env : StepEnv)
    (hs : ∀ (L D U r : Int → ℚ) (n : Int) (x : Int → ℚ), (env.solver.solve L D U r n x).1 = 0) :
    ∀ (cols : List ColumnInput) (st : StepState), (enthalpySweep env cols st).1 = 0 := by
  intro cols
  induction cols with
  | nil =>
    intro st
    rfl
  | cons inp rest ih =>
    intro st
    rw [enthalpySweep_cons_ok env inp rest st (columnStep_ok_of_solver env hs _ st)]
    exact ih _

/-- Instance of C22: the sweep over the ice-free column `exInpIceFree` and the grounded
column `exInpWet`, from a water layer of thickness `7` above `hmelt_max = 2`. -/
theorem water_layer_in_range_witness :
    exState.vHmelt 0 0 = 7 ∧
    0 ≤ (enthalpySweep exEnv [exInpIceFree, exInpWet] exState).2.vHmelt 0 0 ∧
      (enthalpySweep exEnv [exInpIceFree, exInpWet] exState).2.vHmelt 0 0 ≤ 2 :=
  ⟨rfl, water_layer_in_range exEnv [exInpIceFree, exInpWet] exState exInpWet
    (by norm_num [exEnv, exCfg])
    (enthalpySweep_ok_of_solver exEnv (fun _ _ _ _ _ _ => rfl) _ exState)
    (by simp)⟩

/-- C26: for a column that is not ice-free and whose solve succeeds, the step writes
`vbmr(i,j) = shelfbmassflux(i,j)` and `vHmelt(i,j) = hmelt_max` when the column is floating
(`ocean` true, `grounded` false), whatever the solved column and the drained thickness
`Hdrainedtotal` are; when the column is grounded (and not ocean) it writes the preliminary
melt rate plus `Hdrainedtotal/dt` and the clamp of
`vHmelt + vbmr*dt + Hdrainedtotal - decay*dt`; a column that is not grounded gets no
`Hdrainedtotal` in its melt rate. -/
theorem floating_discards_drainage (env : StepEnv) (inp : ColumnInput) (st : StepState)
    (c1 : enthSystemCtx) (x1 : Int → ℚ)
    (hks : columnKs env.grid inp ≠ 0)
    (hsolve : solveThisColumn env.m env.solver (columnReady env inp st) st.Enthnew
      = some (c1, x1, 0)) :
    (inp.ocean = true → inp.grounded = false →
      (columnStep env inp st).2.vbmr inp.i inp.j = inp.shelfbmassflux ∧
      (columnStep env inp st).2.vHmelt inp.i inp.j = env.cfg.hmelt_max) ∧
    (inp.ocean = false → inp.grounded = true →
      (columnStep env inp st).2.vbmr inp.i inp.j
        = basalMeltPrelim env inp (columnPrepare env.EC env.grid env.ice env.cfg inp st.esys)
          + (drainColumn env.EC env.dc env.grid env.cfg inp.vH c1.Enth_s
              (columnKs env.grid inp) x1 st.liquifiedCount).Hdrainedtotal / env.cfg.dt_secs ∧
      (columnStep env inp st).2.vHmelt inp.i inp.j
        = PetscMax 0 (PetscMin env.cfg.hmelt_max
            (inp.vHmelt
              + basalMeltPrelim env inp
                  (columnPrepare env.EC env.grid env.ice env.cfg inp st.esys)
                * env.cfg.dt_secs
              + (drainColumn env.EC env.dc env.grid env.cfg inp.vH c1.Enth_s
                  (columnKs env.grid inp) x1 st.liquifiedCount).Hdrainedtotal
              - env.cfg.hmelt_decay_rate * env.cfg.dt_secs))) ∧
    (inp.grounded = false →
      (columnStep env inp st).2.vbmr inp.i inp.j
        = basalMeltPrelim env inp
            (columnPrepare env.EC env.grid env.ice env.cfg inp st.esys)) := by
  rw [columnStep_solved env inp st c1 x1 hks hsolve]
  refine ⟨?_, ?_, ?_⟩
  · intro hoc hgr
    refine ⟨?_, ?_⟩
    · show (columnFinish env inp _ _ c1 x1).vbmr inp.i inp.j = _
      rw [columnFinish_vbmr, setAt2_same, if_neg (by rw [hgr]; simp)]
      unfold basalMeltPrelim
      simp only [hoc, if_true]
    · show (columnFinish env inp _ _ c1 x1).vHmelt inp.i inp.j = _
      rw [columnFinish_vHmelt, setAt2_same, if_pos hoc]
  · intro hoc hgr
    refine ⟨?_, ?_⟩
    · show (columnFinish env inp _ _ c1 x1).vbmr inp.i inp.j = _
      rw [columnFinish_vbmr, setAt2_same, if_pos hgr]
    · show (columnFinish env inp _ _ c1 x1).vHmelt inp.i inp.j = _
      rw [columnFinish_vHmelt, setAt2_same, if_neg (by rw [hoc]; simp), if_pos hgr,
        if_pos hgr]
  · intro hgr
    show (columnFinish env inp _ _ c1 x1).vbmr inp.i inp.j = _
    rw [columnFinish_vbmr, setAt2_same, if_neg (by rw [hgr]; simp)]

/-- Instance of C26: the floating column `exInpFloat` with ocean melt rate `3`. -/
theorem floating_discards_drainage_witness :
    (columnStep exEnv { exInpFloat with shelfbmassflux := 3 } exState).2.vbmr 0 0 = 3 ∧
    (columnStep exEnv { exInpFloat with shelfbmassflux := 3 } exState).2.vHmelt 0 0 = 2 := by
  obtain ⟨c1, x1, hsolve⟩ :=
    solveThisColumn_floating exEnv { exInpFloat with shelfbmassflux := 3 } exState rfl
  exact (floating_discards_drainage exEnv { exInpFloat with shelfbmassflux := 3 } exState
    c1 x1
    (by
      show columnKs exGrid { exInpFloat with shelfbmassflux := 3 } ≠ 0
      rw [exKs_eq _ rfl]
      norm_num)
    hsolve).1 rfl rfl

/-! ## Claims on `checkReadyToSolve` -/

/-- C29: `checkReadyToSolve` returns `2` exactly when `nuEQ < 0` or `iceRcold < 0` or
`iceRtemp < 0`; otherwise it returns `3` exactly when `lambda < 0`; otherwise it returns `0`.
It returns `2` on a freshly constructed context; after `initAllColumns` with positive `dt`,
`dz`, density, heat capacity and conductivity (and a conductivity ratio `≥ 0`) it returns
`3`, and `0` once `initThisColumn` has set a `lambda ≥ 0`. -/
theorem checkReadyToSolve_codes (c : enthSystemCtx)
    (rho cc k ratio : ℚ) (Enth3 : Int → Int → Int → planeStar ℚ) (Mz : Int) (junk : Int → ℚ)
    (dx dy dt dz : ℚ)
    (hrho : 0 < rho) (hcc : 0 < cc) (hk : 0 < k) (hratio : 0 ≤ ratio)
    (hdt : 0 < dt) (hdz : 0 < dz) :
    (checkReadyToSolve c = 2 ↔ (c.nuEQ < 0 ∨ c.iceRcold < 0 ∨ c.iceRtemp < 0)) ∧
    (¬ (c.nuEQ < 0 ∨ c.iceRcold < 0 ∨ c.iceRtemp < 0) →
      (checkReadyToSolve c = 3 ↔ c.lambda < 0)) ∧
    (¬ (c.nuEQ < 0 ∨ c.iceRcold < 0 ∨ c.iceRtemp < 0) → ¬ c.lambda < 0 →
      checkReadyToSolve c = 0) ∧
    checkReadyToSolve (newEnthSystemCtx rho cc k ratio Enth3 Mz junk) = 2 ∧
    checkReadyToSolve
      (initAllColumns (newEnthSystemCtx rho cc k ratio Enth3 Mz junk) dx dy dt dz) = 3 ∧
    (∀ (my_ismarginal : Bool) (my_Msk : planeStar Int) (my_lambda : ℚ), 0 ≤ my_lambda →
      checkReadyToSolve
        (initThisColumn
          (initAllColumns (newEnthSystemCtx rho cc k ratio Enth3 Mz junk) dx dy dt dz)
          my_ismarginal my_Msk my_lambda) = 0) := by
  have hnu : ¬ dt / dz < 0 := not_lt.mpr (div_pos hdt hdz).le
  have hsq : 0 < PetscSqr dz := by
    unfold PetscSqr
    exact mul_pos hdz hdz
  have hRc : ¬ (k / cc / rho) * dt / PetscSqr dz < 0 :=
    not_lt.mpr (div_nonneg (mul_nonneg (div_nonneg (div_nonneg hk.le hcc.le) hrho.le) hdt.le)
      hsq.le)
  have hRt : ¬ (k / cc * ratio / rho) * dt / PetscSqr dz < 0 :=
    not_lt.mpr (div_nonneg (mul_nonneg
      (div_nonneg (mul_nonneg (div_nonneg hk.le hcc.le) hratio) hrho.le) hdt.le) hsq.le)
  have hinit : ¬ (dt / dz < 0 ∨ (k / cc / rho) * dt / PetscSqr dz < 0 ∨
      (k / cc * ratio / rho) * dt / PetscSqr dz < 0) := by
    rintro (h | h | h)
    · exact hnu h
    · exact hRc h
    · exact hRt h
  refine ⟨?_, ?_, ?_, ?_, ?_, ?_⟩
  · unfold checkReadyToSolve
    constructor
    · intro h
      by_contra hn
      rw [if_neg hn] at h
      split_ifs at h <;> norm_num at h
    · intro h
      rw [if_pos h]
  · intro hn
    unfold checkReadyToSolve
    rw [if_neg hn]
    constructor
    · intro h
      by_contra hl
      rw [if_neg hl] at h
      norm_num at h
    · intro h
      rw [if_pos h]
  · intro hn hl
    unfold checkReadyToSolve
    rw [if_neg hn, if_neg hl]
  · show (if ((-1 : ℚ) < 0 ∨ (-1 : ℚ) < 0 ∨ (-1 : ℚ) < 0) then (2 : Int)
      else if (-1 : ℚ) < 0 then 3 else 0) = 2
    rw [if_pos (Or.inl (by norm_num))]
  · show (if (dt / dz < 0 ∨ (k / cc / rho) * dt / PetscSqr dz < 0 ∨
        (k / cc * ratio / rho) * dt / PetscSqr dz < 0) then (2 : Int)
      else if (-1 : ℚ) < 0 then 3 else 0) = 3
    rw [if_neg hinit, if_pos (by norm_num)]
  · intro my_ismarginal my_Msk my_lambda hl
    show (if (dt / dz < 0 ∨ (k / cc / rho) * dt / PetscSqr dz < 0 ∨
        (k / cc * ratio / rho) * dt / PetscSqr dz < 0) then (2 : Int)
      else if my_lambda < 0 then 3 else 0) = 0
    rw [if_neg hinit, if_neg (not_lt.mpr hl)]

/-- Instance of C29: unit material constants with conductivity ratio `1/10`, `dt = 4`,
`dz = 1`, and the check applied to the context `exCtxSteady`. -/
theorem checkReadyToSolve_codes_witness :
    checkReadyToSolve (newEnthSystemCtx 1 1 1 (1 / 10) exEnth3 5 (fun _ => 0)) = 2 ∧
    checkReadyToSolve
      (initAllColumns (newEnthSystemCtx 1 1 1 (1 / 10) exEnth3 5 (fun _ => 0)) 1 1 4 1) = 3 ∧
    checkReadyToSolve
      (initThisColumn
        (initAllColumns (newEnthSystemCtx 1 1 1 (1 / 10) exEnth3 5 (fun _ => 0)) 1 1 4 1)
        false { ij := 0, e := 0, w := 0, n := 0, s := 0 } (1 / 2)) = 0 :=
  ⟨(checkReadyToSolve_codes exCtxSteady 1 1 1 (1 / 10) exEnth3 5 (fun _ => 0) 1 1 4 1
      (by norm_num) (by norm_num) (by norm_num) (by norm_num) (by norm_num)
      (by norm_num)).2.2.2.1,
    (checkReadyToSolve_codes exCtxSteady 1 1 1 (1 / 10) exEnth3 5 (fun _ => 0) 1 1 4 1
      (by norm_num) (by norm_num) (by norm_num) (by norm_num) (by norm_num)
      (by norm_num)).2.2.2.2.1,
    (checkReadyToSolve_codes exCtxSteady 1 1 1 (1 / 10) exEnth3 5 (fun _ => 0) 1 1 4 1
      (by norm_num) (by norm_num) (by norm_num) (by norm_num) (by norm_num)
      (by norm_num)).2.2.2.2.2 false { ij := 0, e := 0, w := 0, n := 0, s := 0 } (1 / 2)
      (by norm_num)⟩

/-! ## Claims on the levels read by the assembler -/

theorem interiorL_withColumns (c : enthSystemCtx) (Enth Enth_s R u v w Sigma : Int → ℚ)
    (k : Int) (h1 : 1 ≤ k) (hk : k < c.ks)
    (hR : agreeUpTo c.ks R c.R) (hw : agreeUpTo c.ks w c.w) :
    interiorL (withColumns c Enth Enth_s R u v w Sigma) k = interiorL c k := by
  unfold interiorL withColumns
  dsimp only
  rw [hR (k - 1) (by omega) (by omega), hR k (by omega) (by omega),
    hw k (by omega) (by omega)]

theorem interiorD_withColumns (c : enthSystemCtx) (Enth Enth_s R u v w Sigma : Int → ℚ)
    (k : Int) (h1 : 1 ≤ k) (hk : k < c.ks)
    (hR : agreeUpTo c.ks R c.R) (hw : agreeUpTo c.ks w c.w) :
    interiorD (withColumns c Enth Enth_s R u v w Sigma) k = interiorD c k := by
  unfold interiorD withColumns
  dsimp only
  rw [hR (k - 1) (by omega) (by omega), hR k (by omega) (by omega),
    hR (k + 1) (by omega) (by omega), hw k (by omega) (by omega)]

theorem interiorU_withColumns (c : enthSystemCtx) (Enth Enth_s R u v w Sigma : Int → ℚ)
    (k : Int) (h1 : 1 ≤ k) (hk : k < c.ks)
    (hR : agreeUpTo c.ks R c.R) (hw : agreeUpTo c.ks w c.w) :
    interiorU (withColumns c Enth Enth_s R u v w Sigma) k = interiorU c k := by
  unfold interiorU withColumns
  dsimp only
  rw [hR k (by omega) (by omega), hR (k + 1) (by omega) (by omega),
    hw k (by omega) (by omega)]

theorem upwindTerms_withColumns (m : Mask) (c : enthSystemCtx)
    (Enth Enth_s R u v w Sigma : Int → ℚ) (k : Int) (h0 : 0 ≤ k) (hk : k ≤ c.ks)
    (hu : agreeUpTo c.ks u c.u) (hv : agreeUpTo c.ks v c.v) :
    upwindTerms m (withColumns c Enth Enth_s R u v w Sigma) k = upwindTerms m c k := by
  unfold upwindTerms withColumns
  dsimp only
  rw [hu k h0 hk, hv k h0 hk]

theorem interiorRhs_withColumns (m : Mask) (c : enthSystemCtx)
    (Enth Enth_s R u v w Sigma : Int → ℚ) (k : Int) (h0 : 0 ≤ k) (hk : k ≤ c.ks)
    (hE : agreeUpTo c.ks Enth c.Enth) (hu : agreeUpTo c.ks u c.u)
    (hv : agreeUpTo c.ks v c.v) (hS : agreeUpTo c.ks Sigma c.Sigma) :
    interiorRhs m (withColumns c Enth Enth_s R u v w Sigma) k = interiorRhs m c k := by
  unfold interiorRhs
  rw [upwindTerms_withColumns m c Enth Enth_s R u v w Sigma k h0 hk hu hv]
  show Enth k + c.dtTemp * ((Sigma k / c.ice_rho) - _ - _) = _
  rw [hE k h0 hk, hS k h0 hk]

/-- The coefficients computed by `setBasalHeatFlux` in a column with `ks ≥ 1` depend on the
per-level arrays only through the levels `0..ks`. -/
theorem setBasalHeatFlux_withColumns (m : Mask) (c : enthSystemCtx)
    (Enth Enth_s R u v w Sigma : Int → ℚ) (hf : ℚ) (hks : 1 ≤ c.ks)
    (hE : agreeUpTo c.ks Enth c.Enth) (hR : agreeUpTo c.ks R c.R)
    (hu : agreeUpTo c.ks u c.u) (hv : agreeUpTo c.ks v c.v)
    (hS : agreeUpTo c.ks Sigma c.Sigma) :
    (setBasalHeatFlux m (withColumns c Enth Enth_s R u v w Sigma) hf).a0
        = (setBasalHeatFlux m c hf).a0 ∧
      (setBasalHeatFlux m (withColumns c Enth Enth_s R u v w Sigma) hf).a1
        = (setBasalHeatFlux m c hf).a1 ∧
      (setBasalHeatFlux m (withColumns c Enth Enth_s R u v w Sigma) hf).b
        = (setBasalHeatFlux m c hf).b := by
  have hup := upwindTerms_withColumns m c Enth Enth_s R u v w Sigma 0 (le_refl _)
    (by omega) hu hv
  have hR0 : R 0 = c.R 0 := hR 0 (le_refl _) (by omega)
  have hR1 : R 1 = c.R 1 := hR 1 (by norm_num) hks
  have hE0 : Enth 0 = c.Enth 0 := hE 0 (le_refl _) (by omega)
  have hS0 : Sigma 0 = c.Sigma 0 := hS 0 (le_refl _) (by omega)
  unfold setBasalHeatFlux neumannRow
  dsimp only
  rw [hup]
  unfold withColumns
  dsimp only
  rw [hR0, hR1, hE0, hS0]
  exact ⟨rfl, rfl, rfl⟩

/-- C30, as stated, fails at `ks = 0`: in the context `exCtxThin` (`ks = 0`, `Mz = 5`)
replacing `R[1]`, a level above `ks`, changes the coefficients `a0` and `a1` that
`setBasalHeatFlux` computes, since it reads `Rr = R[1]`. -/
theorem setBasalHeatFlux_reads_above_surface :
    0 ≤ exCtxThin.ks ∧ exCtxThin.ks ≤ exCtxThin.Mz - 1 ∧
    agreeUpTo exCtxThin.ks (setAt exCtxThin.R 1 9) exCtxThin.R ∧
    (setBasalHeatFlux exMask exCtxThin 1).a0 = some 9 ∧
    (setBasalHeatFlux exMask
      (withColumns exCtxThin exCtxThin.Enth exCtxThin.Enth_s (setAt exCtxThin.R 1 9)
        exCtxThin.u exCtxThin.v exCtxThin.w exCtxThin.Sigma) 1).a0 = some (23 / 2) ∧
    (setBasalHeatFlux exMask exCtxThin 1).a1 = some (-8) ∧
    (setBasalHeatFlux exMask
      (withColumns exCtxThin exCtxThin.Enth exCtxThin.Enth_s (setAt exCtxThin.R 1 9)
        exCtxThin.u exCtxThin.v exCtxThin.w exCtxThin.Sigma) 1).a1 = some (-21 / 2) := by
  have hks : exCtxThin.ks = 0 := rfl
  have hMz : exCtxThin.Mz = 5 := rfl
  refine ⟨by rw [hks], by rw [hks, hMz]; norm_num, ?_, ?_, ?_, ?_, ?_⟩
  · intro k h0 hk
    rw [hks] at hk
    exact setAt_other _ _ _ _ (by omega)
  · simp only [setBasalHeatFlux, neumannRow, exCtxThin]
    norm_num
  · simp only [setBasalHeatFlux, neumannRow, withColumns, exCtxThin]
    norm_num [setAt]
  · simp only [setBasalHeatFlux, neumannRow, exCtxThin]
    norm_num
  · simp only [setBasalHeatFlux, neumannRow, withColumns, exCtxThin]
    norm_num [setAt]

/-- C30, amended to `1 ≤ ks`: in a column with `ks ≥ 1` whose basal coefficients are set,
replacing the arrays `Enth`, `Enth_s`, `R`, `u`, `v`, `w`, `Sigma` by arrays with the same
values at the levels `0..ks` changes neither the entries `R[0..ks]` written by `assemble_R`,
nor the coefficients `a0`, `a1`, `b` of `setDirichletBasal` and `setBasalHeatFlux`, nor the
matrix entries `L[1..ks]`, `D[0..ks]`, `U[0..ks-1]`, `rhs[0..ks]` assembled by
`solveThisColumn`. -/
theorem assembler_reads_up_to_ks (m : Mask) (c : enthSystemCtx)
    (Enth Enth_s R u v w Sigma : Int → ℚ) (hf Y a0 a1 b : ℚ) (hks : 1 ≤ c.ks)
    (hE : agreeUpTo c.ks Enth c.Enth) (hEs : agreeUpTo c.ks Enth_s c.Enth_s)
    (hR : agreeUpTo c.ks R c.R) (hu : agreeUpTo c.ks u c.u) (hv : agreeUpTo c.ks v c.v)
    (hw : agreeUpTo c.ks w c.w) (hS : agreeUpTo c.ks Sigma c.Sigma)
    (h0 : c.a0 = some a0) (h1 : c.a1 = some a1) (hb : c.b = some b) :
    (∀ k : Int, 0 ≤ k → k ≤ c.ks →
      (assemble_R (withColumns c Enth Enth_s R u v w Sigma)).R k = (assemble_R c).R k) ∧
    ((setDirichletBasal (withColumns c Enth Enth_s R u v w Sigma) Y).a0
        = (setDirichletBasal c Y).a0 ∧
      (setDirichletBasal (withColumns c Enth Enth_s R u v w Sigma) Y).a1
        = (setDirichletBasal c Y).a1 ∧
      (setDirichletBasal (withColumns c Enth Enth_s R u v w Sigma) Y).b
        = (setDirichletBasal c Y).b) ∧
    ((setBasalHeatFlux m (withColumns c Enth Enth_s R u v w Sigma) hf).a0
        = (setBasalHeatFlux m c hf).a0 ∧
      (setBasalHeatFlux m (withColumns c Enth Enth_s R u v w Sigma) hf).a1
        = (setBasalHeatFlux m c hf).a1 ∧
      (setBasalHeatFlux m (withColumns c Enth Enth_s R u v w Sigma) hf).b
        = (setBasalHeatFlux m c hf).b) ∧
    ∃ d d' : enthSystemCtx, assembleRows m c = some d ∧
      assembleRows m (withColumns c Enth Enth_s R u v w Sigma) = some d' ∧
      (∀ k : Int, 0 ≤ k → k ≤ c.ks → d'.D k = d.D k ∧ d'.rhs k = d.rhs k) ∧
      (∀ k : Int, 1 ≤ k → k ≤ c.ks → d'.L k = d.L k) ∧
      (∀ k : Int, 0 ≤ k → k < c.ks → d'.U k = d.U k) := by
  refine ⟨?_, ⟨rfl, rfl, rfl⟩,
    setBasalHeatFlux_withColumns m c Enth Enth_s R u v w Sigma hf hks hE hR hu hv hS, ?_⟩
  · intro k hk0 hk
    rw [assemble_R_at (withColumns c Enth Enth_s R u v w Sigma) k hk0 hk,
      assemble_R_at c k hk0 hk]
    show (if Enth k < Enth_s k then c.iceRcold else c.iceRtemp) = _
    rw [hE k hk0 hk, hEs k hk0 hk]
  · obtain ⟨d, hd, -, hD0, hU0, hr0, hrows, hLks, hDks, hrks⟩ :=
      assembleRows_rows m c a0 a1 b h0 h1 hb hks
    obtain ⟨d', hd', -, hD0', hU0', hr0', hrows', hLks', hDks', hrks'⟩ :=
      assembleRows_rows m (withColumns c Enth Enth_s R u v w Sigma) a0 a1 b h0 h1 hb hks
    have hLks2 : d'.L c.ks = 0 := hLks'
    have hDks2 : d'.D c.ks = 1 := hDks'
    have hrks2 : d'.rhs c.ks = c.Enth_ks := hrks'
    have hint : ∀ k : Int, 1 ≤ k → k < c.ks →
        d'.L k = d.L k ∧ d'.D k = d.D k ∧ d'.U k = d.U k ∧ d'.rhs k = d.rhs k := by
      intro k hk1 hk
      obtain ⟨hL, hD, hU, hr⟩ := hrows k hk1 hk
      obtain ⟨hL', hD', hU', hr'⟩ := hrows' k hk1 hk
      rw [hL, hD, hU, hr, hL', hD', hU', hr',
        interiorL_withColumns c Enth Enth_s R u v w Sigma k hk1 hk hR hw,
        interiorD_withColumns c Enth Enth_s R u v w Sigma k hk1 hk hR hw,
        interiorU_withColumns c Enth Enth_s R u v w Sigma k hk1 hk hR hw,
        interiorRhs_withColumns m c Enth Enth_s R u v w Sigma k (by omega) (by omega)
          hE hu hv hS]
      exact ⟨rfl, rfl, rfl, rfl⟩
    refine ⟨d, d', hd, hd', ?_, ?_, ?_⟩
    · intro k hk0 hk
      rcases eq_or_lt_of_le hk0 with h | h
      · rw [← h, hD0, hD0', hr0, hr0']
        exact ⟨rfl, rfl⟩
      · rcases eq_or_lt_of_le hk with h' | h'
        · rw [h', hDks, hDks2, hrks, hrks2]
          exact ⟨rfl, rfl⟩
        · exact ⟨(hint k (by omega) h').2.1, (hint k (by omega) h').2.2.2⟩
    · intro k hk1 hk
      rcases eq_or_lt_of_le hk with h' | h'
      · rw [h', hLks, hLks2]
      · exact (hint k hk1 h').1
    · intro k hk0 hk
      rcases eq_or_lt_of_le hk0 with h | h
      · rw [← h, hU0, hU0']
      · exact (hint k (by omega) hk).2.2.1

/-- Instance of C30 (amended): the context `exCtxSteadyRows` (`ks = 3`) with `R[4]`
replaced by `9`. -/
theorem assembler_reads_up_to_ks_witness :
    exRAbove 4 ≠ exCtxSteadyRows.R 4 ∧
    (setBasalHeatFlux exMask
      (withColumns exCtxSteadyRows exCtxSteadyRows.Enth exCtxSteadyRows.Enth_s exRAbove
        exCtxSteadyRows.u exCtxSteadyRows.v exCtxSteadyRows.w exCtxSteadyRows.Sigma) 1).a0
      = (setBasalHeatFlux exMask exCtxSteadyRows 1).a0 := by
  have hks : exCtxSteadyRows.ks = 3 := rfl
  have hrefl : ∀ f : Int → ℚ, agreeUpTo exCtxSteadyRows.ks f f := fun _ _ _ _ => rfl
  have hR : agreeUpTo exCtxSteadyRows.ks exRAbove exCtxSteadyRows.R := by
    intro k _ hk
    rw [hks] at hk
    exact setAt_other _ _ _ _ (by omega)
  have hne : exRAbove 4 ≠ exCtxSteadyRows.R 4 := by
    have h9 : exRAbove 4 = 9 := setAt_same _ _ _
    have h0 : exCtxSteadyRows.R 4 = 0 := by
      show (assemble_R _).R 4 = 0
      simp only [assemble_R]
      rw [storeLoop_at]
      norm_num [exCtxSteady, exCtx, initAllColumns, newEnthSystemCtx]
    rw [h9, h0]
    norm_num
  exact ⟨hne,
    (assembler_reads_up_to_ks exMask exCtxSteadyRows exCtxSteadyRows.Enth
      exCtxSteadyRows.Enth_s exRAbove exCtxSteadyRows.u exCtxSteadyRows.v exCtxSteadyRows.w
      exCtxSteadyRows.Sigma 1 50 1 0 50 (by rw [hks]; norm_num) (hrefl _) (hrefl _) hR
      (hrefl _) (hrefl _) (hrefl _) (hrefl _) rfl rfl rfl).2.2.1.1⟩

/-! ## The bulge counter in general -/

theorem bulgeLevel_bulgeCount (lim : ℚ) (k : Int) (s : BulgeState) :
    (bulgeLevel lim k s).bulgeCount
      = s.bulgeCount + if s.Enthnew k < lim then 1 else 0 := by
  unfold bulgeLevel
  split_ifs
  · rfl
  · rw [add_zero]

/-- The bulge-limiter loop adds to `bulgeCount` the number of levels it clamps. -/
theorem bulgeLoop_bulgeCount (lim : ℚ) (n : Nat) (s : BulgeState) :
    (forLoop 0 (bulgeLevel lim) n s).bulgeCount
      = s.bulgeCount
        + (((List.range n).countP (fun j : Nat => decide (s.Enthnew (j : Int) < lim)) : Nat) : ℚ) := by
  induction n with
  | zero =>
    show s.bulgeCount = _
    simp
  | succ n ih =>
    show (bulgeLevel lim (0 + (n : Int)) (forLoop 0 (bulgeLevel lim) n s)).bulgeCount = _
    have hE : (forLoop 0 (bulgeLevel lim) n s).Enthnew (0 + (n : Int))
        = s.Enthnew (n : Int) := by
      rw [bulgeLoop_Enthnew, if_neg (by omega), zero_add]
    rw [bulgeLevel_bulgeCount, ih, hE, List.range_succ, List.countP_append,
      List.countP_singleton]
    by_cases h : s.Enthnew (n : Int) < lim
    · simp only [h, decide_True, if_true]
      push_cast
      ring
    · simp only [h, decide_False, if_false]
      push_cast
      ring

/-- The bulge counter after a column step that reaches the bulge limiter is the counter of
the bulge-limiter loop. -/
theorem columnFinish_bulgeCount (env : StepEnv) (inp : ColumnInput) (st : StepState)
    (vbmr0 : ℚ) (c1 : enthSystemCtx) (x1 : Int → ℚ) :
    (columnFinish env inp st vbmr0 c1 x1).bulgeCount
      = (bulgeLimiter (columnEnth_ks env.EC env.grid inp) env.cfg.bulgeEnthMax
          (columnKs env.grid inp)
          (drainColumn env.EC env.dc env.grid env.cfg inp.vH c1.Enth_s
            (columnKs env.grid inp) x1 st.liquifiedCount).Enthnew
          st.bulgeCount).bulgeCount :=
  rfl

/-! ## Lemmas on the map-plane loops -/

theorem setAt2_apply {α : Type} (f : Int → Int → α) (i j : Int) (v : α) (i' j' : Int) :
    setAt2 f i j v i' j' = if i' = i ∧ j' = j then v else f i' j' :=
  rfl

/-- The inner loop of `gridLoop` over `j`, for a fixed `i`. -/
theorem rowLoop_at (f : Int → Int → ℚ) (i lo : Int) (n : Nat) (a : Int → Int → ℚ)
    (i' j' : Int) :
    forLoop lo (fun j a2 => setAt2 a2 i j (f i j)) n a i' j'
      = if i' = i ∧ lo ≤ j' ∧ j' < lo + (n : Int) then f i' j' else a i' j' := by
  induction n with
  | zero =>
    have : ¬ (i' = i ∧ lo ≤ j' ∧ j' < lo + ((0 : Nat) : Int)) := by omega
    rw [if_neg this]
    rfl
  | succ n ih =>
    show setAt2 (forLoop lo (fun j a2 => setAt2 a2 i j (f i j)) n a) i (lo + (n : Int))
      (f i (lo + (n : Int))) i' j' = _
    rw [setAt2_apply, ih]
    by_cases h : i' = i ∧ j' = lo + (n : Int)
    · rw [if_pos h, if_pos ⟨h.1, by push_cast; omega⟩, h.1, h.2]
    · rw [if_neg h]
      by_cases h2 : i' = i ∧ lo ≤ j' ∧ j' < lo + (n : Int)
      · rw [if_pos h2, if_pos ⟨h2.1, by push_cast; omega⟩]
      · rw [if_neg h2, if_neg (by push_cast; omega)]

/-- The double loop over `n` rows `i` and `p` columns `j`. -/
theorem gridLoop_rows (f : Int → Int → ℚ) (xs ys : Int) (n p : Nat) (a : Int → Int → ℚ)
    (i' j' : Int) :
    forLoop xs (fun i a1 => forLoop ys (fun j a2 => setAt2 a2 i j (f i j)) p a1) n a i' j'
      = if xs ≤ i' ∧ i' < xs + (n : Int) ∧ ys ≤ j' ∧ j' < ys + (p : Int) then f i' j'
        else a i' j' := by
  induction n with
  | zero =>
    have : ¬ (xs ≤ i' ∧ i' < xs + ((0 : Nat) : Int) ∧ ys ≤ j' ∧ j' < ys + (p : Int)) := by
      omega
    rw [if_neg this]
    rfl
  | succ n ih =>
    show forLoop ys (fun j a2 => setAt2 a2 (xs + (n : Int)) j (f (xs + (n : Int)) j)) p
      (forLoop xs (fun i a1 => forLoop ys (fun j a2 => setAt2 a2 i j (f i j)) p a1) n a)
      i' j' = _
    rw [rowLoop_at, ih]
    by_cases h : i' = xs + (n : Int) ∧ ys ≤ j' ∧ j' < ys + (p : Int)
    · rw [if_pos h, if_pos (by push_cast; omega)]
    · rw [if_neg h]
      by_cases h2 : xs ≤ i' ∧ i' < xs + (n : Int) ∧ ys ≤ j' ∧ j' < ys + (p : Int)
      · rw [if_pos h2, if_pos (by push_cast; omega)]
      · rw [if_neg h2, if_neg (by push_cast; omega)]

/-- The array written by `gridLoop` holds `f i j` at every owned cell. -/
theorem gridLoop_owned (g : OwnedGrid) (f : Int → Int → ℚ) (a : Int → Int → ℚ) (i j : Int)
    (h : ownedCell g i j) : gridLoop g f a i j = f i j := by
  obtain ⟨h1, h2, h3, h4⟩ := h
  unfold gridLoop gridFold
  rw [gridLoop_rows, if_pos]
  refine ⟨h1, ?_, h3, ?_⟩
  · rw [Int.toNat_of_nonneg (by omega)]
    exact h2
  · rw [Int.toNat_of_nonneg (by omega)]
    exact h4

/-! ## Claims on `fixDryWall_bwat` and `diffuse_bwat` -/

/-- C34: when all values of `vHmelt` lie in `[0, hmelt_max]`, the value that
`fixDryWall_bwat` writes at every owned cell lies in `[0, hmelt_max]`: it is either the old
value or the literal `2`, and `2` is written only next to a cell that holds the value `2`. -/
theorem fixDryWall_bwat_in_range (mask : MaskQuery) (g : OwnedGrid)
    (vbed vHmelt bwatnew : Int → Int → ℚ) (hmelt_max : ℚ)
    (hr : fieldInRange hmelt_max vHmelt) (i j : Int) (ho : ownedCell g i j) :
    0 ≤ fixDryWall_bwat mask g vbed vHmelt bwatnew i j ∧
      fixDryWall_bwat mask g vbed vHmelt bwatnew i j ≤ hmelt_max := by
  unfold fixDryWall_bwat
  rw [gridLoop_owned g _ bwatnew i j ho]
  unfold dryWallValue
  split_ifs with h
  · refine ⟨by norm_num, ?_⟩
    rcases h.2.2.2 with h2 | h2 | h2 | h2
    · rw [← h2.1]
      exact (hr _ _).2
    · rw [← h2.1]
      exact (hr _ _).2
    · rw [← h2.1]
      exact (hr _ _).2
    · rw [← h2.1]
      exact (hr _ _).2
  · exact hr i j

/-- Instance of C34: on the grid `exOwned` with the mask `exMaskQuery`, a bed below sea level
and the water layer `exBwatField` (values in `[0, 2]`), the cell `(1,1)` is raised from `1`
to `2`. -/
theorem fixDryWall_bwat_in_range_witness :
    exBwatField 1 1 = 1 ∧
    fixDryWall_bwat exMaskQuery exOwned (fun _ _ => -1) exBwatField (fun _ _ => 0) 1 1 = 2 ∧
    0 ≤ fixDryWall_bwat exMaskQuery exOwned (fun _ _ => -1) exBwatField (fun _ _ => 0) 1 1 ∧
    fixDryWall_bwat exMaskQuery exOwned (fun _ _ => -1) exBwatField (fun _ _ => 0) 1 1
      ≤ 2 := by
  have ho : ownedCell exOwned 1 1 := by
    unfold ownedCell exOwned
    norm_num
  have hr : fieldInRange 2 exBwatField := by
    intro i j
    unfold exBwatField
    split_ifs <;> norm_num
  have hv : fixDryWall_bwat exMaskQuery exOwned (fun _ _ => -1) exBwatField (fun _ _ => 0)
      1 1 = 2 := by
    unfold fixDryWall_bwat
    rw [gridLoop_owned exOwned _ _ 1 1 ho]
    norm_num [dryWallValue, exMaskQuery, exBwatField]
  exact ⟨by norm_num [exBwatField], hv,
    fixDryWall_bwat_in_range exMaskQuery exOwned (fun _ _ => -1) exBwatField (fun _ _ => 0)
      2 hr 1 1 ho⟩

/-- A combination of five values with weights `a`, `rx`, `rx`, `ry`, `ry` that are
non-negative and sum to `1` lies between any lower and upper bound of the values. -/
theorem convex_stencil_bounds (a rx ry v0 v1 v2 v3 v4 m M : ℚ)
    (ha : a = 1 - 2 * rx - 2 * ry) (h0 : 0 ≤ a) (hrx : 0 ≤ rx) (hry : 0 ≤ ry)
    (hm0 : m ≤ v0) (hm1 : m ≤ v1) (hm2 : m ≤ v2) (hm3 : m ≤ v3) (hm4 : m ≤ v4)
    (hM0 : v0 ≤ M) (hM1 : v1 ≤ M) (hM2 : v2 ≤ M) (hM3 : v3 ≤ M) (hM4 : v4 ≤ M) :
    m ≤ a * v0 + rx * (v1 + v2) + ry * (v3 + v4) ∧
      a * v0 + rx * (v1 + v2) + ry * (v3 + v4) ≤ M := by
  have e1 : a * v0 + rx * (v1 + v2) + ry * (v3 + v4) - m
      = a * (v0 - m) + rx * (v1 - m) + rx * (v2 - m) + ry * (v3 - m) + ry * (v4 - m) := by
    rw [ha]
    ring
  have e2 : M - (a * v0 + rx * (v1 + v2) + ry * (v3 + v4))
      = a * (M - v0) + rx * (M - v1) + rx * (M - v2) + ry * (M - v3) + ry * (M - v4) := by
    rw [ha]
    ring
  have p1 : 0 ≤ a * (v0 - m) + rx * (v1 - m) + rx * (v2 - m) + ry * (v3 - m)
      + ry * (v4 - m) := by
    have := mul_nonneg h0 (sub_nonneg.mpr hm0)
    have := mul_nonneg hrx (sub_nonneg.mpr hm1)
    have := mul_nonneg hrx (sub_nonneg.mpr hm2)
    have := mul_nonneg hry (sub_nonneg.mpr hm3)
    have := mul_nonneg hry (sub_nonneg.mpr hm4)
    linarith
  have p2 : 0 ≤ a * (M - v0) + rx * (M - v1) + rx * (M - v2) + ry * (M - v3)
      + ry * (M - v4) := by
    have := mul_nonneg h0 (sub_nonneg.mpr hM0)
    have := mul_nonneg hrx (sub_nonneg.mpr hM1)
    have := mul_nonneg hrx (sub_nonneg.mpr hM2)
    have := mul_nonneg hry (sub_nonneg.mpr hM3)
    have := mul_nonneg hry (sub_nonneg.mpr hM4)
    linarith
  constructor
  · linarith
  · linarith

/-- C40: `diffuse_bwat` fails (non-zero error code) exactly when `1 - 2*Rx - 2*Ry ≤ 0`.
When it does not fail and `Rx, Ry ≥ 0`, the new value of every owned cell is the combination
of the old values of the cell and of its four neighbours with the weights `1-2Rx-2Ry`, `Rx`,
`Rx`, `Ry`, `Ry`, which are non-negative and sum to `1`; it lies between the minimum and
the maximum of these five values, and in `[0, hmelt_max]` when all old values do. -/
theorem diffuse_bwat_maximum_principle (cfg : BwatConfig) (g : OwnedGrid)
    (vHmelt bwatnew : Int → Int → ℚ)
    (hRx : 0 ≤ bwatRx cfg g) (hRy : 0 ≤ bwatRy cfg g) :
    ((diffuse_bwat cfg g vHmelt bwatnew).1 ≠ 0 ↔ bwatOneM4R cfg g ≤ 0) ∧
    (0 < bwatOneM4R cfg g → ∀ i j : Int, ownedCell g i j →
      (diffuse_bwat cfg g vHmelt bwatnew).2 i j
        = bwatOneM4R cfg g * vHmelt i j
          + bwatRx cfg g * vHmelt (i + 1) j + bwatRx cfg g * vHmelt (i - 1) j
          + bwatRy cfg g * vHmelt i (j + 1) + bwatRy cfg g * vHmelt i (j - 1) ∧
      bwatOneM4R cfg g + bwatRx cfg g + bwatRx cfg g + bwatRy cfg g + bwatRy cfg g = 1 ∧
      min (vHmelt i j) (min (vHmelt (i + 1) j) (min (vHmelt (i - 1) j)
          (min (vHmelt i (j + 1)) (vHmelt i (j - 1)))))
        ≤ (diffuse_bwat cfg g vHmelt bwatnew).2 i j ∧
      (diffuse_bwat cfg g vHmelt bwatnew).2 i j
        ≤ max (vHmelt i j) (max (vHmelt (i + 1) j) (max (vHmelt (i - 1) j)
          (max (vHmelt i (j + 1)) (vHmelt i (j - 1))))) ∧
      (∀ hmelt_max : ℚ, fieldInRange hmelt_max vHmelt →
        0 ≤ (diffuse_bwat cfg g vHmelt bwatnew).2 i j ∧
          (diffuse_bwat cfg g vHmelt bwatnew).2 i j ≤ hmelt_max)) := by
  constructor
  · unfold diffuse_bwat
    by_cases h : bwatOneM4R cfg g ≤ 0
    · rw [if_pos h]
      exact ⟨fun _ => h, fun _ => by norm_num⟩
    · rw [if_neg h]
      exact ⟨fun hne => absurd rfl hne, fun h2 => absurd h2 h⟩
  · intro hpos i j ho
    have hval : (diffuse_bwat cfg g vHmelt bwatnew).2 i j
        = bwatOneM4R cfg g * vHmelt i j
          + bwatRx cfg g * (vHmelt (i + 1) j + vHmelt (i - 1) j)
          + bwatRy cfg g * (vHmelt i (j + 1) + vHmelt i (j - 1)) := by
      unfold diffuse_bwat
      rw [if_neg (not_le.mpr hpos)]
      show gridLoop g (bwatStencil cfg g vHmelt) bwatnew i j = _
      rw [gridLoop_owned g _ bwatnew i j ho]
      rfl
    have hsum : bwatOneM4R cfg g = 1 - 2 * bwatRx cfg g - 2 * bwatRy cfg g := rfl
    rw [hval]
    refine ⟨by ring, by rw [hsum]; ring, ?_, ?_, ?_⟩
    · exact (convex_stencil_bounds _ _ _ _ _ _ _ _ _
        (max (vHmelt i j) (max (vHmelt (i + 1) j) (max (vHmelt (i - 1) j)
          (max (vHmelt i (j + 1)) (vHmelt i (j - 1))))))
        hsum hpos.le hRx hRy
        (min_le_left _ _)
        ((min_le_right _ _).trans (min_le_left _ _))
        ((min_le_right _ _).trans ((min_le_right _ _).trans (min_le_left _ _)))
        ((min_le_right _ _).trans ((min_le_right _ _).trans
          ((min_le_right _ _).trans (min_le_left _ _))))
        ((min_le_right _ _).trans ((min_le_right _ _).trans
          ((min_le_right _ _).trans (min_le_right _ _))))
        (le_max_left _ _)
        ((le_max_left _ _).trans (le_max_right _ _))
        ((le_max_left _ _).trans ((le_max_right _ _).trans (le_max_right _ _)))
        ((le_max_left _ _).trans ((le_max_right _ _).trans
          ((le_max_right _ _).trans (le_max_right _ _))))
        ((le_max_right _ _).trans ((le_max_right _ _).trans
          ((le_max_right _ _).trans (le_max_right _ _))))).1
    · exact (convex_stencil_bounds _ _ _ _ _ _ _ _
        (min (vHmelt i j) (min (vHmelt (i + 1) j) (min (vHmelt (i - 1) j)
          (min (vHmelt i (j + 1)) (vHmelt i (j - 1)))))) _
        hsum hpos.le hRx hRy
        (min_le_left _ _)
        ((min_le_right _ _).trans (min_le_left _ _))
        ((min_le_right _ _).trans ((min_le_right _ _).trans (min_le_left _ _)))
        ((min_le_right _ _).trans ((min_le_right _ _).trans
          ((min_le_right _ _).trans (min_le_left _ _))))
        ((min_le_right _ _).trans ((min_le_right _ _).trans
          ((min_le_right _ _).trans (min_le_right _ _))))
        (le_max_left _ _)
        ((le_max_left _ _).trans (le_max_right _ _))
        ((le_max_left _ _).trans ((le_max_right _ _).trans (le_max_right _ _)))
        ((le_max_left _ _).trans ((le_max_right _ _).trans
          ((le_max_right _ _).trans (le_max_right _ _))))
        ((le_max_right _ _).trans ((le_max_right _ _).trans
          ((le_max_right _ _).trans (le_max_right _ _))))).2
    · intro hmelt_max hr
      exact convex_stencil_bounds _ _ _ _ _ _ _ _ 0 hmelt_max hsum hpos.le hRx hRy
        (hr _ _).1 (hr _ _).1 (hr _ _).1 (hr _ _).1 (hr _ _).1
        (hr _ _).2 (hr _ _).2 (hr _ _).2 (hr _ _).2 (hr _ _).2

/-- Instance of C40: on the grid `exOwned` with `Rx = Ry = 1/8` the cell `(1,1)` of the water
layer `exBwatField` (old value `1`, neighbours `2`, `2`, `1`, `1`) gets a value between the
minimum and the maximum of these five values. -/
theorem diffuse_bwat_maximum_principle_witness :
    bwatRx exBwat exOwned = 1 / 8 ∧ bwatRy exBwat exOwned = 1 / 8 ∧
    bwatOneM4R exBwat exOwned = 1 / 2 ∧
    min (exBwatField 1 1) (min (exBwatField (1 + 1) 1) (min (exBwatField (1 - 1) 1)
        (min (exBwatField 1 (1 + 1)) (exBwatField 1 (1 - 1)))))
      ≤ (diffuse_bwat exBwat exOwned exBwatField (fun _ _ => 0)).2 1 1 ∧
    (diffuse_bwat exBwat exOwned exBwatField (fun _ _ => 0)).2 1 1
      ≤ max (exBwatField 1 1) (max (exBwatField (1 + 1) 1) (max (exBwatField (1 - 1) 1)
        (max (exBwatField 1 (1 + 1)) (exBwatField 1 (1 - 1))))) := by
  have hRx : bwatRx exBwat exOwned = 1 / 8 := by
    norm_num [bwatRx, bwatK, exBwat, exOwned, secpera]
  have hRy : bwatRy exBwat exOwned = 1 / 8 := by
    norm_num [bwatRy, bwatK, exBwat, exOwned, secpera]
  have hone : bwatOneM4R exBwat exOwned = 1 / 2 := by
    unfold bwatOneM4R
    rw [hRx, hRy]
    norm_num
  have ho : ownedCell exOwned 1 1 := by
    unfold ownedCell exOwned
    norm_num
  have h := (diffuse_bwat_maximum_principle exBwat exOwned exBwatField (fun _ _ => 0)
    (by rw [hRx]; norm_num) (by rw [hRy]; norm_num)).2 (by rw [hone]; norm_num) 1 1 ho
  exact ⟨hRx, hRy, hone, h.2.2.1, h.2.2.2.1⟩

/-- With `Rx = Ry = 1/2` the explicit step is unstable and `diffuse_bwat` returns the error
code `1`. -/
theorem diffuse_bwat_unstable (vHmelt bwatnew : Int → Int → ℚ) :
    bwatOneM4R exBwatUnstable exOwned = -1 ∧
      (diffuse_bwat exBwatUnstable exOwned vHmelt bwatnew).1 = 1 := by
  have hone : bwatOneM4R exBwatUnstable exOwned = -1 := by
    norm_num [bwatOneM4R, bwatRx, bwatRy, bwatK, exBwatUnstable, exOwned, secpera]
  refine ⟨hone, ?_⟩
  unfold diffuse_bwat
  rw [if_pos (by rw [hone]; norm_num)]

/-! ## Claims on the rows: constants, basal heat flux -/

/-- C36: in a column with `ks ≥ 1` whose basal coefficients are set, every interior row
`1 ≤ k < ks` assembled by `solveThisColumn` has `L[k] + D[k] + U[k] = 1`, for every `R`,
`w[k]`, `nuEQ` and `lambda` (both sign branches of `w[k]`); and the Neumann basal row set by
`setBasalHeatFlux` has `a0 + a1 = 1`. -/
theorem rows_preserve_constants (m : Mask) (c : enthSystemCtx) (hf a0 a1 b : ℚ)
    (h0 : c.a0 = some a0) (h1 : c.a1 = some a1) (hb : c.b = some b) (hks : 1 ≤ c.ks) :
    (∃ c' : enthSystemCtx, assembleRows m c = some c' ∧
      ∀ k : Int, 1 ≤ k → k < c.ks → c'.L k + c'.D k + c'.U k = 1) ∧
    (∀ k : Int, interiorL c k + interiorD c k + interiorU c k = 1) ∧
    (∃ n0 n1 : ℚ, (setBasalHeatFlux m c hf).a0 = some n0 ∧
      (setBasalHeatFlux m c hf).a1 = some n1 ∧ n0 + n1 = 1) := by
  refine ⟨?_, interior_row_sum c, ?_⟩
  · obtain ⟨c', hc', -, -, -, -, hint, -⟩ := assembleRows_rows m c a0 a1 b h0 h1 hb hks
    refine ⟨c', hc', ?_⟩
    intro k hk1 hk
    obtain ⟨hL, hD, hU, -⟩ := hint k hk1 hk
    rw [hL, hD, hU]
    exact interior_row_sum c k
  · refine ⟨_, _, rfl, rfl, ?_⟩
    ring

/-- Instance of C36: the rows of the context `exCtxSteadyRows` (`ks = 3`). -/
theorem rows_preserve_constants_witness :
    (∃ c' : enthSystemCtx, assembleRows exMask exCtxSteadyRows = some c' ∧
      ∀ k : Int, 1 ≤ k → k < exCtxSteadyRows.ks → c'.L k + c'.D k + c'.U k = 1) ∧
    (∃ n0 n1 : ℚ, (setBasalHeatFlux exMask exCtxSteadyRows 1).a0 = some n0 ∧
      (setBasalHeatFlux exMask exCtxSteadyRows 1).a1 = some n1 ∧ n0 + n1 = 1) :=
  ⟨(rows_preserve_constants exMask exCtxSteadyRows 1 1 0 50 rfl rfl rfl
      (by show (1 : Int) ≤ 3; norm_num)).1,
    (rows_preserve_constants exMask exCtxSteadyRows 1 1 0 50 rfl rfl rfl
      (by show (1 : Int) ≤ 3; norm_num)).2.2⟩

/-- C37: for `R[0] ≠ 0`, `dt > 0`, `dz > 0` and `ice_rho > 0` the right-hand side set by
`setBasalHeatFlux` is
`b = Enth[0] + 2*hf*dt/(ice_rho*dz) + dt*(Sigma[0]/ice_rho - UpEnthu - UpEnthv)`, whatever
`R[0]` and `R[1]` are; for `hf = 0` it is
`Enth[0] + dt*(Sigma[0]/ice_rho - UpEnthu - UpEnthv)`. -/
theorem setBasalHeatFlux_rhs (m : Mask) (c : enthSystemCtx) (hf : ℚ)
    (hR : c.R 0 ≠ 0) (hdt : 0 < c.dtTemp) (hdz : 0 < c.dzEQ) (hrho : 0 < c.ice_rho) :
    (setBasalHeatFlux m c hf).b
      = some (c.Enth 0 + 2 * hf * c.dtTemp / (c.ice_rho * c.dzEQ)
          + c.dtTemp * ((c.Sigma 0 / c.ice_rho) - (setBasalHeatFlux m c hf).UpEnthu
              - (setBasalHeatFlux m c hf).UpEnthv)) ∧
    (setBasalHeatFlux m c 0).b
      = some (c.Enth 0
          + c.dtTemp * ((c.Sigma 0 / c.ice_rho) - (setBasalHeatFlux m c 0).UpEnthu
              - (setBasalHeatFlux m c 0).UpEnthv)) := by
  have hkey : ∀ h : ℚ,
      c.R 0 * (- 2 * c.dzEQ * (- h / ((c.ice_rho * PetscSqr c.dzEQ * c.R 0) / c.dtTemp)))
        = 2 * h * c.dtTemp / (c.ice_rho * c.dzEQ) := by
    intro h
    unfold PetscSqr
    have h1 := hdt.ne'
    have h2 := hdz.ne'
    have h3 := hrho.ne'
    field_simp
    ring
  constructor
  · show some (c.Enth 0
        + c.R 0 * (- 2 * c.dzEQ * (- hf / ((c.ice_rho * PetscSqr c.dzEQ * c.R 0) / c.dtTemp)))
        + c.dtTemp * ((c.Sigma 0 / c.ice_rho) - (upwindTerms m c 0).1
            - (upwindTerms m c 0).2)) = _
    rw [hkey hf]
    rfl
  · show some (c.Enth 0
        + c.R 0 * (- 2 * c.dzEQ * (- 0 / ((c.ice_rho * PetscSqr c.dzEQ * c.R 0) / c.dtTemp)))
        + c.dtTemp * ((c.Sigma 0 / c.ice_rho) - (upwindTerms m c 0).1
            - (upwindTerms m c 0).2)) = _
    rw [hkey 0, mul_zero, zero_mul, zero_div, add_zero]
    rfl

/-- Instance of C37: the context `exCtxSteadyRows` (`R[0] = 4`, `dt = 4`, `dz = 1`,
`ice_rho = 1`, `Enth[0] = 50`, no source, no advection) with `hf = 1`: `b = 58`. -/
theorem setBasalHeatFlux_rhs_witness :
    (setBasalHeatFlux exMask exCtxSteadyRows 1).b
      = some (exCtxSteadyRows.Enth 0
          + 2 * 1 * exCtxSteadyRows.dtTemp / (exCtxSteadyRows.ice_rho * exCtxSteadyRows.dzEQ)
          + exCtxSteadyRows.dtTemp * ((exCtxSteadyRows.Sigma 0 / exCtxSteadyRows.ice_rho)
              - (setBasalHeatFlux exMask exCtxSteadyRows 1).UpEnthu
              - (setBasalHeatFlux exMask exCtxSteadyRows 1).UpEnthv)) :=
  (setBasalHeatFlux_rhs exMask exCtxSteadyRows 1
    (by rw [exCtxSteadyRows_R 0 (le_refl _) (by norm_num)]; norm_num)
    (by show (0 : ℚ) < 4; norm_num) (by show (0 : ℚ) < 1; norm_num)
    (by show (0 : ℚ) < 1; norm_num)).1

/-! ## Claims on the ice-free test -/

/-- C39: for `dz_fine > 0` and thickness `H ≥ 0` the column is treated as ice-free
(`ks = floor(H/dz_fine) = 0`) if and only if `H < dz_fine`; a column with `0 ≤ H < dz_fine`
is not solved: the step succeeds without touching the column system, does not depend on the
tridiagonal solver, and writes the surface enthalpy at every level. -/
theorem ice_free_iff_thin (env : StepEnv) (inp : ColumnInput) (st : StepState)
    (hdz : 0 < env.grid.dz_fine) (hH : 0 ≤ inp.vH) :
    (columnKs env.grid inp = 0 ↔ inp.vH < env.grid.dz_fine) ∧
    (inp.vH < env.grid.dz_fine →
      (columnStep env inp st).1 = 0 ∧
      (∀ k : Int, (columnStep env inp st).2.vWork3d inp.i inp.j k
        = columnEnth_ks env.EC env.grid inp) ∧
      (columnStep env inp st).2.esys = st.esys ∧
      ∀ solver : TridiagonalSolver,
        columnStep { env with solver := solver } inp st = columnStep env inp st) := by
  have hiff : columnKs env.grid inp = 0 ↔ inp.vH < env.grid.dz_fine := by
    unfold columnKs
    rw [Int.floor_eq_zero_iff]
    constructor
    · intro h
      exact (div_lt_one hdz).mp h.2
    · intro h
      exact ⟨div_nonneg hH hdz.le, (div_lt_one hdz).mpr h⟩
  refine ⟨hiff, ?_⟩
  intro hthin
  have hks := hiff.mpr hthin
  rw [columnStep_ice_free env inp st hks, columnIceFree_eq]
  refine ⟨rfl, ?_, rfl, ?_⟩
  · intro k
    show setAt2 st.vWork3d inp.i inp.j (fun _ => columnEnth_ks env.EC env.grid inp)
      inp.i inp.j k = _
    rw [setAt2_same]
  · intro solver
    rw [← columnIceFree_eq]
    exact columnStep_ice_free { env with solver := solver } inp st hks

/-- Instance of C39: a column of thickness `1/2` on the grid with `dz_fine = 1`. -/
theorem ice_free_iff_thin_witness :
    columnKs exEnv.grid { exInpWet with vH := 1 / 2 } = 0 ∧
    (columnStep exEnv { exInpWet with vH := 1 / 2 } exState).1 = 0 ∧
    (∀ k : Int, (columnStep exEnv { exInpWet with vH := 1 / 2 } exState).2.vWork3d 0 0 k
      = 50) := by
  have h := ice_free_iff_thin exEnv { exInpWet with vH := 1 / 2 } exState
    (by show (0 : ℚ) < 1; norm_num) (by show (0 : ℚ) ≤ 1 / 2; norm_num)
  have hthin : ({ exInpWet with vH := 1 / 2 } : ColumnInput).vH < exEnv.grid.dz_fine := by
    show (1 / 2 : ℚ) < 1
    norm_num
  exact ⟨h.1.mpr hthin, (h.2 hthin).1, (h.2 hthin).2.1⟩

/-! ## Claims on the level of the neighbour values -/

/-- In a column that is not marginal the horizontal terms at every level `k` are built from
the plane star at level `0`. -/
theorem upwindTerms_level_zero (m : Mask) (c : enthSystemCtx) (k : Int)
    (hm : c.ismarginal = false) :
    (upwindTerms m c k).1
      = (if c.u k < 0 then
           c.u k * ((c.getPlaneStar_fine c.i c.j 0).e - (c.getPlaneStar_fine c.i c.j 0).ij)
             / c.dx
         else
           c.u k * ((c.getPlaneStar_fine c.i c.j 0).ij - (c.getPlaneStar_fine c.i c.j 0).w)
             / c.dx) ∧
    (upwindTerms m c k).2
      = (if c.v k < 0 then
           c.v k * ((c.getPlaneStar_fine c.i c.j 0).n - (c.getPlaneStar_fine c.i c.j 0).ij)
             / c.dy
         else
           c.v k * ((c.getPlaneStar_fine c.i c.j 0).ij - (c.getPlaneStar_fine c.i c.j 0).s)
             / c.dy) := by
  unfold upwindTerms
  simp only [hm]
  exact ⟨rfl, rfl⟩

theorem exCtxLevels_upwind (k : Int) : upwindTerms exMask exCtxLevels k = (0, 0) := by
  unfold upwindTerms
  norm_num [exCtxLevels, setDirichletBasal, initThisColumn, assemble_R, exEnth3Levels,
    exCtx, initAllColumns, newEnthSystemCtx]

/-- C31, evaluated at a failing input: the column `exCtxLevels` is not marginal, `u[1] = -1`,
and at level `1` the east neighbour holds `60` against `50` at the point, so the same-level
term is `u[1]*(E_east(1) - E(1))/dx = -10` and would give `rhs[1] = 90`; the code reads the
plane star at level `0`, where the east neighbour holds `50`, and assembles `UpEnthu = 0` and
`rhs[1] = 50`. -/
theorem solveThisColumn_advects_level_zero :
    exCtxLevels.ismarginal = false ∧ exCtxLevels.u 1 = -1 ∧
    (exCtxLevels.getPlaneStar_fine exCtxLevels.i exCtxLevels.j 1).e = 60 ∧
    (exCtxLevels.getPlaneStar_fine exCtxLevels.i exCtxLevels.j 1).ij = 50 ∧
    (exCtxLevels.getPlaneStar_fine exCtxLevels.i exCtxLevels.j 0).e = 50 ∧
    (upwindTerms exMask exCtxLevels 1).1 = 0 ∧
    (upwindTerms exMask exCtxLevels 1).1
      ≠ exCtxLevels.u 1
          * ((exCtxLevels.getPlaneStar_fine exCtxLevels.i exCtxLevels.j 1).e
              - (exCtxLevels.getPlaneStar_fine exCtxLevels.i exCtxLevels.j 1).ij)
          / exCtxLevels.dx ∧
    ∃ c' : enthSystemCtx, assembleRows exMask exCtxLevels = some c' ∧ c'.rhs 1 = 50 ∧
      c'.rhs 1 ≠ exCtxLevels.Enth 1
        + exCtxLevels.dtTemp * ((exCtxLevels.Sigma 1 / exCtxLevels.ice_rho)
            - exCtxLevels.u 1
                * ((exCtxLevels.getPlaneStar_fine exCtxLevels.i exCtxLevels.j 1).e
                    - (exCtxLevels.getPlaneStar_fine exCtxLevels.i exCtxLevels.j 1).ij)
                / exCtxLevels.dx
            - 0) := by
  obtain ⟨c', hc', -, -, -, -, hint, -⟩ := assembleRows_rows exMask exCtxLevels 1 0 50
    rfl rfl rfl (by show (1 : Int) ≤ 3; norm_num)
  obtain ⟨-, -, -, hr⟩ := hint 1 (le_refl _) (by show (1 : Int) < 3; norm_num)
  have hr2 : c'.rhs 1 = 50 := by
    rw [hr]
    unfold interiorRhs
    dsimp only
    rw [exCtxLevels_upwind]
    norm_num [exCtxLevels, setDirichletBasal, initThisColumn, assemble_R, exEnthCold, exCtx,
      initAllColumns, newEnthSystemCtx]
  have he1 : (exCtxLevels.getPlaneStar_fine exCtxLevels.i exCtxLevels.j 1).e = 60 := by
    show (50 : ℚ) + 10 * ((1 : Int) : ℚ) = 60
    norm_num
  have he0 : (exCtxLevels.getPlaneStar_fine exCtxLevels.i exCtxLevels.j 0).e = 50 := by
    show (50 : ℚ) + 10 * ((0 : Int) : ℚ) = 50
    norm_num
  have hij : (exCtxLevels.getPlaneStar_fine exCtxLevels.i exCtxLevels.j 1).ij = 50 := rfl
  have hu : exCtxLevels.u 1 = -1 := rfl
  have hdx : exCtxLevels.dx = 1 := rfl
  have hdt : exCtxLevels.dtTemp = 4 := rfl
  have hrho : exCtxLevels.ice_rho = 1 := rfl
  have hS : exCtxLevels.Sigma 1 = 0 := rfl
  have hE : exCtxLevels.Enth 1 = 50 := rfl
  refine ⟨rfl, hu, he1, hij, he0, by rw [exCtxLevels_upwind], ?_, c', hc', hr2, ?_⟩
  · rw [exCtxLevels_upwind, he1, hij, hu, hdx]
    norm_num
  · rw [hr2, he1, hij, hu, hdx, hdt, hrho, hS, hE]
    norm_num

/-! ## Claims on subglacial water and the basal melt rate -/

/-- The enthalpy column of the system after the lift of a cold base over stored water. -/
theorem columnPrepare_Enth (EC : EnthalpyConverter) (grid : IceGrid) (ice : IceFlowLaw)
    (cfg : EnthConfig) (inp : ColumnInput) (esys : enthSystemCtx) :
    (columnPrepare EC grid ice cfg inp esys).esys.Enth
      = if inp.vHmelt > 0 ∧
            inp.Enth3 0 < (columnPrepare EC grid ice cfg inp esys).esys.Enth_s 0
        then setAt inp.Enth3 0 ((columnPrepare EC grid ice cfg inp esys).esys.Enth_s 0)
        else inp.Enth3 :=
  rfl

/-- Over stored water the base enthalpy of the system is `max(Enth[0], Enth_s[0])`. -/
theorem columnPrepare_Enth0_wet (EC : EnthalpyConverter) (grid : IceGrid) (ice : IceFlowLaw)
    (cfg : EnthConfig) (inp : ColumnInput) (esys : enthSystemCtx) (hw : 0 < inp.vHmelt) :
    (columnPrepare EC grid ice cfg inp esys).esys.Enth 0
      = max (inp.Enth3 0) ((columnPrepare EC grid ice cfg inp esys).esys.Enth_s 0) := by
  rw [columnPrepare_Enth]
  by_cases h : inp.Enth3 0 < (columnPrepare EC grid ice cfg inp esys).esys.Enth_s 0
  · rw [if_pos ⟨hw, h⟩, setAt_same, max_eq_right h.le]
  · rw [if_neg (fun hh => h hh.2), max_eq_left (not_lt.mp h)]

/-- C32: for a column that is not ice-free (`ks ≥ 1`) with stored water `vHmelt > 0`, the base
enthalpy of the column system, used for the regime selection, for `R[0]` and for the
right-hand side, is `max(Enth[0], Enth_s[0])`: `base_is_cold` is false, `R[0]` is the
temperate value, the only Neumann call the decision chart can make is the one with value `0`
for a temperate level `1`, and the preliminary melt rate of a column that is not floating is
the flux balance `(Rb + G0 - hf_up)/(rho*L)`, without the reset to `0` (for a floating column
it is `shelfbmassflux`). -/
theorem subglacial_water_base_at_melting (env : StepEnv) (inp : ColumnInput)
    (st : StepState) (hks : 1 ≤ columnKs env.grid inp) (hw : 0 < inp.vHmelt) :
    (columnPrepare env.EC env.grid env.ice env.cfg inp st.esys).esys.Enth 0
      = max (inp.Enth3 0)
          ((columnPrepare env.EC env.grid env.ice env.cfg inp st.esys).esys.Enth_s 0) ∧
    (columnPrepare env.EC env.grid env.ice env.cfg inp st.esys).base_is_cold = false ∧
    (columnReady env inp st).Enth 0
      = max (inp.Enth3 0)
          ((columnPrepare env.EC env.grid env.ice env.cfg inp st.esys).esys.Enth_s 0) ∧
    (columnReady env inp st).R 0 = (columnReady env inp st).iceRtemp ∧
    (∀ Y : ℚ, BasalCall.setNeumannBasal Y
        ∈ basalCalls env.EC env.cfg inp
            (columnPrepare env.EC env.grid env.ice env.cfg inp st.esys) →
      Y = 0 ∧
      (columnPrepare env.EC env.grid env.ice env.cfg inp st.esys).k1_istemperate = true) ∧
    (inp.ocean = false →
      basalMeltPrelim env inp (columnPrepare env.EC env.grid env.ice env.cfg inp st.esys)
        = (inp.Rb + inp.G0
            - (if (columnPrepare env.EC env.grid env.ice env.cfg inp st.esys).k1_istemperate
                  = true then
                - env.ice.k * (env.EC.getMeltingTemp
                      (env.EC.getPressureFromDepth (inp.vH - env.grid.dz_fine))
                    - env.EC.getMeltingTemp (env.EC.getPressureFromDepth inp.vH))
                  / env.grid.dz_fine
               else
                - (env.cfg.ice_k / env.cfg.ice_c)
                  * ((columnPrepare env.EC env.grid env.ice env.cfg inp st.esys).esys.Enth 1
                    - (columnPrepare env.EC env.grid env.ice env.cfg inp st.esys).esys.Enth 0)
                  / env.grid.dz_fine))
          / (env.ice.rho * env.cfg.L)) ∧
    (inp.ocean = true →
      basalMeltPrelim env inp (columnPrepare env.EC env.grid env.ice env.cfg inp st.esys)
        = inp.shelfbmassflux) := by
  have hE0 := columnPrepare_Enth0_wet env.EC env.grid env.ice env.cfg inp st.esys hw
  have hcold : (columnPrepare env.EC env.grid env.ice env.cfg inp st.esys).base_is_cold
      = false := by
    cases hc : (columnPrepare env.EC env.grid env.ice env.cfg inp st.esys).base_is_cold with
    | false => rfl
    | true =>
      have h := (columnPrepare_base_is_cold env.EC env.grid env.ice env.cfg inp st.esys).mp hc
      exact absurd hw (not_lt.mpr h.1)
  have hnot : ¬ (columnPrepare env.EC env.grid env.ice env.cfg inp st.esys).esys.Enth 0
      < (columnPrepare env.EC env.grid env.ice env.cfg inp st.esys).esys.Enth_s 0 := by
    rw [hE0]
    exact not_lt.mpr (le_max_right _ _)
  have hready : ∀ c : enthSystemCtx,
      c = columnInit env.EC env.grid inp
        (columnPrepare env.EC env.grid env.ice env.cfg inp st.esys) →
      c.Enth 0 = (columnPrepare env.EC env.grid env.ice env.cfg inp st.esys).esys.Enth 0 ∧
      c.R 0 = c.iceRtemp := by
    intro c hc
    rw [hc]
    refine ⟨rfl, ?_⟩
    show (assemble_R _).R 0 = _
    rw [assemble_R_at _ 0 (le_refl _) (by show 0 ≤ columnKs env.grid inp; omega)]
    exact if_neg hnot
  have hfields : (columnReady env inp st).Enth 0
        = (columnPrepare env.EC env.grid env.ice env.cfg inp st.esys).esys.Enth 0 ∧
      (columnReady env inp st).R 0 = (columnReady env inp st).iceRtemp := by
    have h := hready _ rfl
    unfold columnReady basalCalls
    dsimp only
    split_ifs <;> exact h
  refine ⟨hE0, hcold, by rw [hfields.1, hE0], hfields.2, ?_, ?_, ?_⟩
  · intro Y hY
    unfold basalCalls at hY
    dsimp only at hY
    rw [hcold] at hY
    by_cases hoc : inp.ocean = true
    · rw [if_pos hoc] at hY
      simp at hY
    · rw [if_neg hoc, if_neg (by simp)] at hY
      by_cases hk1 :
          (columnPrepare env.EC env.grid env.ice env.cfg inp st.esys).k1_istemperate = true
      · rw [if_pos hk1] at hY
        simp at hY
        exact ⟨hY, hk1⟩
      · rw [if_neg hk1] at hY
        simp at hY
  · intro hoc
    unfold basalMeltPrelim
    dsimp only
    rw [if_neg (by rw [hoc]; simp), if_neg (by rw [hcold]; simp),
      if_neg (fun h => absurd hw (not_lt.mpr h.1))]
  · intro hoc
    unfold basalMeltPrelim
    dsimp only
    rw [if_pos hoc]

/-- Instance of C32: the grounded column `exInpWet` (`ks = 2`, stored water `1`, gathered
enthalpy `50` below the melting enthalpy). -/
theorem subglacial_water_base_at_melting_witness :
    (columnPrepare exEnv.EC exEnv.grid exEnv.ice exEnv.cfg exInpWet exState.esys).esys.Enth 0
      = max (exInpWet.Enth3 0)
          ((columnPrepare exEnv.EC exEnv.grid exEnv.ice exEnv.cfg exInpWet
            exState.esys).esys.Enth_s 0) ∧
    (columnPrepare exEnv.EC exEnv.grid exEnv.ice exEnv.cfg exInpWet exState.esys).base_is_cold
      = false :=
  ⟨(subglacial_water_base_at_melting exEnv exInpWet exState
      (by show 1 ≤ columnKs exGrid exInpWet; rw [exKs_eq exInpWet rfl]; norm_num)
      (by show (0 : ℚ) < 1; norm_num)).1,
    (subglacial_water_base_at_melting exEnv exInpWet exState
      (by show 1 ≤ columnKs exGrid exInpWet; rw [exKs_eq exInpWet rfl]; norm_num)
      (by show (0 : ℚ) < 1; norm_num)).2.1⟩

theorem capLevel_Hdrainedtotal (cfg : EnthConfig) (Enth_s : Int → ℚ) (k : Int)
    (s : DrainState) : (capLevel cfg Enth_s k s).Hdrainedtotal = s.Hdrainedtotal := by
  unfold capLevel
  split_ifs <;> rfl

/-- One pass of the drainage loop body keeps `Hdrainedtotal` non-negative. -/
theorem drainLevel_Hdrainedtotal_nonneg (EC : EnthalpyConverter) (dc : DrainageCalculator ℚ)
    (grid : IceGrid) (cfg : EnthConfig) (vH : ℚ) (Enth_s : Int → ℚ) (k : Int)
    (s : DrainState) (hdt : 0 ≤ cfg.dt_secs) (hdz : 0 ≤ grid.dz_fine)
    (hD : ∀ omega : ℚ, 0 ≤ dc.get_drainage_rate omega) (hs : 0 ≤ s.Hdrainedtotal) :
    0 ≤ (drainLevel EC dc grid cfg vH Enth_s k s).Hdrainedtotal := by
  unfold drainLevel
  dsimp only
  split_ifs with h1 h2
  · show 0 ≤ (capLevel cfg Enth_s k s).Hdrainedtotal + _ * grid.dz_fine
    rw [capLevel_Hdrainedtotal]
    have hf : 0 ≤ PetscMin
        (dc.get_drainage_rate
          (EC.getWaterFraction ((capLevel cfg Enth_s k s).Enthnew k)
            (EC.getPressureFromDepth (vH - grid.zlevels_fine k))) * cfg.dt_secs)
        (EC.getWaterFraction ((capLevel cfg Enth_s k s).Enthnew k)
          (EC.getPressureFromDepth (vH - grid.zlevels_fine k)) - 0.01) := by
      rw [PetscMin_eq_min]
      exact le_min (mul_nonneg (hD _) hdt) (by linarith)
    have := mul_nonneg hf hdz
    linarith
  · rw [capLevel_Hdrainedtotal]
    exact hs
  · exact hs

/-- The drainage loop keeps `Hdrainedtotal` non-negative. -/
theorem drainLoop_Hdrainedtotal_nonneg (EC : EnthalpyConverter) (dc : DrainageCalculator ℚ)
    (grid : IceGrid) (cfg : EnthConfig) (vH : ℚ) (Enth_s : Int → ℚ) (n : Nat)
    (s : DrainState) (hdt : 0 ≤ cfg.dt_secs) (hdz : 0 ≤ grid.dz_fine)
    (hD : ∀ omega : ℚ, 0 ≤ dc.get_drainage_rate omega) (hs : 0 ≤ s.Hdrainedtotal) :
    0 ≤ (forLoop 0 (drainLevel EC dc grid cfg vH Enth_s) n s).Hdrainedtotal := by
  induction n with
  | zero => exact hs
  | succ n ih =>
    exact drainLevel_Hdrainedtotal_nonneg EC dc grid cfg vH Enth_s _ _ hdt hdz hD ih

/-- The preliminary melt rate of a column without stored water that is not floating is
non-negative. -/
theorem basalMeltPrelim_nonneg (env : StepEnv) (inp : ColumnInput) (pr : ColumnPrep)
    (hoc : inp.ocean = false) (hw : inp.vHmelt ≤ 0) : 0 ≤ basalMeltPrelim env inp pr := by
  unfold basalMeltPrelim
  dsimp only
  rw [if_neg (by rw [hoc]; simp)]
  split_ifs with h1 h2 h3 h4
  · exact le_refl _
  · exact le_refl _
  · exact not_lt.mp (fun h => h3 ⟨hw, h⟩)
  · exact le_refl _
  · exact not_lt.mp (fun h => h4 ⟨hw, h⟩)

/-- C33: for a grounded column (not ocean) that is not ice-free, holds no stored water
(`vHmelt ≤ 0`) and whose solve succeeds, with `dt > 0`, `dz_fine > 0` and a non-negative
drainage rate, the basal melt rate written by the step is `≥ 0`: the preliminary melt rate is
`≥ 0` (zero for a cold base, a negative flux balance is reset to zero) and the drained
thickness `Hdrainedtotal` is `≥ 0`. -/
theorem no_refreeze_without_water (env : StepEnv) (inp : ColumnInput) (st : StepState)
    (c1 : enthSystemCtx) (x1 : Int → ℚ)
    (hks : columnKs env.grid inp ≠ 0)
    (hsolve : solveThisColumn env.m env.solver (columnReady env inp st) st.Enthnew
      = some (c1, x1, 0))
    (hgr : inp.grounded = true) (hoc : inp.ocean = false) (hw : inp.vHmelt ≤ 0)
    (hdt : 0 < env.cfg.dt_secs) (hdz : 0 < env.grid.dz_fine)
    (hD : ∀ omega : ℚ, 0 ≤ env.dc.get_drainage_rate omega) :
    0 ≤ (columnStep env inp st).2.vbmr inp.i inp.j ∧
    0 ≤ basalMeltPrelim env inp
      (columnPrepare env.EC env.grid env.ice env.cfg inp st.esys) ∧
    0 ≤ (drainColumn env.EC env.dc env.grid env.cfg inp.vH c1.Enth_s
      (columnKs env.grid inp) x1 st.liquifiedCount).Hdrainedtotal := by
  have hprelim := basalMeltPrelim_nonneg env inp
    (columnPrepare env.EC env.grid env.ice env.cfg inp st.esys) hoc hw
  have hHd : 0 ≤ (drainColumn env.EC env.dc env.grid env.cfg inp.vH c1.Enth_s
      (columnKs env.grid inp) x1 st.liquifiedCount).Hdrainedtotal :=
    drainLoop_Hdrainedtotal_nonneg env.EC env.dc env.grid env.cfg inp.vH c1.Enth_s _ _
      hdt.le hdz.le hD (le_refl _)
  refine ⟨?_, hprelim, hHd⟩
  rw [columnStep_solved env inp st c1 x1 hks hsolve]
  show 0 ≤ (columnFinish env inp _ _ c1 x1).vbmr inp.i inp.j
  rw [columnFinish_vbmr, setAt2_same, if_pos hgr]
  exact add_nonneg hprelim (div_nonneg hHd hdt.le)

/-- Instance of C33: the grounded column `exInpDry` (`ks = 2`, no stored water) with the
solver `exSolverOk`. -/
theorem no_refreeze_without_water_witness :
    exInpDry.vHmelt = 0 ∧ 0 ≤ (columnStep exEnv exInpDry exState).2.vbmr 0 0 := by
  obtain ⟨c1, x1, hsolve⟩ := solveThisColumn_column exEnv exInpDry exState
  exact ⟨rfl,
    (no_refreeze_without_water exEnv exInpDry exState c1 x1
      (by
        show columnKs exGrid exInpDry ≠ 0
        rw [exKs_eq exInpDry rfl]
        norm_num)
      hsolve rfl rfl (by show (0 : ℚ) ≤ 0; norm_num) (by show (0 : ℚ) < 4; norm_num)
      (by show (0 : ℚ) < 1; norm_num)
      (fun omega =>
        get_drainage_rate_nonneg (1 / 100) (1 / 20) (by norm_num) (by norm_num) omega)).1⟩

/-- C38: for a grounded column (not ocean) that is not ice-free and whose solve succeeds,
with `dt > 0`, the step writes
`vHmelt = max(0, min(hmelt_max, vHmelt_in + vbmr_out*dt - hmelt_decay_rate*dt))`, where
`vbmr_out` is the basal melt rate it writes: the preliminary melt rate plus
`Hdrainedtotal/dt`. -/
theorem water_layer_consistent (env : StepEnv) (inp : ColumnInput) (st : StepState)
    (c1 : enthSystemCtx) (x1 : Int → ℚ)
    (hks : columnKs env.grid inp ≠ 0)
    (hsolve : solveThisColumn env.m env.solver (columnReady env inp st) st.Enthnew
      = some (c1, x1, 0))
    (hgr : inp.grounded = true) (hoc : inp.ocean = false) (hdt : 0 < env.cfg.dt_secs) :
    (columnStep env inp st).2.vHmelt inp.i inp.j
      = max 0 (min env.cfg.hmelt_max
          (inp.vHmelt + (columnStep env inp st).2.vbmr inp.i inp.j * env.cfg.dt_secs
            - env.cfg.hmelt_decay_rate * env.cfg.dt_secs)) ∧
    (columnStep env inp st).2.vbmr inp.i inp.j
      = basalMeltPrelim env inp (columnPrepare env.EC env.grid env.ice env.cfg inp st.esys)
        + (drainColumn env.EC env.dc env.grid env.cfg inp.vH c1.Enth_s
            (columnKs env.grid inp) x1 st.liquifiedCount).Hdrainedtotal / env.cfg.dt_secs := by
  rw [columnStep_solved env inp st c1 x1 hks hsolve]
  have hvb : (columnFinish env inp
        { st with
          vertSacrCount :=
            if (columnPrepare env.EC env.grid env.ice env.cfg inp st.esys).lambda < 1
            then st.vertSacrCount + 1 else st.vertSacrCount
          vbmr := setAt2 st.vbmr inp.i inp.j
            (basalMeltPrelim env inp
              (columnPrepare env.EC env.grid env.ice env.cfg inp st.esys)) }
        (basalMeltPrelim env inp (columnPrepare env.EC env.grid env.ice env.cfg inp st.esys))
        c1 x1).vbmr inp.i inp.j
      = basalMeltPrelim env inp (columnPrepare env.EC env.grid env.ice env.cfg inp st.esys)
        + (drainColumn env.EC env.dc env.grid env.cfg inp.vH c1.Enth_s
            (columnKs env.grid inp) x1 st.liquifiedCount).Hdrainedtotal / env.cfg.dt_secs := by
    rw [columnFinish_vbmr, setAt2_same, if_pos hgr]
  refine ⟨?_, hvb⟩
  show (columnFinish env inp _ _ c1 x1).vHmelt inp.i inp.j
    = max 0 (min env.cfg.hmelt_max
        (inp.vHmelt + (columnFinish env inp _ _ c1 x1).vbmr inp.i inp.j * env.cfg.dt_secs
          - env.cfg.hmelt_decay_rate * env.cfg.dt_secs))
  rw [hvb, columnFinish_vHmelt, setAt2_same, if_neg (by rw [hoc]; simp), if_pos hgr,
    if_pos hgr, PetscMax_eq_max, PetscMin_eq_min, add_mul, div_mul_cancel₀ _ hdt.ne',
    ← add_assoc]

/-- Instance of C38: the grounded column `exInpWet` (`ks = 2`) with the solver
`exSolverOk`. -/
theorem water_layer_consistent_witness :
    (columnStep exEnv exInpWet exState).2.vHmelt 0 0
      = max 0 (min exEnv.cfg.hmelt_max
          (exInpWet.vHmelt + (columnStep exEnv exInpWet exState).2.vbmr 0 0 * exEnv.cfg.dt_secs
            - exEnv.cfg.hmelt_decay_rate * exEnv.cfg.dt_secs)) := by
  obtain ⟨c1, x1, hsolve⟩ := solveThisColumn_column exEnv exInpWet exState
  exact (water_layer_consistent exEnv exInpWet exState c1 x1
    (by
      show columnKs exGrid exInpWet ≠ 0
      rw [exKs_eq exInpWet rfl]
      norm_num)
    hsolve rfl rfl (by show (0 : ℚ) < 4; norm_num)).1

/-! ## Claims on `fill_tempenth_front` -/

theorem frontZero_at (j : Int) (s : FrontArrays) (k : Int) :
    (frontZero j s).Enthrev k = (if k = j then 0 else s.Enthrev k) ∧
    (frontZero j s).EnthrevE k = (if k = j then 0 else s.EnthrevE k) ∧
    (frontZero j s).EnthrevW k = (if k = j then 0 else s.EnthrevW k) ∧
    (frontZero j s).EnthrevN k = (if k = j then 0 else s.EnthrevN k) ∧
    (frontZero j s).EnthrevS k = (if k = j then 0 else s.EnthrevS k) :=
  ⟨rfl, rfl, rfl, rfl, rfl⟩

/-- The scratch columns after the zeroing loop. -/
theorem frontZeroLoop_at (n : Nat) (a : FrontArrays) (k : Int) :
    (forLoop 0 frontZero n a).Enthrev k
        = (if 0 ≤ k ∧ k < (n : Int) then 0 else a.Enthrev k) ∧
    (forLoop 0 frontZero n a).EnthrevE k
        = (if 0 ≤ k ∧ k < (n : Int) then 0 else a.EnthrevE k) ∧
    (forLoop 0 frontZero n a).EnthrevW k
        = (if 0 ≤ k ∧ k < (n : Int) then 0 else a.EnthrevW k) ∧
    (forLoop 0 frontZero n a).EnthrevN k
        = (if 0 ≤ k ∧ k < (n : Int) then 0 else a.EnthrevN k) ∧
    (forLoop 0 frontZero n a).EnthrevS k
        = (if 0 ≤ k ∧ k < (n : Int) then 0 else a.EnthrevS k) := by
  induction n with
  | zero =>
    have : ¬ (0 ≤ k ∧ k < ((0 : Nat) : Int)) := by omega
    simp only [if_neg this]
    exact ⟨rfl, rfl, rfl, rfl, rfl⟩
  | succ n ih =>
    obtain ⟨i1, i2, i3, i4, i5⟩ := ih
    have hstep : forLoop 0 frontZero (n + 1) a
        = frontZero (0 + (n : Int)) (forLoop 0 frontZero n a) := rfl
    obtain ⟨z1, z2, z3, z4, z5⟩ := frontZero_at (0 + (n : Int)) (forLoop 0 frontZero n a) k
    rw [hstep, z1, z2, z3, z4, z5, i1, i2, i3, i4, i5]
    by_cases hk : k = 0 + (n : Int)
    · have hin : 0 ≤ k ∧ k < ((n + 1 : Nat) : Int) := by push_cast; omega
      refine ⟨?_, ?_, ?_, ?_, ?_⟩ <;> simp only [if_pos hin, if_pos hk]
    · by_cases h : 0 ≤ k ∧ k < (n : Int)
      · have hin : 0 ≤ k ∧ k < ((n + 1 : Nat) : Int) := by push_cast; omega
        refine ⟨?_, ?_, ?_, ?_, ?_⟩ <;> simp only [if_neg hk, if_pos h, if_pos hin]
      · have hout : ¬ (0 ≤ k ∧ k < ((n + 1 : Nat) : Int)) := by push_cast; omega
        refine ⟨?_, ?_, ?_, ?_, ?_⟩ <;> simp only [if_neg hk, if_neg h, if_neg hout]

/-- The scratch columns after the averaging loop. -/
theorem frontAverageLoop_at (N : Int) (n : Nat) (a : FrontArrays) :
    (forLoop 0 (frontAverage N) n a).EnthrevE = a.EnthrevE ∧
    (forLoop 0 (frontAverage N) n a).EnthrevW = a.EnthrevW ∧
    (forLoop 0 (frontAverage N) n a).EnthrevN = a.EnthrevN ∧
    (forLoop 0 (frontAverage N) n a).EnthrevS = a.EnthrevS ∧
    ∀ k : Int, (forLoop 0 (frontAverage N) n a).Enthrev k
      = if 0 ≤ k ∧ k < (n : Int) then
          (a.EnthrevE k + a.EnthrevW k + a.EnthrevN k + a.EnthrevS k) / (N : ℚ)
        else a.Enthrev k := by
  induction n with
  | zero =>
    refine ⟨rfl, rfl, rfl, rfl, ?_⟩
    intro k
    have : ¬ (0 ≤ k ∧ k < ((0 : Nat) : Int)) := by omega
    rw [if_neg this]
    rfl
  | succ n ih =>
    obtain ⟨i1, i2, i3, i4, i5⟩ := ih
    have hstep : forLoop 0 (frontAverage N) (n + 1) a
        = frontAverage N (0 + (n : Int)) (forLoop 0 (frontAverage N) n a) := rfl
    rw [hstep]
    refine ⟨i1, i2, i3, i4, ?_⟩
    intro k
    show setAt (forLoop 0 (frontAverage N) n a).Enthrev (0 + (n : Int))
      (((forLoop 0 (frontAverage N) n a).EnthrevE (0 + (n : Int))
        + (forLoop 0 (frontAverage N) n a).EnthrevW (0 + (n : Int))
        + (forLoop 0 (frontAverage N) n a).EnthrevN (0 + (n : Int))
        + (forLoop 0 (frontAverage N) n a).EnthrevS (0 + (n : Int))) / (N : ℚ)) k = _
    rw [i1, i2, i3, i4]
    by_cases hk : k = 0 + (n : Int)
    · rw [hk, setAt_same, if_pos (by push_cast; omega)]
    · rw [setAt_other _ _ _ _ hk, i5]
      by_cases h : 0 ≤ k ∧ k < (n : Int)
      · rw [if_pos h, if_pos (by push_cast; omega)]
      · rw [if_neg h, if_neg (by push_cast; omega)]

/-- What `fill_tempenth_front` writes at a newly added cell with `N ≥ 1` grounded neighbours,
at a level `k < ks`: the east column if the east neighbour is grounded, plus the column
gathered last into `EnthrevW` (south, else north, else west), divided by `N`. -/
theorem fillFrontCell_value (grid : IceGrid) (inp : FrontInput) (sea_level : ℚ) (i j : Int)
    (s : FrontArrays × (Int → Int → Int → ℚ)) (k : Int)
    (ht : inp.vTestVar i j = 1) (hN : 0 < frontCount inp sea_level i j)
    (h0 : 0 ≤ k) (hk : k < Int.floor (inp.vH i j / grid.dz_fine)) :
    (fillFrontCell grid inp sea_level i j s).2 i j k
      = ((if groundedNeighbour inp sea_level (i + 1) j = true then
            inp.getValColumn (i + 1) j (Int.floor (inp.vH i j / grid.dz_fine)) k
          else 0)
        + (if groundedNeighbour inp sea_level i (j - 1) = true then
            inp.getValColumn i (j - 1) (Int.floor (inp.vH i j / grid.dz_fine)) k
          else if groundedNeighbour inp sea_level i (j + 1) = true then
            inp.getValColumn i (j + 1) (Int.floor (inp.vH i j / grid.dz_fine)) k
          else if groundedNeighbour inp sea_level (i - 1) j = true then
            inp.getValColumn (i - 1) j (Int.floor (inp.vH i j / grid.dz_fine)) k
          else 0))
        / ((frontCount inp sea_level i j : Int) : ℚ) := by
  have hin : 0 ≤ k ∧ k < (((Int.floor (inp.vH i j / grid.dz_fine)).toNat : Nat) : Int) := by
    rw [Int.toNat_of_nonneg (by omega)]
    exact ⟨h0, hk⟩
  obtain ⟨-, zE, zW, zN, zS⟩ := frontZeroLoop_at (Int.floor (inp.vH i j / grid.dz_fine)).toNat
    { s.1 with
      EnthrevE := inp.getValColumn i j (Int.floor (inp.vH i j / grid.dz_fine)) } k
  rw [if_pos hin] at zE zW zN zS
  unfold fillFrontCell
  rw [if_pos ht]
  dsimp only
  rw [setAt2_same, if_pos hN]
  rw [(frontAverageLoop_at _ _ _).2.2.2.2 k, if_pos hin]
  cases groundedNeighbour inp sea_level (i + 1) j <;>
    cases groundedNeighbour inp sea_level (i - 1) j <;>
    cases groundedNeighbour inp sea_level i (j + 1) <;>
    cases groundedNeighbour inp sea_level i (j - 1) <;>
    simp [zE, zW, zN, zS]

/-- C35, evaluated at a failing input: the newly added cell `(0,0)` of `exFront` (`ks = 2`)
has `N = 2` grounded neighbours, west with enthalpy `10` and north with enthalpy `30`.  Both
columns are gathered into `EnthrevW`, the second over the first, and `EnthrevN`, `EnthrevS`
stay zero: the value written at level `0` is `(0 + 30 + 0 + 0)/2 = 15`, not the neighbour
average `(10 + 30)/2 = 20`. -/
theorem fill_tempenth_front_drops_neighbours :
    exFront.vTestVar 0 0 = 1 ∧
    groundedNeighbour exFront 0 (0 + 1) 0 = false ∧
    groundedNeighbour exFront 0 (0 - 1) 0 = true ∧
    groundedNeighbour exFront 0 0 (0 + 1) = true ∧
    groundedNeighbour exFront 0 0 (0 - 1) = false ∧
    frontCount exFront 0 0 0 = 2 ∧
    exFront.getValColumn (0 - 1) 0 2 0 = 10 ∧ exFront.getValColumn 0 (0 + 1) 2 0 = 30 ∧
    (fill_tempenth_front exGrid exOwnedCell exFront (exFrontArrays, fun _ _ _ => 0)).1 = 0 ∧
    (fill_tempenth_front exGrid exOwnedCell exFront (exFrontArrays, fun _ _ _ => 0)).2.2 0 0 0
      = 15 ∧
    (fill_tempenth_front exGrid exOwnedCell exFront (exFrontArrays, fun _ _ _ => 0)).2.2 0 0 0
      ≠ (exFront.getValColumn (0 - 1) 0 2 0 + exFront.getValColumn 0 (0 + 1) 2 0) / 2 := by
  have ht : exFront.vTestVar 0 0 = 1 := by norm_num [exFront]
  have hge : groundedNeighbour exFront 0 (0 + 1) 0 = false := by
    norm_num [groundedNeighbour, exFront]
  have hgw : groundedNeighbour exFront 0 (0 - 1) 0 = true := by
    norm_num [groundedNeighbour, exFront]
  have hgn : groundedNeighbour exFront 0 0 (0 + 1) = true := by
    norm_num [groundedNeighbour, exFront]
  have hgs : groundedNeighbour exFront 0 0 (0 - 1) = false := by
    norm_num [groundedNeighbour, exFront]
  have hN : frontCount exFront 0 0 0 = 2 := by
    unfold frontCount
    rw [hge, hgw, hgn, hgs]
    norm_num
  have hfloor : Int.floor (exFront.vH 0 0 / exGrid.dz_fine) = 2 := by
    have h2 : exFront.vH 0 0 / exGrid.dz_fine = ((2 : Int) : ℚ) := by
      norm_num [exFront, exGrid]
    rw [h2, Int.floor_intCast]
  have hw : exFront.getValColumn (0 - 1) 0 2 0 = 10 := by norm_num [exFront]
  have hn : exFront.getValColumn 0 (0 + 1) 2 0 = 30 := by norm_num [exFront]
  have hfull : fill_tempenth_front exGrid exOwnedCell exFront (exFrontArrays, fun _ _ _ => 0)
      = (0, fillFrontCell exGrid exFront 0 0 0 (exFrontArrays, fun _ _ _ => 0)) := rfl
  have hval : (fill_tempenth_front exGrid exOwnedCell exFront
      (exFrontArrays, fun _ _ _ => 0)).2.2 0 0 0 = 15 := by
    rw [hfull]
    show (fillFrontCell exGrid exFront 0 0 0 (exFrontArrays, fun _ _ _ => 0)).2 0 0 0 = 15
    rw [fillFrontCell_value exGrid exFront 0 0 0 _ 0 ht (by rw [hN]; norm_num) (le_refl _)
      (by rw [hfloor]; norm_num), hge, hgs, hgn, hN, hfloor, hn]
    norm_num
  refine ⟨ht, hge, hgw, hgn, hgs, hN, hw, hn, by rw [hfull], hval, ?_⟩
  rw [hval, hw, hn]
  norm_num

end PISM
